import Mathlib

/-! slua_unreal, `LuaObject.cpp`: marshalling bridge between the Lua runtime and the host
reflection system.

A shallow embedding of `Plugins/slua_unreal/Source/slua_unreal/Private/LuaObject.cpp`.

* The Lua runtime is a `World` value: the C-frame stack, the upvalues of the running C closure,
  a heap of reference objects (tables, C closures, full userdata) and the registry table.
* Host memory is part of the same `World`: a map from byte address to the typed value whose
  storage begins at that address.
* A C function of the bridge becomes a `LuaM` computation.  `luaL_error` (a `longjmp` in C) is the
  `error` outcome; it carries the world at the moment the error was raised, so that effects that
  happened before the error stay observable.
-/

namespace slua

/-! ## Script values -/

/-- Identity of a C function that can be handed to Lua as a `lua_CFunction`. -/
inductive CFunction where
  | classIndex
  | classNewindex
  | removeFromCacheGC
  | ufuncClosure
  | gcObject
  | gcClass
  | gcStructClass
  | gcStruct
  | fn (id : Nat)
  deriving DecidableEq, Repr

/-- A `lua_Number` (C `double`), identified by its bit pattern; the model does no arithmetic on it. -/
structure lua_Number where
  bits : Nat
  deriving DecidableEq, Repr

/-- A host `float`, identified by its bit pattern. -/
structure CFloat where
  bits : Nat
  deriving DecidableEq, Repr

/-- A Lua value.  Tables, C closures with upvalues and full userdata are references into the heap;
a C function pushed with no upvalue is a light C function (a plain value), as in Lua 5.3. -/
inductive LuaValue where
  | nil
  | boolean (b : Bool)
  | integer (i : Int)
  | number (d : lua_Number)
  | string (s : String)
  | lightuserdata (p : Nat)
  | cfunction (f : CFunction)
  | table (ref : Nat)
  | closure (ref : Nat)
  | userdata (ref : Nat)
  deriving DecidableEq, Repr

/-- The key/value pairs of a table, in traversal order. -/
abbrev Entries := List (LuaValue × LuaValue)

/-- Raw read `t[key]`; an absent key reads as `nil`. -/
def rawgetE : Entries → LuaValue → LuaValue
  | [], _ => .nil
  | (k, v) :: rest, key => if k = key then v else rawgetE rest key

/-- The entries of a table without the entry of `key`. -/
def eraseKey : Entries → LuaValue → Entries
  | [], _ => []
  | (k, v) :: rest, key => if k = key then eraseKey rest key else (k, v) :: eraseKey rest key

/-- Raw write `t[key] = val`; writing `nil` removes the key. -/
def rawsetE (t : Entries) (key val : LuaValue) : Entries :=
  if val = .nil then eraseKey t key else eraseKey t key ++ [(key, val)]

/-- The entry that follows the entry of `key`; `none` when `key` is not a key of the table. -/
def nextAfter : Entries → LuaValue → Option (Option (LuaValue × LuaValue))
  | [], _ => none
  | (k, _) :: rest, key => if k = key then some rest.head? else nextAfter rest key

/-- One step of a table traversal (`luaH_next`): from `nil` the first entry, otherwise the entry
after `key`.  `some none` means the traversal is over, `none` that `key` is not in the table. -/
def nextE (t : Entries) (key : LuaValue) : Option (Option (LuaValue × LuaValue)) :=
  if key = .nil then some t.head? else nextAfter t key

/-- A reference object of the Lua heap. -/
inductive HeapObj where
  | table (entries : Entries) (metatable : Option Nat)
  | closure (f : CFunction) (upvalues : List LuaValue)
  | userdata (ud : Nat) (metatable : Option Nat)
  deriving DecidableEq, Repr

/-! ## Host memory -/

/-- The typed value whose storage begins at an address of host memory.  `zero` is zero-filled
memory, which every scalar kind reads as its zero value. -/
inductive Cell where
  | zero
  | int32 (i : Int)
  | float (f : CFloat)
  | bool (b : Bool)
  | str (s : String)
  | object (p : Nat)
  | byte (b : Nat)
  deriving DecidableEq, Repr

/-! ## Host reflection data -/

/-- A class of the host reflection system; `name` is what `GetName()` returns. -/
structure UClass where
  name : String
  deriving DecidableEq, Repr

/-- A struct-type descriptor: its identity and `GetStructureSize()`. -/
structure UScriptStruct where
  addr : Nat
  structureSize : Nat
  deriving DecidableEq, Repr

/-- A property descriptor of the host. -/
structure UProperty where
  /-- `GetClass()`: the property kind. -/
  cls : UClass
  /-- `GetOffset_ForInternal()`: offset of the value inside its container. -/
  Offset_Internal : Nat
  ElementSize : Nat
  ArrayDim : Nat
  PropertyFlags : Nat
  /-- `UStructProperty::Struct`; unused by the other kinds. -/
  Struct : UScriptStruct
  deriving DecidableEq, Repr

/-- `UProperty::GetSize()`. -/
def UProperty.GetSize (p : UProperty) : Nat := p.ArrayDim * p.ElementSize

/-- A function descriptor: its properties in `TFieldIterator` order (parameters first). -/
structure UFunction where
  name : String
  props : List UProperty
  ParmsSize : Nat
  ReturnValueOffset : Nat
  deriving DecidableEq, Repr

def CPF_Parm : Nat := 0x80

def CPF_OutParm : Nat := 0x100

def CPF_ReturnParm : Nat := 0x400

def MAX_uint16 : Nat := 0xffff

/-- A struct value owned by a script wrapper: `LuaStruct{buf,size,uss}`. -/
structure LuaStruct where
  buf : Nat
  size : Nat
  uss : UScriptStruct
  deriving DecidableEq, Repr

/-- The functions that can be stored in `pusherMap`. -/
inductive PushPropertyFunction where
  | pushEnumProperty
  | pushUIntProperty
  | pushFloatProperty
  | pushUBoolProperty
  | pushUArrayProperty
  | pushUTextProperty
  | pushUStrProperty
  | pushUStructProperty
  | pushUMulticastDelegateProperty
  | pushUObjectProperty
  | fn (id : Nat)
  deriving DecidableEq, Repr

/-- The functions that can be stored in `checkerMap`. -/
inductive CheckPropertyFunction where
  | checkUIntProperty
  | checkUBoolProperty
  | checkUFloatProperty
  | checkUStructProperty
  | checkUTextProperty
  | checkEnumProperty
  | checkUStrProperty
  | checkUObjectProperty
  | fn (id : Nat)
  deriving DecidableEq, Repr

/-! ## The world and the monad of bridge functions -/

/-- State of the embedded runtime together with the host state the bridge touches. -/
structure World where
  /-- Stack of the running C function, top of stack first. -/
  stack : List LuaValue
  /-- Upvalues of the running C closure, upvalue 1 first. -/
  upvalues : List LuaValue
  /-- Heap of reference objects. -/
  heap : Nat → Option HeapObj
  /-- Next unused heap reference. -/
  nextRef : Nat
  /-- The registry table (`LUA_REGISTRYINDEX`). -/
  registry : Entries
  /-- Field `cacheObjRef` of the `LuaState` that owns this `lua_State`. -/
  cacheObjRef : Int
  /-- Host memory. -/
  mem : Nat → Cell
  /-- Root flag of each host entity (`AddToRoot` sets it, `RemoveFromRoot` clears it). -/
  rooted : Nat → Bool
  /-- Host functions invoked through `ProcessEvent`, latest first: receiver and function. -/
  invoked : List (Nat × String)
  /-- First address of host memory not handed out yet (`FMemory::Malloc`, `FMemory_Alloca`). -/
  brk : Nat
  /-- The `LuaStruct` objects, by address. -/
  luaStructs : Nat → Option LuaStruct
  /-- The static `VectorStruct`; `none` is the null pointer it holds before `init`. -/
  VectorStruct : Option UScriptStruct
  /-- The global `pusherMap`, a `std::map` from property class to function pointer
  (`none` is a null function pointer). -/
  pusherMap : List (UClass × Option PushPropertyFunction)
  /-- The global `checkerMap`. -/
  checkerMap : List (UClass × Option CheckPropertyFunction)

/-- Errors raised through `luaL_error` and friends, with the arguments of the format string. -/
inductive LuaError where
  /-- "unsupport type %s to push". -/
  | unsupportPush (tn : String)
  /-- "unsupport param type %s at %d". -/
  | unsupportParam (tn : String) (i : Int)
  /-- "expect struct size == %d, but got %d". -/
  | structSize (expect got : Nat)
  /-- "Call ufunction error". -/
  | callUFunction
  /-- Argument `arg` does not have the expected script type (`luaL_checktype`, `luaL_check*`). -/
  | typeError (arg : Int) (expected : String)
  /-- "attempt to index a %s value": a field access on a value that is not a table. -/
  | indexError
  /-- Not a script error: the C code left defined behaviour (invalid index, null dereference). -/
  | undefinedBehaviour
  /-- Not a script error: behaviour that this model does not cover (metamethod dispatch). -/
  | notModelled
  /-- The bounded loop of the model ran out of fuel. -/
  | outOfFuel
  deriving DecidableEq, Repr

/-- Outcome of a bridge function. -/
inductive Result (α : Type) where
  | ok (a : α) (w : World)
  | error (e : LuaError) (w : World)

/-- The world in which a computation ended. -/
def Result.world {α : Type} : Result α → World
  | .ok _ w => w
  | .error _ w => w

/-- The value a computation returned, if it returned. -/
def Result.value? {α : Type} : Result α → Option α
  | .ok a _ => some a
  | .error _ _ => none

/-- The error a computation raised, if it raised one. -/
def Result.error? {α : Type} : Result α → Option LuaError
  | .ok _ _ => none
  | .error e _ => some e

/-- A bridge function: reads and updates the world, returns a value or raises an error. -/
def LuaM (α : Type) : Type := World → Result α

/-- Sequencing of bridge functions; an error ends the computation. -/
def LuaM.bind {α β : Type} (m : LuaM α) (f : α → LuaM β) : LuaM β := fun w =>
  match m w with
  | .ok a w1 => f a w1
  | .error e w1 => .error e w1

instance : Monad LuaM where
  pure a := fun w => .ok a w
  bind := LuaM.bind

/-- The aborting error of `luaL_error`. -/
def luaL_error {α : Type} (e : LuaError) : LuaM α := fun w => .error e w

/-- The non-fatal assertion `ensure` of the host: it reports and execution continues. -/
def ensure (_cond : Bool) : LuaM Unit := pure ()

/-! ## The Lua C API -/

def LUA_REGISTRYINDEX : Int := -1001000

def lua_upvalueindex (i : Int) : Int := LUA_REGISTRYINDEX - i

def LUA_RIDX_GLOBALS : Int := 2

def LUA_NOREF : Int := -2

/-- Position, in the top-first stack list, of a stack index (positive: from the bottom of the
frame, negative: from the top). -/
def stackPos (stack : List LuaValue) (idx : Int) : Option Nat :=
  if 0 < idx then
    if idx.toNat ≤ stack.length then some (stack.length - idx.toNat) else none
  else if idx < 0 ∧ LUA_REGISTRYINDEX < idx then
    if (-idx).toNat ≤ stack.length then some ((-idx).toNat - 1) else none
  else none

/-- The value at an index (`index2addr`): a stack slot, or an upvalue for a pseudo-index below
the registry index. -/
def index2addr (stack upvalues : List LuaValue) (idx : Int) : Option LuaValue :=
  if idx < LUA_REGISTRYINDEX then upvalues[(LUA_REGISTRYINDEX - idx).toNat - 1]?
  else (stackPos stack idx).bind (fun p => stack[p]?)

/-- The value at an index of the running C function. -/
def index2value (w : World) (idx : Int) : Option LuaValue :=
  index2addr w.stack w.upvalues idx

/-- The table an index denotes, with its metatable: the registry for `LUA_REGISTRYINDEX`,
otherwise the heap table referenced by the value at the index. -/
def tableAt (w : World) (idx : Int) : Option (Entries × Option Nat) :=
  if idx = LUA_REGISTRYINDEX then some (w.registry, none)
  else match index2value w idx with
    | some (.table r) =>
      match w.heap r with
      | some (.table es mt) => some (es, mt)
      | _ => none
    | _ => none

/-- Replace the entries of the table an index denotes. -/
def setTableAt (w : World) (idx : Int) (es : Entries) : World :=
  if idx = LUA_REGISTRYINDEX then { w with registry := es }
  else match index2value w idx with
    | some (.table r) =>
      match w.heap r with
      | some (.table _ mt) =>
        { w with heap := fun x => if x = r then some (.table es mt) else w.heap x }
      | _ => w
    | _ => w

def pushValue (v : LuaValue) : LuaM Unit := fun w => .ok () { w with stack := v :: w.stack }

def lua_gettop : LuaM Int := fun w => .ok w.stack.length w

def lua_pushnil : LuaM Unit := pushValue .nil

def lua_pushlightuserdata (p : Nat) : LuaM Unit := pushValue (.lightuserdata p)

def lua_pushinteger (i : Int) : LuaM Unit := pushValue (.integer i)

def lua_pushnumber (d : lua_Number) : LuaM Unit := pushValue (.number d)

def lua_pushboolean (b : Bool) : LuaM Unit := pushValue (.boolean b)

def lua_pushstring (s : String) : LuaM Unit := pushValue (.string s)

def lua_pushvalue (idx : Int) : LuaM Unit := fun w =>
  match index2value w idx with
  | some v => .ok () { w with stack := v :: w.stack }
  | none => .error .undefinedBehaviour w

def lua_pop (n : Nat) : LuaM Unit := fun w =>
  if n ≤ w.stack.length then .ok () { w with stack := w.stack.drop n }
  else .error .undefinedBehaviour w

/-- Removes the element at a stack index, shifting down the elements above it. -/
def lua_remove (idx : Int) : LuaM Unit := fun w =>
  match stackPos w.stack idx with
  | some p => if p < w.stack.length then .ok () { w with stack := w.stack.eraseIdx p }
              else .error .undefinedBehaviour w
  | none => .error .undefinedBehaviour w

/-- Moves the top element into the position of a stack index, shifting up the elements above. -/
def lua_insert (idx : Int) : LuaM Unit := fun w =>
  match stackPos w.stack idx, w.stack with
  | some p, top :: rest =>
    if p ≤ rest.length then .ok () { w with stack := rest.take p ++ top :: rest.drop p }
    else .error .undefinedBehaviour w
  | _, _ => .error .undefinedBehaviour w

def lua_isnil (idx : Int) : LuaM Bool := fun w =>
  .ok (decide (index2value w idx = some .nil)) w

def lua_istable (idx : Int) : LuaM Bool := fun w =>
  match index2value w idx with
  | some (.table _) => .ok true w
  | _ => .ok false w

/-- `lua_rawget`: replaces the key on top of the stack by `t[key]`, `t` the table at `idx`. -/
def lua_rawget (idx : Int) : LuaM Unit := fun w =>
  match index2value w idx, w.stack with
  | some (.table r), key :: rest =>
    match w.heap r with
    | some (.table es _) => .ok () { w with stack := rawgetE es key :: rest }
    | _ => .error .undefinedBehaviour w
  | _, _ => .error .undefinedBehaviour w

/-- `lua_rawset`: `t[key] = value` for the value on top and the key below it; pops both. -/
def lua_rawset (idx : Int) : LuaM Unit := fun w =>
  match index2value w idx, w.stack with
  | some (.table r), val :: key :: rest =>
    match w.heap r with
    | some (.table es mt) =>
      if key = .nil then .error .undefinedBehaviour w
      else .ok () { w with
        stack := rest
        heap := fun x => if x = r then some (.table (rawsetE es key val) mt) else w.heap x }
    | _ => .error .undefinedBehaviour w
  | _, _ => .error .undefinedBehaviour w

/-- `lua_rawgeti`: pushes `t[n]` without metamethods. -/
def lua_rawgeti (idx : Int) (n : Int) : LuaM Unit := fun w =>
  match tableAt w idx with
  | some (es, _) => .ok () { w with stack := rawgetE es (.integer n) :: w.stack }
  | none => .error .undefinedBehaviour w

/-- `lua_rawseti`: `t[n] = value on top`, pops the value. -/
def lua_rawseti (idx : Int) (n : Int) : LuaM Unit := fun w =>
  match tableAt w idx, w.stack with
  | some (es, _), val :: rest =>
    .ok () { setTableAt w idx (rawsetE es (.integer n) val) with stack := rest }
  | _, _ => .error .undefinedBehaviour w

/-- `lua_geti`: pushes `t[n]`.  A table without metatable is read raw; an `__index` lookup on a
table that has a metatable is outside this model. -/
def lua_geti (idx : Int) (n : Int) : LuaM Unit := fun w =>
  match tableAt w idx with
  | some (es, none) => .ok () { w with stack := rawgetE es (.integer n) :: w.stack }
  | some (es, some _) =>
    if rawgetE es (.integer n) = .nil then .error .notModelled w
    else .ok () { w with stack := rawgetE es (.integer n) :: w.stack }
  | none => .error .indexError w

/-- `lua_createtable` (the size hints have no observable effect) and `lua_newtable`. -/
def lua_createtable (_narr _nrec : Nat) : LuaM Unit := fun w =>
  .ok () { w with
    stack := .table w.nextRef :: w.stack
    heap := fun r => if r = w.nextRef then some (.table [] none) else w.heap r
    nextRef := w.nextRef + 1 }

def lua_newtable : LuaM Unit := lua_createtable 0 0

/-- Read of the static `VectorStruct`. -/
def getVectorStruct : LuaM (Option UScriptStruct) := fun w => .ok w.VectorStruct w

/-- Assignment to the static `VectorStruct`. -/
def setVectorStruct (v : Option UScriptStruct) : LuaM Unit := fun w =>
  .ok () { w with VectorStruct := v }

/-- The `LuaState` object that owns the running `lua_State`; only its `cacheObjRef` is used. -/
structure LuaState where
  cacheObjRef : Int

def LuaState.get : LuaM LuaState := fun w => .ok ⟨w.cacheObjRef⟩ w

/-! ## Identity cache (`getFromCache`, `cacheObj`) -/

/-- Search obj from registry, push cached obj and return true if find it. -/
def getFromCache (obj : Nat) : LuaM Bool := do
  let ls ← LuaState.get
  ensure (ls.cacheObjRef ≠ LUA_NOREF)
  lua_geti LUA_REGISTRYINDEX ls.cacheObjRef
  -- should be a table
  ensure (← lua_istable (-1))
  -- push obj as key
  lua_pushlightuserdata obj
  -- get key from table
  lua_rawget (-2)
  let mut ret := true
  lua_remove (-2) -- remove cache table
  if (← lua_isnil (-1)) then
    ret := false
    lua_pop 1
  return ret

/-- Records the userdata on top of the stack as the wrapper of `obj`. -/
def cacheObj (obj : Nat) : LuaM Unit := do
  let ls ← LuaState.get
  lua_geti LUA_REGISTRYINDEX ls.cacheObjRef
  lua_pushlightuserdata obj
  lua_pushvalue (-3) -- obj userdata
  lua_rawset (-3)
  lua_pop 1 -- pop cache table

/-- Result of `lua_touserdata`: the block of a full userdata, the pointer of a light userdata,
or `NULL`. -/
inductive UDPtr where
  | null
  | block (ref : Nat)
  | light (p : Nat)
  deriving DecidableEq, Repr

def lua_touserdata (idx : Int) : LuaM UDPtr := fun w =>
  match index2value w idx with
  | some (.userdata r) => .ok (.block r) w
  | some (.lightuserdata p) => .ok (.light p) w
  | _ => .ok .null w

/-- `lua_tocfunction`: the C function of a light C function or of a C closure, else `NULL`. -/
def lua_tocfunction (idx : Int) : LuaM (Option CFunction) := fun w =>
  match index2value w idx with
  | some (.cfunction f) => .ok (some f) w
  | some (.closure r) =>
    match w.heap r with
    | some (.closure f _) => .ok (some f) w
    | _ => .ok none w
  | _ => .ok none w

/-- Field `ud` of the `UserData<T>` block behind a userdata pointer (`ud->ud`). -/
def UserData_ud (ud : UDPtr) : LuaM Nat := fun w =>
  match ud with
  | .block r =>
    match w.heap r with
    | some (.userdata p _) => .ok p w
    | _ => .error .undefinedBehaviour w
  | _ => .error .undefinedBehaviour w

/-- A call through a C function pointer; `NULL` cannot be called. -/
def callPtr (call : CFunction → LuaM Int) (f : Option CFunction) : LuaM Int :=
  match f with
  | some f => call f
  | none => fun w => .error .undefinedBehaviour w

/-- The composed finalizer: runs the real gc function (upvalue 1), then clears the cache entry of
the entity the userdata at index 1 holds.  `call` is the code behind each C function pointer. -/
def removeFromCacheGC (call : CFunction → LuaM Int) : LuaM Int := do
  let p := lua_upvalueindex 1
  -- get real gc function
  let gc ← lua_tocfunction p
  let _ ← callPtr call gc
  -- get cache table
  let ls ← LuaState.get
  lua_geti LUA_REGISTRYINDEX ls.cacheObjRef
  ensure (← lua_istable (-1))
  -- check UD as light userdata
  let ud ← lua_touserdata 1
  lua_pushlightuserdata (← UserData_ud ud)
  lua_pushnil
  -- cache[obj] = nil
  lua_rawset (-3)
  -- pop cache table;
  lua_pop 1
  return 0

/-- `UObject::RemoveFromRoot`. -/
def RemoveFromRoot (obj : Nat) : LuaM Unit := fun w =>
  .ok () { w with rooted := fun p => if p = obj then false else w.rooted p }

/-- `UObject::AddToRoot`. -/
def AddToRoot (obj : Nat) : LuaM Unit := fun w =>
  .ok () { w with rooted := fun p => if p = obj then true else w.rooted p }

/-- Modelled from the spec: the macro `CheckUD(Type,L,P)` of `LuaObject.h`, which is not part of
the sources at hand.  It takes the host entity out of the wrapper at stack index `P` ("a tagged
opaque handle ... carrying a raw pointer/address to the host entity") and raises a script error
when the argument is no wrapper. -/
def CheckUD (P : Int) : LuaM Nat := fun w =>
  match index2value w P with
  | some (.userdata r) =>
    match w.heap r with
    | some (.userdata p _) => .ok p w
    | _ => .error (.typeError P "userdata") w
  | _ => .error (.typeError P "userdata") w

def gcObject : LuaM Int := do
  let UD ← CheckUD 1
  RemoveFromRoot UD
  return 0

def gcClass : LuaM Int := do
  let UD ← CheckUD 1
  RemoveFromRoot UD
  return 0

def gcStructClass : LuaM Int := do
  let UD ← CheckUD 1
  RemoveFromRoot UD
  return 0

/-- A step of a caller of the identity cache: stack traffic and cache calls.  A `getFromCache`
leaves the wrapper it found on the stack, as in the C code. -/
inductive CacheOp where
  | push (v : LuaValue)
  | pop
  | cacheObj (obj : Nat)
  | getFromCache (obj : Nat)
  deriving DecidableEq, Repr

def CacheOp.run : CacheOp → LuaM Unit
  | .push v => pushValue v
  | .pop => lua_pop 1
  | .cacheObj obj => slua.cacheObj obj
  | .getFromCache obj => do let _ ← slua.getFromCache obj

/-- The identity cache of a world: the heap table stored in the registry under `cacheObjRef`. -/
def cacheTable (w : World) : Option Entries :=
  match rawgetE w.registry (.integer w.cacheObjRef) with
  | .table c =>
    match w.heap c with
    | some (.table es _) => some es
    | _ => none
  | _ => none

/-! ## Host memory access and the reflection API

The accessors of the host come in two flavours.  Those named `..._InContainer` take the address of
the container (object, struct or parameter block) and add the property's own offset
(`ContainerPtrToValuePtr`); the others take the address of the value itself. -/

/-- Conversions done by the C compiler and the Lua core, and the parts of the program that live
in other files; all of them are parameters of the model. -/
structure Host where
  /-- `(lua_Number)f` for a `float` f. -/
  floatToNumber : CFloat → lua_Number
  /-- `(float)d` for a `lua_Number` d. -/
  numberToFloat : lua_Number → CFloat
  /-- `(lua_Number)i` for a `lua_Integer` i. -/
  integerToNumber : Int → lua_Number
  /-- The number a string converts to, if it does (`lua_tonumber` on a string). -/
  stringToNumber : String → Option lua_Number
  /-- The function descriptor at an address. -/
  functionAt : Nat → Option UFunction
  /-- What the host function does to memory when `ProcessEvent` runs it:
  receiver, function, address of the parameter block. -/
  hostCall : Nat → UFunction → Nat → (Nat → Cell) → (Nat → Cell)
  /-- `TBaseStructure<FVector>::Get()`. -/
  FVectorStruct : UScriptStruct
  /-- Code of the pushers whose work is done in other files or behind unknown pointers. -/
  pusher : PushPropertyFunction → UProperty → Nat → LuaM Int
  /-- Code of the checkers whose work is done in other files or behind unknown pointers. -/
  checker : CheckPropertyFunction → UProperty → Nat → Int → LuaM Int

def Cell.asInt32 : Cell → Int
  | .int32 i => i
  | _ => 0

def Cell.asFloat : Cell → CFloat
  | .float f => f
  | _ => ⟨0⟩

def Cell.asBool : Cell → Bool
  | .bool b => b
  | _ => false

def Cell.asStr : Cell → String
  | .str s => s
  | _ => ""

/-- The value of a 64-bit script integer converted to a C `int`. -/
def toInt32 (v : Int) : Int := (v + 2 ^ 31) % 2 ^ 32 - 2 ^ 31

def readMem (addr : Nat) : LuaM Cell := fun w => .ok (w.mem addr) w

def writeMem (addr : Nat) (c : Cell) : LuaM Unit := fun w =>
  .ok () { w with mem := fun a => if a = addr then c else w.mem a }

/-- `FMemory::Malloc`: a fresh block; its content is whatever the memory holds. -/
def FMemory_Malloc (size : Nat) : LuaM Nat := fun w =>
  .ok w.brk { w with brk := w.brk + size }

/-- `FMemory_Alloca`: a fresh block of the C frame. -/
def FMemory_Alloca (size : Nat) : LuaM Nat := fun w =>
  .ok w.brk { w with brk := w.brk + size }

def FMemory_Memzero (dest size : Nat) : LuaM Unit := fun w =>
  .ok () { w with mem := fun a => if dest ≤ a ∧ a < dest + size then .zero else w.mem a }

def FMemory_Memcpy (dest src size : Nat) : LuaM Unit := fun w =>
  .ok () { w with
    mem := fun a => if dest ≤ a ∧ a < dest + size then w.mem (src + (a - dest)) else w.mem a }

def UIntProperty_StaticClass : UClass := ⟨"IntProperty"⟩

def UFloatProperty_StaticClass : UClass := ⟨"FloatProperty"⟩

def UBoolProperty_StaticClass : UClass := ⟨"BoolProperty"⟩

def UStrProperty_StaticClass : UClass := ⟨"StrProperty"⟩

def UTextProperty_StaticClass : UClass := ⟨"TextProperty"⟩

def UArrayProperty_StaticClass : UClass := ⟨"ArrayProperty"⟩

def UStructProperty_StaticClass : UClass := ⟨"StructProperty"⟩

def UObjectProperty_StaticClass : UClass := ⟨"ObjectProperty"⟩

def UEnumProperty_StaticClass : UClass := ⟨"EnumProperty"⟩

def UMulticastDelegateProperty_StaticClass : UClass := ⟨"MulticastDelegateProperty"⟩

/-- `Cast<T>(prop)`: the property itself when it is of class `T`, else the null pointer. -/
def Cast (T : UClass) (prop : UProperty) : Option UProperty :=
  if prop.cls = T then some prop else none

/-- Use of a pointer: a null pointer cannot be dereferenced. -/
def deref {α : Type} (p : Option α) : LuaM α :=
  match p with
  | some x => pure x
  | none => fun w => .error .undefinedBehaviour w

def UProperty.GetOffset_ForInternal (p : UProperty) : Nat := p.Offset_Internal

/-- `ContainerPtrToValuePtr`: the address of the value of `p` inside the container at `A`. -/
def UProperty.ContainerPtrToValuePtr (p : UProperty) (A : Nat) : Nat := A + p.Offset_Internal

/-- `GetPropertyValue_InContainer(A)`: the value of `p` inside the container at `A`. -/
def UProperty.GetPropertyValue_InContainer (p : UProperty) (A : Nat) : LuaM Cell :=
  readMem (p.ContainerPtrToValuePtr A)

/-- `SetPropertyValue_InContainer(A, Value)`: stores the value of `p` inside the container. -/
def UProperty.SetPropertyValue_InContainer (p : UProperty) (A : Nat) (Value : Cell) :
    LuaM Unit :=
  writeMem (p.ContainerPtrToValuePtr A) Value

/-- `UNumericProperty::GetSignedIntPropertyValue(Data)`: the integer stored at `Data`, the
address of the value itself. -/
def UProperty.GetSignedIntPropertyValue (_p : UProperty) (Data : Nat) : LuaM Int := do
  return (← readMem Data).asInt32

/-- `UNumericProperty::GetFloatingPointPropertyValue(Data)`: the float stored at `Data`, the
address of the value itself. -/
def UProperty.GetFloatingPointPropertyValue (_p : UProperty) (Data : Nat) : LuaM CFloat := do
  return (← readMem Data).asFloat

/-- `UStructProperty::CopyValuesInternal(Dest, Src, Count)`: copies `Count` values of the struct
type of `p` from the address `Src` to the address `Dest`. -/
def UProperty.CopyValuesInternal (p : UProperty) (Dest Src Count : Nat) : LuaM Unit :=
  FMemory_Memcpy Dest Src (p.Struct.structureSize * Count)

/-! ## Pushing C++ values (`LuaObject::push` overloads) -/

def push_int (v : Int) : LuaM Int := do
  lua_pushinteger v
  return 1

def push_float (h : Host) (v : CFloat) : LuaM Int := do
  lua_pushnumber (h.floatToNumber v)
  return 1

/-- Modelled from the spec: the overload `LuaObject::push(lua_State*, bool)` is declared outside
the sources at hand; a boolean is one of the scalar kinds that cross as the script value of the
same kind. -/
def push_bool (v : Bool) : LuaM Int := do
  lua_pushboolean v
  return 1

def push_FString (str : String) : LuaM Int := do
  lua_pushstring str
  return 1

/-- `new LuaStruct{buf,size,uss}`: the constructor roots the descriptor. -/
def new_LuaStruct (buf size : Nat) (uss : UScriptStruct) : LuaM Nat := fun w =>
  .ok w.brk { w with
    brk := w.brk + 1
    luaStructs := fun a => if a = w.brk then some ⟨buf, size, uss⟩ else w.luaStructs a
    rooted := fun p => if p = uss.addr then true else w.rooted p }

/-- Modelled from the spec: `LuaObject::push(lua_State*, LuaStruct*)` goes through the template
`pushType` of `LuaObject.h`, which is not part of the sources at hand.  It "allocates a new
tagged handle" for the struct value; struct wrappers are "never cached by address". -/
def push_LuaStruct (ls : Nat) : LuaM Int := fun w =>
  .ok 1 { w with
    stack := .userdata w.nextRef :: w.stack
    heap := fun r => if r = w.nextRef then some (.userdata ls none) else w.heap r
    nextRef := w.nextRef + 1 }

/-! ## Reading script arguments (`LuaObject::checkValue<T>`) -/

/-- `luaL_checktype(L, i, LUA_TTABLE)`. -/
def luaL_checktype_table (i : Int) : LuaM Unit := fun w =>
  match index2value w i with
  | some (.table _) => .ok () w
  | _ => .error (.typeError i "table") w

/-- The number a value converts to (`luaV_tonumber_`), 0 when it does not convert or when there
is no value. -/
def tonumber (h : Host) : Option LuaValue → lua_Number
  | some (.number d) => d
  | some (.integer i) => h.integerToNumber i
  | some (.string s) => (h.stringToNumber s).getD ⟨0⟩
  | _ => ⟨0⟩

/-- `lua_tonumber`: the number the value at an index converts to, 0 when it does not convert. -/
def lua_tonumber (h : Host) (idx : Int) : LuaM lua_Number := fun w =>
  .ok (tonumber h (index2value w idx)) w

/-- Modelled from the spec: `checkValue<int>` of `LuaObject.h` (not part of the sources at hand)
"validates the script value's shape (fails with a type-mismatch error identifying the expected
kind and argument position)" and converts the script integer to a C `int`. -/
def checkValue_int (i : Int) : LuaM Int := fun w =>
  match index2value w i with
  | some (.integer v) => .ok (toInt32 v) w
  | _ => .error (.typeError i "integer") w

/-- Modelled from the spec: `checkValue<bool>` of `LuaObject.h`. -/
def checkValue_bool (i : Int) : LuaM Bool := fun w =>
  match index2value w i with
  | some (.boolean b) => .ok b w
  | _ => .error (.typeError i "boolean") w

/-- Modelled from the spec: `checkValue<float>` of `LuaObject.h`. -/
def checkValue_float (h : Host) (i : Int) : LuaM CFloat := fun w =>
  match index2value w i with
  | some (.number d) => .ok (h.numberToFloat d) w
  | some (.integer v) => .ok (h.numberToFloat (h.integerToNumber v)) w
  | _ => .error (.typeError i "number") w

/-- Modelled from the spec: `checkValue<FString>` of `LuaObject.h`. -/
def checkValue_FString (i : Int) : LuaM String := fun w =>
  match index2value w i with
  | some (.string s) => .ok s w
  | _ => .error (.typeError i "string") w

/-- Modelled from the spec: `checkValue<LuaStruct*>` of `LuaObject.h`: the struct value held by
the struct wrapper at index `i`. -/
def checkValue_LuaStruct (i : Int) : LuaM LuaStruct := fun w =>
  match index2value w i with
  | some (.userdata r) =>
    match w.heap r with
    | some (.userdata p _) =>
      match w.luaStructs p with
      | some ls => .ok ls w
      | none => .error (.typeError i "LuaStruct") w
    | _ => .error (.typeError i "LuaStruct") w
  | _ => .error (.typeError i "LuaStruct") w

/-- Modelled from the spec: `checkValue<UObject*>` of `LuaObject.h`: the host object held by
the wrapper at index `i`. -/
def checkValue_UObject (i : Int) : LuaM Nat := fun w =>
  match index2value w i with
  | some (.userdata r) =>
    match w.heap r with
    | some (.userdata p _) => .ok p w
    | _ => .error (.typeError i "UObject") w
  | _ => .error (.typeError i "UObject") w

/-! ## Property pushers -/

def pushUIntProperty (prop : UProperty) (parms : Nat) : LuaM Int := do
  let ip := Cast UIntProperty_StaticClass prop
  ensure ip.isSome
  let i := toInt32 (← (← deref ip).GetSignedIntPropertyValue parms)
  push_int i

def pushFloatProperty (h : Host) (prop : UProperty) (parms : Nat) : LuaM Int := do
  let ip := Cast UFloatProperty_StaticClass prop
  ensure ip.isSome
  let i ← (← deref ip).GetFloatingPointPropertyValue parms
  push_float h i

def pushUBoolProperty (prop : UProperty) (parms : Nat) : LuaM Int := do
  let bp := Cast UBoolProperty_StaticClass prop
  ensure bp.isSome
  let b := (← (← deref bp).GetPropertyValue_InContainer parms).asBool
  push_bool b

def pushUStrProperty (prop : UProperty) (parms : Nat) : LuaM Int := do
  let p := Cast UStrProperty_StaticClass prop
  ensure p.isSome
  let str := (← (← deref p).GetPropertyValue_InContainer parms).asStr
  push_FString str

/-- `sizeof(FVector)`: three floats, `X` at offset 0, `Y` at 4, `Z` at 8. -/
def sizeof_FVector : Nat := 12

def pushVector (h : Host) (buf size : Nat) : LuaM Int := do
  ensure (size = sizeof_FVector)
  lua_createtable 3 0
  let v := buf
  lua_pushnumber (h.floatToNumber (← readMem v).asFloat)
  lua_rawseti (-2) 1
  lua_pushnumber (h.floatToNumber (← readMem (v + 4)).asFloat)
  lua_rawseti (-2) 2
  lua_pushnumber (h.floatToNumber (← readMem (v + 8)).asFloat)
  lua_rawseti (-2) 3
  return 1

/-- Reads a vector from the table at index `i` into a local `FVector`, whose address it
returns. -/
def checkVector (h : Host) (i : Int) : LuaM Nat := do
  let v ← FMemory_Alloca sizeof_FVector
  luaL_checktype_table i
  lua_rawgeti i 1
  writeMem v (.float (h.numberToFloat (← lua_tonumber h (-1))))
  lua_rawgeti i 2
  writeMem (v + 4) (.float (h.numberToFloat (← lua_tonumber h (-1))))
  lua_rawgeti i 3
  writeMem (v + 8) (.float (h.numberToFloat (← lua_tonumber h (-1))))
  lua_pop 3
  return v

def pushUStructProperty (h : Host) (prop : UProperty) (parms_ : Nat) : LuaM Int := do
  let p := Cast UStructProperty_StaticClass prop
  ensure p.isSome
  let p ← deref p
  let uss := p.Struct
  let parms := parms_ + p.GetOffset_ForInternal
  let size := if uss.structureSize ≠ 0 then uss.structureSize else 1
  if (← getVectorStruct) = some uss then
    let buf ← FMemory_Alloca size
    p.CopyValuesInternal buf parms 1
    pushVector h buf size
  else
    let buf ← FMemory_Malloc size
    FMemory_Memcpy buf parms size
    push_LuaStruct (← new_LuaStruct buf size uss)

/-! ## Property checkers -/

def checkUIntProperty (prop : UProperty) (parms : Nat) (i : Int) : LuaM Int := do
  let p := Cast UIntProperty_StaticClass prop
  ensure p.isSome
  (← deref p).SetPropertyValue_InContainer parms (.int32 (← checkValue_int i))
  return 0

def checkUBoolProperty (prop : UProperty) (parms : Nat) (i : Int) : LuaM Int := do
  let p := Cast UBoolProperty_StaticClass prop
  ensure p.isSome
  (← deref p).SetPropertyValue_InContainer parms (.bool (← checkValue_bool i))
  return 0

def checkUFloatProperty (h : Host) (prop : UProperty) (parms : Nat) (i : Int) : LuaM Int := do
  let p := Cast UFloatProperty_StaticClass prop
  ensure p.isSome
  (← deref p).SetPropertyValue_InContainer parms (.float (← checkValue_float h i))
  return 0

def checkUStructProperty (h : Host) (prop : UProperty) (parms : Nat) (i : Int) : LuaM Int := do
  let p := Cast UStructProperty_StaticClass prop
  ensure p.isSome
  let p ← deref p
  let uss := p.Struct
  if (← getVectorStruct) = some uss then
    let v ← checkVector h i
    p.CopyValuesInternal parms v 1
  else
    let ls ← checkValue_LuaStruct i
    if p.GetSize ≠ ls.size then
      luaL_error (.structSize p.GetSize ls.size)
    p.CopyValuesInternal parms ls.buf 1
  return 0

def checkUStrProperty (prop : UProperty) (parms : Nat) (i : Int) : LuaM Int := do
  let p := Cast UStrProperty_StaticClass prop
  ensure p.isSome
  (← deref p).SetPropertyValue_InContainer parms (.str (← checkValue_FString i))
  return 0

/-! ## The dispatch tables -/

/-- The code behind a pusher pointer.  The pushers for enum, array, text, delegate and
object-reference properties do their work in other files and are taken from the host. -/
def PushPropertyFunction.call (h : Host) (f : PushPropertyFunction) (prop : UProperty)
    (parms : Nat) : LuaM Int :=
  match f with
  | .pushUIntProperty => slua.pushUIntProperty prop parms
  | .pushFloatProperty => slua.pushFloatProperty h prop parms
  | .pushUBoolProperty => slua.pushUBoolProperty prop parms
  | .pushUStrProperty => slua.pushUStrProperty prop parms
  | .pushUStructProperty => slua.pushUStructProperty h prop parms
  | f => h.pusher f prop parms

/-- The code behind a checker pointer. -/
def CheckPropertyFunction.call (h : Host) (f : CheckPropertyFunction) (prop : UProperty)
    (parms : Nat) (i : Int) : LuaM Int :=
  match f with
  | .checkUIntProperty => slua.checkUIntProperty prop parms i
  | .checkUBoolProperty => slua.checkUBoolProperty prop parms i
  | .checkUFloatProperty => slua.checkUFloatProperty h prop parms i
  | .checkUStructProperty => slua.checkUStructProperty h prop parms i
  | .checkUStrProperty => slua.checkUStrProperty prop parms i
  | f => h.checker f prop parms i

/-- `std::map::find` followed by `it->second`, or the null pointer when the key is absent. -/
def mapFind {β : Type} : List (UClass × Option β) → UClass → Option β
  | [], _ => none
  | (k, v) :: rest, cls => if k = cls then v else mapFind rest cls

/-- `map[cls] = func`. -/
def mapAssign {β : Type} (m : List (UClass × Option β)) (cls : UClass) (func : Option β) :
    List (UClass × Option β) :=
  (cls, func) :: m.filter (fun e => !decide (e.1 = cls))

def getPusher (cls : UClass) : LuaM (Option PushPropertyFunction) := fun w =>
  .ok (mapFind w.pusherMap cls) w

def getChecker (cls : UClass) : LuaM (Option CheckPropertyFunction) := fun w =>
  .ok (mapFind w.checkerMap cls) w

def regPusher (cls : UClass) (func : Option PushPropertyFunction) : LuaM Unit := fun w =>
  .ok () { w with pusherMap := mapAssign w.pusherMap cls func }

def regChecker (cls : UClass) (func : Option CheckPropertyFunction) : LuaM Unit := fun w =>
  .ok () { w with checkerMap := mapAssign w.checkerMap cls func }

/-- `LuaObject::init`, up to the call of `bindAll`, which is defined in another file. -/
def init (h : Host) : LuaM Unit := do
  setVectorStruct (some h.FVectorStruct)
  regPusher UIntProperty_StaticClass (some .pushUIntProperty)
  regPusher UFloatProperty_StaticClass (some .pushFloatProperty)
  regPusher UTextProperty_StaticClass (some .pushUTextProperty)
  regPusher UMulticastDelegateProperty_StaticClass (some .pushUMulticastDelegateProperty)
  regPusher UObjectProperty_StaticClass (some .pushUObjectProperty)
  regPusher UBoolProperty_StaticClass (some .pushUBoolProperty)
  regPusher UArrayProperty_StaticClass (some .pushUArrayProperty)
  regPusher UStrProperty_StaticClass (some .pushUStrProperty)
  regPusher UStructProperty_StaticClass (some .pushUStructProperty)
  regPusher UEnumProperty_StaticClass (some .pushEnumProperty)
  regChecker UIntProperty_StaticClass (some .checkUIntProperty)
  regChecker UBoolProperty_StaticClass (some .checkUBoolProperty)
  regChecker UFloatProperty_StaticClass (some .checkUFloatProperty)
  regChecker UStructProperty_StaticClass (some .checkUStructProperty)
  regChecker UTextProperty_StaticClass (some .checkUTextProperty)
  regChecker UObjectProperty_StaticClass (some .checkUObjectProperty)
  regChecker UStrProperty_StaticClass (some .checkUStrProperty)
  regChecker UEnumProperty_StaticClass (some .checkEnumProperty)

/-- `LuaObject::push(lua_State*, UProperty*, uint8*)`. -/
def push (h : Host) (prop : UProperty) (parms : Nat) : LuaM Int := do
  let pusher ← getPusher prop.cls
  match pusher with
  | some pusher => pusher.call h prop parms
  | none =>
    let name := prop.cls.name
    luaL_error (.unsupportPush name)

/-! ## Function invocation bridge -/

def fillParamFromState (h : Host) (prop : UProperty) (params : Nat) (i : Int) : LuaM Nat := do
  let checker ← getChecker prop.cls
  match checker with
  | some checker =>
    let _ ← checker.call h prop params i
    return prop.GetSize
  | none =>
    let tn := prop.cls.name
    luaL_error (.unsupportParam tn i)

/-- The loop of `fillParam` over the properties still to visit, with the loop variables `i` and
`offset`. -/
def fillParamLoop (h : Host) (params : Nat) : List UProperty → Int → Nat → LuaM Unit
  | [], _, _ => pure ()
  | prop :: rest, i, offset =>
    if prop.PropertyFlags &&& CPF_Parm = 0 then pure ()
    else if prop.PropertyFlags &&& CPF_ReturnParm ≠ 0 then fillParamLoop h params rest i offset
    else do
      let n ← fillParamFromState h prop (params + offset) i
      fillParamLoop h params rest (i + 1) (offset + n)

def fillParam (h : Host) (func : UFunction) (params : Nat) : LuaM Unit :=
  fillParamLoop h params func.props 2 0

/-- `UFunction::GetReturnProperty`: the first parameter flagged as return value. -/
def GetReturnProperty : List UProperty → Option UProperty
  | [] => none
  | prop :: rest =>
    if prop.PropertyFlags &&& CPF_Parm = 0 then none
    else if prop.PropertyFlags &&& CPF_ReturnParm ≠ 0 then some prop
    else GetReturnProperty rest

/-- The output-parameter loop of `returnValue`, with the loop variables `ret` and `offset`. -/
def returnValueLoop (h : Host) (params : Nat) : List UProperty → Int → Nat → LuaM Int
  | [], ret, _ => pure ret
  | p :: rest, ret, offset =>
    -- skip return param
    if p.PropertyFlags &&& CPF_ReturnParm ≠ 0 then returnValueLoop h params rest ret offset
    else if p.PropertyFlags &&& CPF_OutParm ≠ 0 then do
      let n ← push h p (params + offset)
      returnValueLoop h params rest (ret + n) (offset + p.GetSize)
    else returnValueLoop h params rest ret (offset + p.GetSize)

/-- Handle return value and out params. -/
def returnValue (h : Host) (func : UFunction) (params : Nat) : LuaM Int := do
  -- check is function has return value
  let bHasReturnParam := decide (func.ReturnValueOffset ≠ MAX_uint16)
  let mut ret := 0
  if bHasReturnParam then
    let p ← deref (GetReturnProperty func.props)
    ret := ret + (← push h p params)
  -- push out parms
  returnValueLoop h params func.props ret 0

/-- `obj->ProcessEvent(func, params)`: the host runs the function on the parameter block. -/
def ProcessEvent (h : Host) (obj : Nat) (func : UFunction) (params : Nat) : LuaM Unit := fun w =>
  .ok () { w with
    mem := h.hostCall obj func params w.mem
    invoked := (obj, func.name) :: w.invoked }

def ufuncClosure (h : Host) : LuaM Int := do
  lua_pushvalue (lua_upvalueindex 1)
  let ud ← lua_touserdata (-1)
  lua_pop 1 -- pop ud of func
  if ud = .null then
    luaL_error .callUFunction
  let obj ← checkValue_UObject 1
  let func ← deref (match ud with
    | .light p => h.functionAt p
    | _ => none)
  let params ← FMemory_Alloca func.ParmsSize
  FMemory_Memzero params func.ParmsSize
  fillParam h func params
  -- call function with params
  ProcessEvent h obj func params
  -- return value to push lua stack
  returnValue h func params

/-- A computation that invokes no host function: it leaves the invocation log as it was. -/
def Quiet {α : Type} (m : LuaM α) : Prop := ∀ w, (m w).world.invoked = w.invoked

/-- The foreign code of a host invokes no host function. -/
def Host.Quiet (h : Host) : Prop :=
  (∀ f prop parms, slua.Quiet (h.pusher f prop parms)) ∧
  (∀ f prop parms i, slua.Quiet (h.checker f prop parms i))

/-- An input parameter: flagged as parameter and not as return value. -/
def UProperty.isInput (p : UProperty) : Bool :=
  decide (p.PropertyFlags &&& CPF_Parm ≠ 0 ∧ p.PropertyFlags &&& CPF_ReturnParm = 0)

/-- An output parameter: flagged as output and not as return value. -/
def UProperty.isOutput (p : UProperty) : Bool :=
  decide (p.PropertyFlags &&& CPF_OutParm ≠ 0 ∧ p.PropertyFlags &&& CPF_ReturnParm = 0)

/-- The world in which `ufuncClosure` starts the fill pass: the parameter block has been taken
at `w.brk` and zero-filled. -/
def paramsReady (w : World) (func : UFunction) : World :=
  { w with
    brk := w.brk + func.ParmsSize
    mem := fun a => if w.brk ≤ a ∧ a < w.brk + func.ParmsSize then .zero else w.mem a }

/-- A computation that raises no script error: when it does not return, it is because the C code
left defined behaviour. -/
def OnlyUB {α : Type} (m : LuaM α) : Prop :=
  ∀ w, (m w).error? = none ∨ (m w).error? = some .undefinedBehaviour

/-! ## Type registration (`newType`, `addMethod`, `addField`, `finishType`) -/

def LUA_TNIL : Int := 0

/-- `lua_type` of a value. -/
def LuaValue.type : LuaValue → Int
  | .nil => 0
  | .boolean _ => 1
  | .lightuserdata _ => 2
  | .integer _ => 3
  | .number _ => 3
  | .string _ => 4
  | .table _ => 5
  | .cfunction _ => 6
  | .closure _ => 6
  | .userdata _ => 7

/-- `lua_pushcclosure`: with no upvalue a light C function, otherwise a new closure that takes
the `n` topmost values as its upvalues. -/
def lua_pushcclosure (f : CFunction) (n : Nat) : LuaM Unit := fun w =>
  if n = 0 then .ok () { w with stack := .cfunction f :: w.stack }
  else if n ≤ w.stack.length then
    .ok () { w with
      stack := .closure w.nextRef :: w.stack.drop n
      heap := fun r =>
        if r = w.nextRef then some (.closure f (w.stack.take n).reverse) else w.heap r
      nextRef := w.nextRef + 1 }
  else .error .undefinedBehaviour w

def lua_pushcfunction (f : CFunction) : LuaM Unit := lua_pushcclosure f 0

/-- `lua_setfield`: `t[k] = v` for the value on top, which it pops.  A table without metatable
is written raw; a `__newindex` lookup on a table that has a metatable is outside this model. -/
def lua_setfield (idx : Int) (k : String) : LuaM Unit := fun w =>
  match w.stack with
  | [] => .error .undefinedBehaviour w
  | v :: rest =>
    match tableAt w idx with
    | some (es, none) =>
      .ok () { setTableAt w idx (rawsetE es (.string k) v) with stack := rest }
    | some (_, some _) => .error .notModelled w
    | none => .error .indexError w

/-- `lua_getfield`: pushes `t[k]` and returns its type.  A table without metatable is read raw;
an `__index` lookup on a table that has a metatable is outside this model. -/
def lua_getfield (idx : Int) (k : String) : LuaM Int := fun w =>
  match tableAt w idx with
  | some (es, none) =>
    .ok (rawgetE es (.string k)).type { w with stack := rawgetE es (.string k) :: w.stack }
  | some (es, some _) =>
    if rawgetE es (.string k) = .nil then .error .notModelled w
    else .ok (rawgetE es (.string k)).type { w with stack := rawgetE es (.string k) :: w.stack }
  | none => .error .indexError w

/-- `lua_settable`: `t[k] = v` for the value on top and the key below it; pops both. -/
def lua_settable (idx : Int) : LuaM Unit := fun w =>
  match w.stack with
  | v :: k :: rest =>
    match tableAt w idx with
    | some (es, none) =>
      if k = .nil then .error .indexError w
      else .ok () { setTableAt w idx (rawsetE es k v) with stack := rest }
    | some (_, some _) => .error .notModelled w
    | none => .error .indexError w
  | _ => .error .undefinedBehaviour w

/-- `lua_setmetatable`: pops a table or nil and makes it the metatable of the table or userdata
at `idx`. -/
def lua_setmetatable (idx : Int) : LuaM Int := fun w =>
  match w.stack with
  | [] => .error .undefinedBehaviour w
  | m :: rest =>
    let mt : Option (Option Nat) :=
      match m with
      | .nil => some none
      | .table r => some (some r)
      | _ => none
    match mt, index2value w idx with
    | some mt, some (.table r) =>
      match w.heap r with
      | some (.table es _) =>
        .ok 1 { w with
          stack := rest
          heap := fun x => if x = r then some (.table es mt) else w.heap x }
      | _ => .error .undefinedBehaviour w
    | some mt, some (.userdata r) =>
      match w.heap r with
      | some (.userdata p _) =>
        .ok 1 { w with
          stack := rest
          heap := fun x => if x = r then some (.userdata p mt) else w.heap x }
      | _ => .error .undefinedBehaviour w
    | some _, some _ => .error .notModelled w
    | _, _ => .error .undefinedBehaviour w

/-- `lua_next`: pops a key and pushes the next key-value pair of the table at `idx`; returns
false, pushing nothing, when the traversal is over. -/
def lua_next (idx : Int) : LuaM Bool := fun w =>
  match w.stack with
  | [] => .error .undefinedBehaviour w
  | key :: rest =>
    match tableAt w idx with
    | some (es, _) =>
      match nextE es key with
      | some (some (k, v)) => .ok true { w with stack := v :: k :: rest }
      | some none => .ok false { w with stack := rest }
      | none => .error .undefinedBehaviour w
    | none => .error .undefinedBehaviour w

def lua_pushglobaltable : LuaM Unit := lua_rawgeti LUA_REGISTRYINDEX LUA_RIDX_GLOBALS

def luaL_getmetatable (n : String) : LuaM Int := lua_getfield LUA_REGISTRYINDEX n

/-- `luaL_newmetatable` (Lua 5.3): leaves the registry entry `tname` on the stack when there is
one, otherwise creates a table with `__name = tname` and registers it. -/
def luaL_newmetatable (tname : String) : LuaM Int := do
  if (← luaL_getmetatable tname) ≠ LUA_TNIL then -- name already in use?
    return 0 -- leave previous value on top, but return 0
  lua_pop 1
  lua_createtable 0 2 -- create metatable
  lua_pushstring tname
  lua_setfield (-2) "__name" -- metatable.__name = tname
  lua_pushvalue (-1)
  lua_setfield LUA_REGISTRYINDEX tname -- registry.name = metatable
  return 1

/-- The macro `str_concat(r,a,b)`. -/
def str_concat (a b : String) : String := a ++ b

def setMetaMethods : LuaM Unit := do
  lua_newtable
  lua_pushvalue (-1)
  lua_setfield (-3) ".get" -- upvalue
  lua_pushcclosure .classIndex 1
  lua_setfield (-2) "__index"
  lua_newtable
  lua_pushvalue (-1)
  lua_setfield (-3) ".set" -- upvalue
  lua_pushcclosure .classNewindex 1
  lua_setfield (-2) "__newindex"

def newType (tn : String) : LuaM Unit := do
  lua_pushglobaltable -- _G
  lua_newtable -- local t = {}
  lua_pushvalue (-1)
  lua_setfield (-3) tn -- _G[tn] = t
  lua_remove (-2) -- remove global table;
  let _ ← luaL_newmetatable tn -- local mt = {}; _G[tn] = mt
  lua_pushvalue (-1)
  let _ ← lua_setmetatable (-3) -- setmetatable(t, mt)
  setMetaMethods
  let s_inst := str_concat tn "_inst"
  let _ ← luaL_newmetatable s_inst
  setMetaMethods

def addMethod (name : String) (func : CFunction) (isInstance : Bool) : LuaM Unit := do
  lua_pushcfunction func
  lua_setfield (if isInstance then -2 else -3) name

def addField (name : String) (getter setter : CFunction) (isInstance : Bool) : LuaM Unit := do
  let _ ← lua_getfield (if isInstance then -1 else -2) ".get"
  lua_pushcfunction getter
  lua_setfield (-2) name
  lua_pop 1
  let _ ← lua_getfield (if isInstance then -1 else -2) ".set"
  lua_pushcfunction setter
  lua_setfield (-2) name
  lua_pop 1

/-- The `while (lua_next(L, -2))` loop of `finishType`; `fuel` bounds the number of rounds. -/
def finishTypeLoop : Nat → LuaM Unit
  | 0 => luaL_error .outOfFuel
  | fuel + 1 => do
    if (← lua_next (-2)) then
      lua_pushvalue (-2)
      lua_insert (-2)
      lua_settable (-5)
      finishTypeLoop fuel
    else
      pure ()

def finishType (fuel : Nat) (tn : String) (ctor gc : CFunction) : LuaM Unit := do
  lua_pushcclosure ctor 0
  lua_setfield (-3) "__call"
  -- copy _inst table as _static table before add __gc method
  lua_newtable
  lua_pushvalue (-2)
  lua_pushnil
  finishTypeLoop fuel
  lua_pop 1
  let s_static := str_concat tn "_static"
  lua_setfield LUA_REGISTRYINDEX s_static
  lua_pushcclosure gc 0
  lua_setfield (-2) "__gc"
  lua_pop 3 -- type table and mt table

/-- A registration call made between `newType` and `finishType`. -/
inductive TypeOp where
  | addMethod (name : String) (func : CFunction) (isInstance : Bool)
  | addField (name : String) (getter setter : CFunction) (isInstance : Bool)
  deriving DecidableEq, Repr

def TypeOp.run : TypeOp → LuaM Unit
  | .addMethod name func isInstance => slua.addMethod name func isInstance
  | .addField name getter setter isInstance => slua.addField name getter setter isInstance

def runTypeOps : List TypeOp → LuaM Unit
  | [] => pure ()
  | op :: ops => do op.run; runTypeOps ops

/-- The registration of a type: `newType`, the registration calls, `finishType`. -/
def registerType (fuel : Nat) (tn : String) (ops : List TypeOp) (ctor gc : CFunction) :
    LuaM Unit := do
  newType tn
  runTypeOps ops
  finishType fuel tn ctor gc

/-- The table registered under a name in the registry (`luaL_getmetatable`), if there is one. -/
def registryTable (w : World) (name : String) : Option Entries :=
  match rawgetE w.registry (.string name) with
  | .table r =>
    match w.heap r with
    | some (.table es _) => some es
    | _ => none
  | _ => none

/-- The static snapshot of a type: the table `getStaticTypeTable` pushes. -/
def staticTypeTable (w : World) (tn : String) : Option Entries :=
  registryTable w (str_concat tn "_static")

/-- The instance metatable of a type: the table `getInstanceTypeTable` pushes. -/
def instanceTypeTable (w : World) (tn : String) : Option Entries :=
  registryTable w (str_concat tn "_inst")

/-- Representation invariant of a table: no key occurs twice and no key is nil. -/
def KeysOK (es : Entries) : Prop :=
  (es.map Prod.fst).Nodup ∧ ∀ e ∈ es, e.1 ≠ LuaValue.nil

/-- The contents of the tables a type registration fills: the instance metatable, the metatable
of the type table, and their `.get`/`.set` accessor tables. -/
structure TypeTables where
  instE : Entries
  mtE : Entries
  instGet : Entries
  instSet : Entries
  staticGet : Entries
  staticSet : Entries

/-- What a registration call writes into the tables of a type. -/
def TypeOp.apply : TypeOp → TypeTables → TypeTables
  | .addMethod name func true, T =>
    { T with instE := rawsetE T.instE (.string name) (.cfunction func) }
  | .addMethod name func false, T =>
    { T with mtE := rawsetE T.mtE (.string name) (.cfunction func) }
  | .addField name getter setter true, T =>
    { T with
      instGet := rawsetE T.instGet (.string name) (.cfunction getter)
      instSet := rawsetE T.instSet (.string name) (.cfunction setter) }
  | .addField name getter setter false, T =>
    { T with
      staticGet := rawsetE T.staticGet (.string name) (.cfunction getter)
      staticSet := rawsetE T.staticSet (.string name) (.cfunction setter) }

/-- The tables after a sequence of registration calls. -/
def applyTypeOps (ops : List TypeOp) (T : TypeTables) : TypeTables :=
  ops.foldl (fun T op => op.apply T) T

/-- A registration call that leaves the accessor tables in place: a method is not registered
under the reserved names ".get" and ".set". -/
def TypeOp.NameOK : TypeOp → Prop
  | .addMethod name _ _ => name ≠ ".get" ∧ name ≠ ".set"
  | .addField _ _ _ _ => True

/-- The state between `newType` and `finishType` for a type whose tables were allocated from
heap reference `n0` on: the type table `n0`, its metatable `n0 + 1` and the instance metatable
`n0 + 6` are on the stack (instance metatable on top) above `rest`, and the tables hold `T`. -/
def Registering (w : World) (rest : List LuaValue) (n0 : Nat) (T : TypeTables) : Prop :=
  w.stack = .table (n0 + 6) :: .table (n0 + 1) :: .table n0 :: rest ∧
  w.nextRef = n0 + 11 ∧
  w.heap (n0 + 6) = some (.table T.instE none) ∧
  w.heap (n0 + 1) = some (.table T.mtE none) ∧
  w.heap (n0 + 7) = some (.table T.instGet none) ∧
  w.heap (n0 + 9) = some (.table T.instSet none) ∧
  w.heap (n0 + 2) = some (.table T.staticGet none) ∧
  w.heap (n0 + 4) = some (.table T.staticSet none) ∧
  rawgetE T.instE (.string ".get") = .table (n0 + 7) ∧
  rawgetE T.instE (.string ".set") = .table (n0 + 9) ∧
  rawgetE T.mtE (.string ".get") = .table (n0 + 2) ∧
  rawgetE T.mtE (.string ".set") = .table (n0 + 4)

/-- The tables `newType` leaves for a type named `tn`, allocated from heap reference `n0` on. -/
def newTypeTables (tn : String) (n0 : Nat) : TypeTables :=
  { instE := rawsetE (rawsetE (rawsetE (rawsetE (rawsetE []
      (.string "__name") (.string (str_concat tn "_inst")))
      (.string ".get") (.table (n0 + 7)))
      (.string "__index") (.closure (n0 + 8)))
      (.string ".set") (.table (n0 + 9)))
      (.string "__newindex") (.closure (n0 + 10))
    mtE := rawsetE (rawsetE (rawsetE (rawsetE (rawsetE []
      (.string "__name") (.string tn))
      (.string ".get") (.table (n0 + 2)))
      (.string "__index") (.closure (n0 + 3)))
      (.string ".set") (.table (n0 + 4)))
      (.string "__newindex") (.closure (n0 + 5))
    instGet := []
    instSet := []
    staticGet := []
    staticSet := [] }

/-! ## Pushing host entities (`push(UObject*)`, `pushClass`, `pushStruct`) -/

/-- The functions `setupClassMT`, `setupStructMT` and `setupInstanceMT`, handed to
`pushGCObject` as function pointers. -/
inductive SetupMT where
  | setupClassMT
  | setupStructMT
  | setupInstanceMT
  deriving DecidableEq, Repr

/-- The parts of the object wrapper protocol and of the host reflection system that live in
other files; all of them are parameters of the model. -/
structure ObjectHost where
  /-- The template `pushGCObject<T>(L, obj, tn, setupmt, gc)` of `LuaObject.h`, called with the
  address of an entity. -/
  pushGCObject : Nat → String → SetupMT → CFunction → LuaM Int
  /-- Whether the object at an address is a `UWidgetTree`. -/
  isWidgetTree : Nat → Bool
  /-- `LuaWidgetTree::push`. -/
  LuaWidgetTree_push : Nat → LuaM Int
  /-- The struct-type descriptor at an address. -/
  structAt : Nat → Option UScriptStruct
  /-- What `UScriptStruct::InitializeStruct(buf)` does to memory. -/
  InitializeStruct : UScriptStruct → Nat → (Nat → Cell) → (Nat → Cell)

/-- The object pointer stored in a cell; zero-filled memory holds the null pointer (`none`). -/
def Cell.asObject : Cell → Option Nat
  | .object p => some p
  | _ => none

/-- `LuaObject::push(lua_State*, UObject*)`; `none` is the null pointer. -/
def push_UObject (oh : ObjectHost) (obj : Option Nat) : LuaM Int :=
  match obj with
  | none => do
    lua_pushnil
    return 1
  | some obj => oh.pushGCObject obj "UObject" .setupInstanceMT .gcObject

def pushClass (oh : ObjectHost) (cls : Option Nat) : LuaM Int :=
  match cls with
  | none => do
    lua_pushnil
    return 1
  | some cls => oh.pushGCObject cls "UClass" .setupClassMT .gcClass

def pushStruct (oh : ObjectHost) (cls : Option UScriptStruct) : LuaM Int :=
  match cls with
  | none => do
    lua_pushnil
    return 1
  | some cls => oh.pushGCObject cls.addr "UScriptStruct" .setupStructMT .gcStructClass

/-- `Cast<UWidgetTree>(o)`: the object itself when it is a widget tree, else the null pointer;
the cast of a null pointer is null. -/
def Cast_UWidgetTree (oh : ObjectHost) (o : Option Nat) : Option Nat :=
  match o with
  | some p => if oh.isWidgetTree p then some p else none
  | none => none

def pushUObjectProperty (oh : ObjectHost) (prop : UProperty) (parms : Nat) : LuaM Int := do
  let p := Cast UObjectProperty_StaticClass prop
  ensure p.isSome
  let o := (← (← deref p).GetPropertyValue_InContainer parms).asObject
  match Cast_UWidgetTree oh o with
  | some tr => oh.LuaWidgetTree_push tr
  | none => push_UObject oh o

/-! ## Type registry (`typeMap`) -/

/-- The global `typeMap`, a `std::map<std::string, std::string>` from `type_info::name()` to
the registered name: its entries in ascending key order. -/
abbrev TypeMap := List (String × String)

/-- `std::map::find`: the entry with an equal key, `none` for `end()`. -/
def TypeMap.find (m : TypeMap) (k : String) : Option (String × String) :=
  List.find? (fun e => e.1 = k) m

/-- `std::map::lower_bound`: the first entry whose key is not less than `k`, `none` for
`end()`. -/
def TypeMap.lower_bound (m : TypeMap) (k : String) : Option (String × String) :=
  List.find? (fun e => ¬ e.1 < k) m

/-- `std::map::insert(hint, value)`: puts the value at its place in the key order unless the map
holds an entry with an equal key; the hint affects the cost only. -/
def TypeMap.insert : TypeMap → String × String → TypeMap
  | [], kv => [kv]
  | e :: es, kv =>
    if kv.1 < e.1 then kv :: e :: es
    else if e.1 < kv.1 then e :: TypeMap.insert es kv
    else e :: es

/-- The invariant of a `std::map`: keys strictly ascending. -/
def TypeMap.Ordered (m : TypeMap) : Prop := List.Pairwise (fun a b => a.1 < b.1) m

/-- `LuaObject::__typeName`, as a function of the state of `typeMap`; `none` is `nullptr`. -/
def __typeName (typeMap : TypeMap) (ti : String) : Option String :=
  match TypeMap.find typeMap ti with
  | some it => some it.2
  | none => none

/-- `LuaObject::__initType`, as a function from the state of `typeMap` to its new state. -/
def __initType (typeMap : TypeMap) (ti tn : String) : TypeMap :=
  match TypeMap.lower_bound typeMap ti with
  | some it =>
    if ¬ (ti < it.1) then typeMap
    else TypeMap.insert typeMap (ti, tn)
  | none => TypeMap.insert typeMap (ti, tn)

/-- The registry after a sequence of `__initType` calls. -/
def initTypes (typeMap : TypeMap) (regs : List (String × String)) : TypeMap :=
  regs.foldl (fun m r => __initType m r.1 r.2) typeMap

/-! ## Struct wrappers: construction and finalization -/

/-- `FMemory::Free`; the model does not keep track of which blocks are allocated. -/
def FMemory_Free (_buf : Nat) : LuaM Unit := pure ()

/-- The `LuaStruct` object at an address; there is none at a dangling pointer. -/
def getLuaStruct (ls : Nat) : LuaM LuaStruct := fun w =>
  match w.luaStructs ls with
  | some s => .ok s w
  | none => .error .undefinedBehaviour w

/-- `delete ls`: the destructor `LuaStruct::~LuaStruct` frees the buffer and unroots the
descriptor, then the object is gone. -/
def delete_LuaStruct (ls : Nat) : LuaM Unit := do
  let s ← getLuaStruct ls
  FMemory_Free s.buf
  RemoveFromRoot s.uss.addr
  fun w => .ok () { w with luaStructs := fun a => if a = ls then none else w.luaStructs a }

def gcStruct : LuaM Int := do
  let UD ← CheckUD 1
  delete_LuaStruct UD
  return 0

/-- Modelled from the spec: `checkValue<UScriptStruct*>` of `LuaObject.h` (not part of the
sources at hand): the struct-type descriptor held by the wrapper at index `i`, the null pointer
for nil, and a type-mismatch error for any other value. -/
def checkValue_UScriptStruct (oh : ObjectHost) (i : Int) : LuaM (Option UScriptStruct) :=
  fun w =>
    match index2value w i with
    | some .nil => .ok none w
    | some (.userdata r) =>
      match w.heap r with
      | some (.userdata p _) =>
        match oh.structAt p with
        | some uss => .ok (some uss) w
        | none => .error (.typeError i "UScriptStruct") w
      | _ => .error (.typeError i "UScriptStruct") w
    | _ => .error (.typeError i "UScriptStruct") w

/-- `UScriptStruct::InitializeStruct(buf)`. -/
def InitializeStruct (oh : ObjectHost) (uss : UScriptStruct) (buf : Nat) : LuaM Unit := fun w =>
  .ok () { w with mem := oh.InitializeStruct uss buf w.mem }

def structConstruct (oh : ObjectHost) : LuaM Int := do
  let uss ← checkValue_UScriptStruct oh 1
  match uss with
  | some uss =>
    let size := if uss.structureSize ≠ 0 then uss.structureSize else 1
    let buf ← FMemory_Malloc size
    InitializeStruct oh uss buf
    let ls ← new_LuaStruct buf size uss
    let _ ← push_LuaStruct ls
    return 1
  | none => return 0
/-! ## Example worlds -/

/-- A world before anything happened: empty stack, heap and registry, zero-filled memory. -/
def emptyWorld : World :=
  { stack := []
    upvalues := []
    heap := fun _ => none
    nextRef := 0
    registry := []
    cacheObjRef := LUA_NOREF
    mem := fun _ => .zero
    rooted := fun _ => false
    invoked := []
    brk := 0
    luaStructs := fun _ => none
    VectorStruct := none
    pusherMap := []
    checkerMap := [] }

/-- The code behind the C function pointers used in the examples. -/
def codeOf : CFunction → LuaM Int
  | .gcObject => gcObject
  | .gcClass => gcClass
  | .gcStructClass => gcStructClass
  | _ => pure 0

/-- A world in which the wrapper of entity 100 is being finalized: the wrapper is argument 1, the
real gc function is upvalue 1, and the cache knows the entities 100 and 200. -/
def gcWorld : World :=
  { emptyWorld with
    stack := [.userdata 7]
    upvalues := [.cfunction .gcObject]
    heap := fun r =>
      if r = 0 then some (.table [(.lightuserdata 100, .userdata 7),
        (.lightuserdata 200, .userdata 8)] none)
      else if r = 7 then some (.userdata 100 none)
      else if r = 8 then some (.userdata 200 none) else none
    nextRef := 9
    registry := [(.integer 1, .table 0)]
    cacheObjRef := 1
    rooted := fun p => decide (p = 100 ∨ p = 200) }

/-- The world `gcObject` leaves: entity 100 is no longer rooted. -/
def gcWorldUnrooted : World :=
  { gcWorld with rooted := fun p => if p = 100 then false else gcWorld.rooted p }

/-- A host whose numeric conversions keep the bit pattern and whose foreign code does nothing. -/
def plainHost : Host :=
  { floatToNumber := fun f => ⟨f.bits⟩
    numberToFloat := fun d => ⟨d.bits⟩
    integerToNumber := fun i => ⟨i.toNat⟩
    stringToNumber := fun _ => none
    functionAt := fun _ => none
    hostCall := fun _ _ _ m => m
    FVectorStruct := ⟨1000, 12⟩
    pusher := fun _ _ _ => pure 0
    checker := fun _ _ _ _ => pure 0 }

/-- An `int32` property stored at offset 4 of its container. -/
def intAt4 : UProperty :=
  { cls := UIntProperty_StaticClass
    Offset_Internal := 4
    ElementSize := 4
    ArrayDim := 1
    PropertyFlags := CPF_Parm
    Struct := ⟨0, 0⟩ }

/-- The world after `init`, with the script integer 42 as argument 1 and zero-filled memory. -/
def initWorld42 : World :=
  { (init plainHost emptyWorld).world with stack := [.integer 42], brk := 64 }

/-- An `int32` property at a given offset with given flags. -/
def intProp (offset flags : Nat) : UProperty :=
  { cls := UIntProperty_StaticClass
    Offset_Internal := offset
    ElementSize := 4
    ArrayDim := 1
    PropertyFlags := flags
    Struct := ⟨0, 0⟩ }

/-- A host function `int32 F(int32& out1, int32& out2)`: the parameter block holds `out1` at
offset 0, `out2` at offset 4 and the return value at offset 8. -/
def twoOutsFunction : UFunction :=
  { name := "F"
    props := [intProp 0 (CPF_Parm ||| CPF_OutParm), intProp 4 (CPF_Parm ||| CPF_OutParm),
      intProp 8 (CPF_Parm ||| CPF_OutParm ||| CPF_ReturnParm)]
    ParmsSize := 12
    ReturnValueOffset := 8 }

/-- The world after `init` and after the host ran `F` on the parameter block at address 0:
`out1 = 10`, `out2 = 20`, return value 30. -/
def afterCallWorld : World :=
  { (init plainHost emptyWorld).world with
    mem := fun a => if a = 0 then .int32 10 else if a = 4 then .int32 20
      else if a = 8 then .int32 30 else .zero
    brk := 64 }

/-- A host function `void G(int32 a, int32 b)`: `a` at offset 0, `b` at offset 4 of a parameter
block of 8 bytes. -/
def twoIntsFunction : UFunction :=
  { name := "G"
    props := [intProp 0 CPF_Parm, intProp 4 CPF_Parm]
    ParmsSize := 8
    ReturnValueOffset := MAX_uint16 }

/-- The world after `init` in which a script calls `G(7, 9)` on a receiver: the receiver is
argument 1, the integers 7 and 9 are arguments 2 and 3. -/
def callWorld : World :=
  { (init plainHost emptyWorld).world with
    stack := [.integer 9, .integer 7, .userdata 0]
    heap := fun r => if r = 0 then some (.userdata 500 none) else none
    nextRef := 1
    brk := 64 }

/-- A host that knows the function descriptors used in the examples. -/
def callHost : Host :=
  { plainHost with
    functionAt := fun p =>
      if p = 900 then some twoIntsFunction
      else if p = 901 then some
        { name := "H"
          props := [intProp 0 CPF_Parm,
            { cls := ⟨"MapProperty"⟩, Offset_Internal := 8, ElementSize := 80, ArrayDim := 1,
              PropertyFlags := CPF_Parm, Struct := ⟨0, 0⟩ }]
          ParmsSize := 88
          ReturnValueOffset := MAX_uint16 }
      else none }

/-- The world of a script call `G(7, 9)`: `callWorld` with the descriptor of `G` in upvalue 1. -/
def closureWorldG : World := { callWorld with upvalues := [.lightuserdata 900] }

/-- The world of a script call `H(7, 9)`, where `H` has a parameter of a kind without checker. -/
def closureWorldH : World := { callWorld with upvalues := [.lightuserdata 901] }

/-- The world after the fill pass of `G(7, 9)`: the block of 8 bytes was taken at address 64;
7 went to the slot of `a`, 9 went to address 72, which is the end of the block. -/
def filledWorldG : World :=
  { closureWorldG with
    brk := 64 + 8
    mem := fun a => if a = 72 then .int32 9 else if a = 64 then .int32 7 else .zero }

/-- The world in which the fill pass of `H(7, 9)` reaches the parameter without checker. -/
def filledWorldH : World :=
  { closureWorldH with
    brk := 64 + 88
    mem := fun a => if a = 64 then .int32 7 else .zero }

/-- A struct type of four bytes. -/
def quadStruct : UScriptStruct := ⟨2000, 4⟩

/-- A `bool` property at offset 0, one byte wide. -/
def boolAt0 : UProperty :=
  { cls := UBoolProperty_StaticClass
    Offset_Internal := 0
    ElementSize := 1
    ArrayDim := 1
    PropertyFlags := CPF_Parm
    Struct := ⟨0, 0⟩ }

/-- A struct property of type `quadStruct` stored at offset 4 of its container. -/
def quadAt4 : UProperty :=
  { cls := UStructProperty_StaticClass
    Offset_Internal := 4
    ElementSize := 4
    ArrayDim := 1
    PropertyFlags := CPF_Parm
    Struct := quadStruct }

/-- A host function `void K(bool a, Quad s)`: `a` at offset 0, `s`, which is aligned to four
bytes, at offset 4 of a parameter block of 8 bytes. -/
def boolStructFunction : UFunction :=
  { name := "K"
    props := [boolAt0, quadAt4]
    ParmsSize := 8
    ReturnValueOffset := MAX_uint16 }

/-- The world after `init` in which a script calls `K(true, s)`: argument 1 is the receiver,
argument 2 is `true`, argument 3 is a struct wrapper of four bytes, 1 2 3 4, held at address
100; the parameter block at address 0 is zero-filled. -/
def structWorld : World :=
  { (init plainHost emptyWorld).world with
    stack := [.userdata 1, .boolean true, .userdata 0]
    heap := fun r =>
      if r = 0 then some (.userdata 500 none)
      else if r = 1 then some (.userdata 300 none) else none
    nextRef := 2
    luaStructs := fun a => if a = 300 then some ⟨100, 4, quadStruct⟩ else none
    mem := fun a =>
      if a = 100 then .byte 1 else if a = 101 then .byte 2
      else if a = 102 then .byte 3 else if a = 103 then .byte 4 else .zero
    brk := 400 }

/-- A struct property of the vector type of `plainHost`, stored at offset 16 of its container. -/
def vecProp : UProperty :=
  { cls := UStructProperty_StaticClass
    Offset_Internal := 16
    ElementSize := 12
    ArrayDim := 1
    PropertyFlags := CPF_Parm
    Struct := ⟨1000, 12⟩ }

/-- The world after `init` in which the container at address 0 holds the vector (11, 22, 33) in
the slot of `vecProp`, and argument 1 is the script table `{7, nil, 9}`. -/
def vecWorld : World :=
  { (init plainHost emptyWorld).world with
    stack := [.table 0]
    heap := fun r =>
      if r = 0 then some (.table [(.integer 1, .number ⟨7⟩), (.integer 3, .number ⟨9⟩)] none)
      else none
    nextRef := 1
    mem := fun a =>
      if a = 16 then .float ⟨11⟩ else if a = 20 then .float ⟨22⟩
      else if a = 24 then .float ⟨33⟩ else .zero
    brk := 400 }

/-- A new Lua state: the registry holds the table of globals, which is empty. -/
def freshLua : World :=
  { emptyWorld with
    registry := [(.integer LUA_RIDX_GLOBALS, .table 0)]
    heap := fun r => if r = 0 then some (.table [] none) else none
    nextRef := 1 }

/-- An object host with two struct-type descriptors, one of 8 bytes at address 700 and one of
size 0 at address 710; `InitializeStruct` zero-fills, and the foreign pushes push the address
they are given as a light userdata. -/
def structHost : ObjectHost :=
  { pushGCObject := fun obj _ _ _ => do
      lua_pushlightuserdata obj
      return 1
    isWidgetTree := fun _ => false
    LuaWidgetTree_push := fun tr => do
      lua_pushlightuserdata tr
      return 1
    structAt := fun a =>
      if a = 700 then some ⟨700, 8⟩ else if a = 710 then some ⟨710, 0⟩ else none
    InitializeStruct := fun uss buf m a =>
      if buf ≤ a ∧ a < buf + uss.structureSize then .zero else m a }

/-- An object-reference property stored at offset 8 of its container. -/
def objAt8 : UProperty :=
  { cls := UObjectProperty_StaticClass
    Offset_Internal := 8
    ElementSize := 8
    ArrayDim := 1
    PropertyFlags := 0
    Struct := ⟨0, 0⟩ }

/-- The frame of a `structConstruct` call: argument 1 is the wrapper (heap reference 0) of the
struct-type descriptor at address 700. -/
def constructWorld : World :=
  { emptyWorld with
    stack := [.userdata 0]
    heap := fun r => if r = 0 then some (.userdata 700 none) else none
    nextRef := 1
    brk := 2000 }

/-- The frame of a `structConstruct` call for the descriptor of size 0 at address 710; the
byte at address 50 of host memory is 7. -/
def constructWorld0 : World :=
  { emptyWorld with
    stack := [.userdata 0]
    heap := fun r => if r = 0 then some (.userdata 710 none) else none
    nextRef := 1
    mem := fun a => if a = 50 then .byte 7 else .zero
    brk := 2000 }

/-- A struct property of declared size 1 whose struct type, of one byte, is not the vector. -/
def byteStructProp : UProperty :=
  { cls := UStructProperty_StaticClass
    Offset_Internal := 0
    ElementSize := 1
    ArrayDim := 1
    PropertyFlags := CPF_Parm
    Struct := ⟨720, 1⟩ }

/-- The world after two `structConstruct` calls for the descriptor at address 700. -/
def twoStructsWorld : World :=
  ((structConstruct structHost >>= fun _ => structConstruct structHost) constructWorld).world

/-- The frame in which the collector runs the finalizer of the first of the two wrappers
(heap reference 1). -/
def gcStructWorld : World :=
  { twoStructsWorld with stack := [.userdata 1] }
/-! ## Lemmas: monad, tables, indices -/

@[simp] theorem pure_apply {α : Type} (a : α) (w : World) : (pure a : LuaM α) w = .ok a w := rfl

@[simp] theorem bind_apply {α β : Type} (m : LuaM α) (f : α → LuaM β) (w : World) :
    (m >>= f) w = match m w with
      | .ok a w1 => f a w1
      | .error e w1 => .error e w1 := rfl

theorem rawgetE_eraseKey (t : Entries) (key k : LuaValue) :
    rawgetE (eraseKey t key) k = if k = key then .nil else rawgetE t k := by
  induction t with
  | nil => simp [rawgetE, eraseKey]
  | cons hd tl ih =>
    obtain ⟨a, b⟩ := hd
    by_cases h : a = key
    · subst h
      by_cases h2 : a = k
      · subst h2; simpa [eraseKey] using ih
      · have h3 : ¬ k = a := fun h => h2 h.symm
        simpa [eraseKey, rawgetE, h2, h3] using ih
    · by_cases h2 : a = k
      · subst h2; simp [eraseKey, rawgetE, h]
      · simp [eraseKey, rawgetE, h, h2, ih]

theorem not_mem_eraseKey (t : Entries) (key : LuaValue) :
    ∀ e ∈ eraseKey t key, e.1 ≠ key := by
  induction t with
  | nil => simp [eraseKey]
  | cons hd tl ih =>
    obtain ⟨a, b⟩ := hd
    by_cases h : a = key
    · simpa [eraseKey, h] using ih
    · intro e he
      simp only [eraseKey, h, if_false, List.mem_cons] at he
      rcases he with rfl | he
      · exact h
      · exact ih e he

theorem rawgetE_append_single (t : Entries) (key val k : LuaValue)
    (hk : ∀ e ∈ t, e.1 ≠ key) :
    rawgetE (t ++ [(key, val)]) k = if k = key then val else rawgetE t k := by
  induction t with
  | nil =>
    by_cases h2 : key = k
    · subst h2; simp [rawgetE]
    · have h3 : ¬ k = key := fun h => h2 h.symm
      simp [rawgetE, h2, h3]
  | cons hd tl ih =>
    obtain ⟨a, b⟩ := hd
    have ha : a ≠ key := hk (a, b) (by simp)
    have htl : ∀ e ∈ tl, e.1 ≠ key := fun e he => hk e (by simp [he])
    by_cases h2 : a = k
    · subst h2; simp [rawgetE, ha]
    · simp [rawgetE, h2, ih htl]

/-- Reading after a raw write: the written key reads back the written value, every other key is
unchanged. -/
theorem rawgetE_rawsetE (t : Entries) (key val k : LuaValue) :
    rawgetE (rawsetE t key val) k = if k = key then val else rawgetE t k := by
  unfold rawsetE
  by_cases hv : val = .nil
  · subst hv; simp [rawgetE_eraseKey]
  · simp only [hv, if_false]
    rw [rawgetE_append_single _ _ _ _ (not_mem_eraseKey t key)]
    by_cases hk : k = key
    · simp [hk]
    · simp [hk, rawgetE_eraseKey]

theorem index2addr_neg (s u : List LuaValue) (k : Nat) (h0 : 0 < k) (h1 : k < 1001000) :
    index2addr s u (-(k : Int)) = s[k - 1]? := by
  unfold index2addr stackPos LUA_REGISTRYINDEX
  have e1 : ¬ (-(k : Int) < -1001000) := by omega
  have e2 : ¬ (0 < -(k : Int)) := by omega
  have e3 : (-(k : Int) < 0 ∧ (-1001000 : Int) < -(k : Int)) := by omega
  simp only [e1, e2, e3, if_false, if_true, neg_neg, Int.toNat_ofNat, and_self]
  by_cases h : k ≤ s.length
  · simp [h]
  · simp only [h, if_false, Option.none_bind]
    symm
    apply List.getElem?_eq_none
    omega

@[simp] theorem index2value_eq (w : World) (idx : Int) :
    index2value w idx = index2addr w.stack w.upvalues idx := rfl

@[simp] theorem index2addr_neg1 (s u : List LuaValue) : index2addr s u (-1) = s[0]? :=
  index2addr_neg s u 1 (by decide) (by decide)

@[simp] theorem index2addr_neg2 (s u : List LuaValue) : index2addr s u (-2) = s[1]? :=
  index2addr_neg s u 2 (by decide) (by decide)

@[simp] theorem index2addr_neg3 (s u : List LuaValue) : index2addr s u (-3) = s[2]? :=
  index2addr_neg s u 3 (by decide) (by decide)

@[simp] theorem index2addr_neg4 (s u : List LuaValue) : index2addr s u (-4) = s[3]? :=
  index2addr_neg s u 4 (by decide) (by decide)

@[simp] theorem index2addr_neg5 (s u : List LuaValue) : index2addr s u (-5) = s[4]? :=
  index2addr_neg s u 5 (by decide) (by decide)

theorem stackPos_neg (s : List LuaValue) (k : Nat) (h0 : 0 < k) (h1 : k < 1001000) :
    stackPos s (-(k : Int)) = if k ≤ s.length then some (k - 1) else none := by
  unfold stackPos LUA_REGISTRYINDEX
  have e2 : ¬ (0 < -(k : Int)) := by omega
  have e3 : (-(k : Int) < 0 ∧ (-1001000 : Int) < -(k : Int)) := by omega
  simp only [e2, e3, if_false, if_true, neg_neg, Int.toNat_ofNat, and_self]

@[simp] theorem stackPos_neg2 (s : List LuaValue) :
    stackPos s (-2) = if 2 ≤ s.length then some 1 else none :=
  stackPos_neg s 2 (by decide) (by decide)

@[simp] theorem index2addr_upvalue1 (s u : List LuaValue) :
    index2addr s u (lua_upvalueindex 1) = u[0]? := by
  simp [index2addr, lua_upvalueindex, LUA_REGISTRYINDEX]

/-- A push does not move what a valid positive index denotes. -/
theorem index2addr_pos_cons (s u : List LuaValue) (v x : LuaValue) (i : Int) (hi : 0 < i)
    (h : index2addr s u i = some x) : index2addr (v :: s) u i = some x := by
  unfold index2addr stackPos at h ⊢
  have e1 : ¬ (i < LUA_REGISTRYINDEX) := by unfold LUA_REGISTRYINDEX; omega
  simp only [e1, hi, if_false, if_true] at h ⊢
  by_cases hl : i.toNat ≤ s.length
  · have hl2 : i.toNat ≤ (v :: s).length := by simp; omega
    have hpos : 0 < i.toNat := by omega
    simp only [hl, hl2, if_true, Option.some_bind] at h ⊢
    have e : (v :: s).length - i.toNat = (s.length - i.toNat) + 1 := by simp; omega
    rw [e]
    simpa using h
  · simp [hl] at h

@[simp] theorem tableAt_registry (w : World) :
    tableAt w LUA_REGISTRYINDEX = some (w.registry, none) := by
  simp [tableAt]

/-- What `getFromCache` does when the cache table exists: a miss leaves the world as it was, a hit
pushes the cached value. -/
theorem getFromCache_eq (w : World) (obj c : Nat) (es : Entries) (mt : Option Nat)
    (hreg : rawgetE w.registry (.integer w.cacheObjRef) = .table c)
    (hheap : w.heap c = some (.table es mt)) :
    getFromCache obj w =
      if rawgetE es (.lightuserdata obj) = .nil then .ok false w
      else .ok true { w with stack := rawgetE es (.lightuserdata obj) :: w.stack } := by
  by_cases h : rawgetE es (.lightuserdata obj) = .nil
  · simp [getFromCache, LuaState.get, ensure, lua_geti, lua_istable, lua_pushlightuserdata,
      pushValue, lua_rawget, lua_remove, lua_isnil, lua_pop, hreg, hheap, h]
  · simp [getFromCache, LuaState.get, ensure, lua_geti, lua_istable, lua_pushlightuserdata,
      pushValue, lua_rawget, lua_remove, lua_isnil, lua_pop, hreg, hheap, h]

theorem cacheTable_eq_some (w : World) (es : Entries) :
    cacheTable w = some es ↔
      ∃ c mt, rawgetE w.registry (.integer w.cacheObjRef) = .table c ∧
        w.heap c = some (.table es mt) := by
  unfold cacheTable
  constructor
  · intro h
    split at h
    · rename_i c hc
      split at h
      · rename_i es1 mt hh
        simp only [Option.some.injEq] at h
        subst h
        exact ⟨c, mt, hc, hh⟩
      · exact absurd h (by simp)
    · exact absurd h (by simp)
  · rintro ⟨c, mt, hc, hh⟩
    simp [hc, hh]

/-- C2. Cache eviction on finalize.  Let the real gc function `gc` be upvalue 1 of the composed
finalizer and let its call return, leaving a world `w1` in which the identity cache exists and
the wrapper at stack index 1 holds entity address `e`.  Then `removeFromCacheGC` returns 0 in a
world `w2` that is `w1` (the world after that one run of `gc`) except for the cache table: the
stack and the host state are those of `w1`, the cache has no entry for `e`, `getFromCache e`
reports a miss, and the entry of every other address is the one of `w1`. -/
theorem removeFromCacheGC_evicts (call : CFunction → LuaM Int) (w w1 : World) (gc : CFunction)
    (n : Int) (r e : Nat) (es : Entries) (umt : Option Nat)
    (hup : w.upvalues[0]? = some (.cfunction gc))
    (hgc : call gc w = .ok n w1)
    (hcache : cacheTable w1 = some es)
    (hud : index2value w1 1 = some (.userdata r))
    (hr : w1.heap r = some (.userdata e umt)) :
    ∃ w2, removeFromCacheGC call w = .ok 0 w2 ∧
      w2.stack = w1.stack ∧ w2.upvalues = w1.upvalues ∧ w2.registry = w1.registry ∧
      w2.mem = w1.mem ∧ w2.rooted = w1.rooted ∧ w2.invoked = w1.invoked ∧
      cacheTable w2 = some (rawsetE es (.lightuserdata e) .nil) ∧
      rawgetE (rawsetE es (.lightuserdata e) .nil) (.lightuserdata e) = .nil ∧
      getFromCache e w2 = .ok false w2 ∧
      ∀ e1, e1 ≠ e →
        rawgetE (rawsetE es (.lightuserdata e) .nil) (.lightuserdata e1) =
          rawgetE es (.lightuserdata e1) := by
  obtain ⟨c, mt, hreg, hheap⟩ := (cacheTable_eq_some w1 es).mp hcache
  have hcf : lua_tocfunction (lua_upvalueindex 1) w = .ok (some gc) w := by
    simp [lua_tocfunction, hup]
  have hrun : removeFromCacheGC call w = .ok 0 { w1 with
      heap := fun x => if x = c then some (.table (rawsetE es (.lightuserdata e) .nil) mt)
        else w1.heap x } := by
    simp only [removeFromCacheGC, bind_apply, hcf, callPtr, hgc]
    obtain ⟨stack, upvalues, heap, nextRef, registry, cacheObjRef, mem, rooted, invoked, brk, luaStructs, VectorStruct, pusherMap, checkerMap⟩ := w1
    simp only at hreg hheap hud hr
    have hud1 := index2addr_pos_cons stack upvalues (.table c) (.userdata r) 1 (by decide) hud
    simp [LuaState.get, lua_geti, ensure, lua_istable, lua_touserdata, UserData_ud,
      lua_pushlightuserdata, lua_pushnil, pushValue, lua_rawset, lua_pop, hreg, hheap, hud1, hr]
  have hc2 : cacheTable { w1 with
      heap := fun x => if x = c then some (.table (rawsetE es (.lightuserdata e) .nil) mt)
        else w1.heap x } = some (rawsetE es (.lightuserdata e) .nil) :=
    (cacheTable_eq_some _ _).mpr ⟨c, mt, hreg, by simp⟩
  refine ⟨_, hrun, rfl, rfl, rfl, rfl, rfl, rfl, hc2, ?_, ?_, ?_⟩
  · simp [rawgetE_rawsetE]
  · have h := getFromCache_eq { w1 with
      heap := fun x => if x = c then some (.table (rawsetE es (.lightuserdata e) .nil) mt)
        else w1.heap x } e c (rawsetE es (.lightuserdata e) .nil) mt hreg (by simp)
    rw [h]
    simp [rawgetE_rawsetE]
  · intro e1 he1
    simp [rawgetE_rawsetE, he1]

theorem removeFromCacheGC_evicts_witness :
    gcWorld.upvalues[0]? = some (.cfunction .gcObject) ∧
    codeOf .gcObject gcWorld = .ok 0 gcWorldUnrooted ∧
    cacheTable gcWorldUnrooted =
      some [(.lightuserdata 100, .userdata 7), (.lightuserdata 200, .userdata 8)] ∧
    index2value gcWorldUnrooted 1 = some (.userdata 7) ∧
    gcWorldUnrooted.heap 7 = some (.userdata 100 none) ∧
    ∃ w2, removeFromCacheGC codeOf gcWorld = .ok 0 w2 ∧
      cacheTable w2 = some [(.lightuserdata 200, .userdata 8)] ∧
      getFromCache 100 w2 = .ok false w2 ∧ w2.rooted 100 = false ∧ w2.rooted 200 = true :=
  ⟨rfl, rfl, rfl, rfl, rfl,
    (removeFromCacheGC_evicts codeOf gcWorld gcWorldUnrooted .gcObject 0 7 100
      [(.lightuserdata 100, .userdata 7), (.lightuserdata 200, .userdata 8)] none
      rfl rfl rfl rfl rfl).imp
      (fun _ h => ⟨h.1, h.2.2.2.2.2.2.2.1, h.2.2.2.2.2.2.2.2.2.1,
        by rw [h.2.2.2.2.2.1]; rfl, by rw [h.2.2.2.2.2.1]; rfl⟩)⟩

/-! ## Round trip of scalars (C3) -/

/-- Bool properties round-trip at every offset: `checkUBoolProperty` followed by
`pushUBoolProperty` on the same container pushes the boolean that was checked. -/
theorem bool_roundtrip (prop : UProperty) (parms : Nat) (i : Int) (w : World) (b : Bool)
    (hcls : prop.cls = UBoolProperty_StaticClass)
    (hv : index2value w i = some (.boolean b)) :
    ((checkUBoolProperty prop parms i >>= fun _ => pushUBoolProperty prop parms) w).world.stack
      = .boolean b :: w.stack := by
  simp only [index2value_eq] at hv
  simp [checkUBoolProperty, pushUBoolProperty, Cast, hcls, ensure, deref, checkValue_bool, hv,
    UProperty.SetPropertyValue_InContainer, UProperty.GetPropertyValue_InContainer, writeMem,
    readMem, push_bool, lua_pushboolean, pushValue, Result.world, Cell.asBool]

/-- String properties round-trip at every offset. -/
theorem str_roundtrip (prop : UProperty) (parms : Nat) (i : Int) (w : World) (s : String)
    (hcls : prop.cls = UStrProperty_StaticClass)
    (hv : index2value w i = some (.string s)) :
    ((checkUStrProperty prop parms i >>= fun _ => pushUStrProperty prop parms) w).world.stack
      = .string s :: w.stack := by
  simp only [index2value_eq] at hv
  simp [checkUStrProperty, pushUStrProperty, Cast, hcls, ensure, deref, checkValue_FString, hv,
    UProperty.SetPropertyValue_InContainer, UProperty.GetPropertyValue_InContainer, writeMem,
    readMem, push_FString, lua_pushstring, pushValue, Result.world, Cell.asStr]

theorem toInt32_of_range (v : Int) (h1 : -2 ^ 31 ≤ v) (h2 : v < 2 ^ 31) : toInt32 v = v := by
  unfold toInt32
  omega

/-- What an int property pushes after a check, at any offset: the check stores the value at
`parms + Offset_Internal`, the push reads the integer stored at `parms`. -/
theorem int_check_then_push (prop : UProperty) (parms : Nat) (i : Int) (w : World) (v : Int)
    (hcls : prop.cls = UIntProperty_StaticClass)
    (hv : index2value w i = some (.integer v)) :
    ((checkUIntProperty prop parms i >>= fun _ => pushUIntProperty prop parms) w).world.stack
      = .integer (if prop.Offset_Internal = 0 then toInt32 (toInt32 v)
          else toInt32 (w.mem parms).asInt32) :: w.stack := by
  simp only [index2value_eq] at hv
  by_cases h0 : prop.Offset_Internal = 0
  · simp [checkUIntProperty, pushUIntProperty, Cast, hcls, ensure, deref, checkValue_int, hv,
      UProperty.SetPropertyValue_InContainer, UProperty.GetSignedIntPropertyValue, writeMem,
      UProperty.ContainerPtrToValuePtr, readMem, push_int, lua_pushinteger, pushValue,
      Result.world, Cell.asInt32, h0]
  · simp [checkUIntProperty, pushUIntProperty, Cast, hcls, ensure, deref, checkValue_int, hv,
      UProperty.SetPropertyValue_InContainer, UProperty.GetSignedIntPropertyValue, writeMem,
      UProperty.ContainerPtrToValuePtr, readMem, push_int, lua_pushinteger, pushValue,
      Result.world, Cell.asInt32, h0]

/-- C3, at the failing input.  After `init`, the script integer 42 is checked into the `int32`
property stored at offset 4 of the zero-filled container at address 0, then the same property
is pushed from the same container: both calls succeed, the value 42 sits at address 4, and the
script value pushed is 0, not 42. -/
theorem int_roundtrip_offset4 :
    ((fillParamFromState plainHost intAt4 0 1 >>= fun _ => push plainHost intAt4 0)
      initWorld42).value? = some 1 ∧
    ((fillParamFromState plainHost intAt4 0 1 >>= fun _ => push plainHost intAt4 0)
      initWorld42).world.mem 4 = .int32 42 ∧
    ((fillParamFromState plainHost intAt4 0 1 >>= fun _ => push plainHost intAt4 0)
      initWorld42).world.stack = [.integer 0, .integer 42] := by
  have hc : mapFind initWorld42.checkerMap UIntProperty_StaticClass =
      some .checkUIntProperty := by decide
  have hp : mapFind initWorld42.pusherMap UIntProperty_StaticClass =
      some .pushUIntProperty := by decide
  have hs : initWorld42.stack = [.integer 42] := rfl
  have hm : initWorld42.mem = fun _ => .zero := rfl
  have hu : initWorld42.upvalues = [] := rfl
  have hv : index2addr [.integer 42] [] 1 = some (.integer 42) := by decide
  simp [fillParamFromState, push, getChecker, getPusher, hc, hp, CheckPropertyFunction.call,
    PushPropertyFunction.call, checkUIntProperty, pushUIntProperty, Cast, intAt4, ensure, deref,
    checkValue_int, hv, UProperty.SetPropertyValue_InContainer,
    UProperty.GetSignedIntPropertyValue, writeMem, UProperty.ContainerPtrToValuePtr, readMem,
    push_int, lua_pushinteger, pushValue, Result.world, Result.value?, Cell.asInt32, hs, hm, hu,
    UProperty.GetSize, toInt32]

/-! ## Results of an invocation (C4) and the fill pass (C5) -/

/-- C4, at the failing input.  For `int32 F(int32& out1, int32& out2)` with `out1 = 10`,
`out2 = 20` and return value 30 in the parameter block, `returnValue` returns 3 and pushes three
values, but they are 10, 10, 20 (the stack lists the top first): the first result is read at
the start of the block, where `out1` lies, not at the return value's offset 8. -/
theorem returnValue_twoOuts :
    (returnValue plainHost twoOutsFunction 0 afterCallWorld).value? = some 3 ∧
    (returnValue plainHost twoOutsFunction 0 afterCallWorld).world.stack =
      [.integer 20, .integer 10, .integer 10] ∧
    afterCallWorld.mem (0 + twoOutsFunction.ReturnValueOffset) = .int32 30 := by
  have hp : mapFind afterCallWorld.pusherMap UIntProperty_StaticClass =
      some .pushUIntProperty := by decide
  have hs : afterCallWorld.stack = [] := rfl
  have hm : afterCallWorld.mem = fun a => if a = 0 then .int32 10 else if a = 4 then .int32 20
      else if a = 8 then .int32 30 else .zero := rfl
  have f1 : (CPF_Parm ||| CPF_OutParm) &&& CPF_ReturnParm = 0 := by decide
  have f2 : (CPF_Parm ||| CPF_OutParm) &&& CPF_OutParm ≠ 0 := by decide
  have f3 : (CPF_Parm ||| CPF_OutParm ||| CPF_ReturnParm) &&& CPF_ReturnParm ≠ 0 := by decide
  have f4 : (CPF_Parm ||| CPF_OutParm) &&& CPF_Parm ≠ 0 := by decide
  have f5 : (CPF_Parm ||| CPF_OutParm ||| CPF_ReturnParm) &&& CPF_Parm ≠ 0 := by decide
  refine ⟨?_, ?_, rfl⟩
  · simp [returnValue, GetReturnProperty, f4, f5, MAX_uint16, deref, returnValueLoop, twoOutsFunction, intProp, f1, f2, f3,
      push, getPusher, hp, PushPropertyFunction.call, pushUIntProperty, Cast, ensure,
      UProperty.GetSignedIntPropertyValue, readMem, push_int, lua_pushinteger, pushValue,
      Result.value?, Cell.asInt32, hm, UProperty.GetSize, toInt32]
  · simp [returnValue, GetReturnProperty, f4, f5, MAX_uint16, deref, returnValueLoop, twoOutsFunction, intProp, f1, f2, f3,
      push, getPusher, hp, PushPropertyFunction.call, pushUIntProperty, Cast, ensure,
      UProperty.GetSignedIntPropertyValue, readMem, push_int, lua_pushinteger, pushValue,
      Result.world, Cell.asInt32, hm, hs, UProperty.GetSize, toInt32]

/-- C5, at the failing input.  For `void G(int32 a, int32 b)` called with the script arguments
7 and 9, the fill pass on the zero-filled parameter block at address 0 succeeds and stores 7 in
the slot of `a` (offset 0), but it leaves the slot of `b` (offset 4) untouched and stores 9 at
address 8, which is past the end of the 8-byte block. -/
theorem fillParam_twoInts :
    (fillParam plainHost twoIntsFunction 0 callWorld).value? = some () ∧
    (fillParam plainHost twoIntsFunction 0 callWorld).world.mem 0 = .int32 7 ∧
    (fillParam plainHost twoIntsFunction 0 callWorld).world.mem 4 = .zero ∧
    (fillParam plainHost twoIntsFunction 0 callWorld).world.mem 8 = .int32 9 ∧
    twoIntsFunction.ParmsSize = 8 := by
  have hc : mapFind callWorld.checkerMap UIntProperty_StaticClass =
      some .checkUIntProperty := by decide
  have hm : callWorld.mem = fun _ => .zero := rfl
  have h2 : index2addr callWorld.stack callWorld.upvalues 2 = some (.integer 7) := by decide
  have h3 : index2addr callWorld.stack callWorld.upvalues 3 = some (.integer 9) := by decide
  have f1 : CPF_Parm &&& CPF_ReturnParm = 0 := by decide
  have f4 : CPF_Parm ≠ 0 := by decide
  have hrun : fillParam plainHost twoIntsFunction 0 callWorld = .ok () { callWorld with
      mem := fun a => if a = 8 then .int32 9 else if a = 0 then .int32 7 else .zero } := by
    simp [fillParam, fillParamLoop, twoIntsFunction, intProp, f1, f4, fillParamFromState,
      getChecker, hc, CheckPropertyFunction.call, checkUIntProperty, Cast, ensure, deref,
      checkValue_int, h2, h3, UProperty.SetPropertyValue_InContainer, writeMem,
      UProperty.ContainerPtrToValuePtr, UProperty.GetSize, toInt32, hm]
  rw [hrun]
  simp [Result.value?, Result.world, twoIntsFunction]

/-! ## Invocation atomicity (C6) -/

theorem Quiet.pure {α : Type} (a : α) : Quiet (pure a : LuaM α) := fun _ => rfl

theorem Quiet.bind {α β : Type} {m : LuaM α} {f : α → LuaM β} (hm : Quiet m)
    (hf : ∀ a, Quiet (f a)) : Quiet (m >>= f) := by
  intro w
  have h1 := hm w
  simp only [bind_apply]
  cases hmw : m w with
  | ok a w1 =>
    rw [hmw] at h1
    simp only [Result.world] at h1
    simp only [hf a w1, h1]
  | error e w1 =>
    rw [hmw] at h1
    simpa [Result.world] using h1

theorem Quiet.error {α : Type} (e : LuaError) : Quiet (luaL_error e : LuaM α) := fun _ => rfl

theorem Quiet.ensure (c : Bool) : Quiet (ensure c) := fun _ => rfl

theorem Quiet.deref {α : Type} (p : Option α) : Quiet (deref p) := by
  intro w; cases p <;> rfl

theorem Quiet.readMem (a : Nat) : Quiet (readMem a) := fun _ => rfl

theorem Quiet.writeMem (a : Nat) (c : Cell) : Quiet (writeMem a c) := fun _ => rfl

theorem Quiet.pushValue (v : LuaValue) : Quiet (pushValue v) := fun _ => rfl

theorem Quiet.lua_pop (n : Nat) : Quiet (lua_pop n) := by
  intro w; unfold slua.lua_pop; split <;> rfl

theorem Quiet.lua_createtable (a b : Nat) : Quiet (lua_createtable a b) := fun _ => rfl

theorem Quiet.lua_rawgeti (idx n : Int) : Quiet (lua_rawgeti idx n) := by
  intro w; unfold slua.lua_rawgeti; split <;> rfl

theorem setTableAt_invoked (w : World) (idx : Int) (es : Entries) :
    (setTableAt w idx es).invoked = w.invoked := by
  unfold setTableAt
  split
  · rfl
  · split
    · split <;> rfl
    · rfl

theorem Quiet.lua_rawseti (idx n : Int) : Quiet (lua_rawseti idx n) := by
  intro w; unfold slua.lua_rawseti; split
  · simp [Result.world, setTableAt_invoked]
  · rfl

theorem Quiet.lua_tonumber (h : Host) (idx : Int) : Quiet (lua_tonumber h idx) := fun _ => rfl

theorem Quiet.luaL_checktype_table (i : Int) : Quiet (luaL_checktype_table i) := by
  intro w; unfold slua.luaL_checktype_table; split <;> rfl

theorem Quiet.FMemory_Alloca (n : Nat) : Quiet (FMemory_Alloca n) := fun _ => rfl

theorem Quiet.FMemory_Malloc (n : Nat) : Quiet (FMemory_Malloc n) := fun _ => rfl

theorem Quiet.FMemory_Memcpy (d s n : Nat) : Quiet (FMemory_Memcpy d s n) := fun _ => rfl

theorem Quiet.new_LuaStruct (b s : Nat) (u : UScriptStruct) : Quiet (new_LuaStruct b s u) :=
  fun _ => rfl

theorem Quiet.push_LuaStruct (ls : Nat) : Quiet (push_LuaStruct ls) := fun _ => rfl

theorem Quiet.getVectorStruct : Quiet getVectorStruct := fun _ => rfl

theorem Quiet.getPusher (c : UClass) : Quiet (getPusher c) := fun _ => rfl

theorem Quiet.getChecker (c : UClass) : Quiet (getChecker c) := fun _ => rfl

theorem Quiet.checkValue_int (i : Int) : Quiet (checkValue_int i) := by
  intro w; unfold slua.checkValue_int; split <;> rfl

theorem Quiet.checkValue_bool (i : Int) : Quiet (checkValue_bool i) := by
  intro w; unfold slua.checkValue_bool; split <;> rfl

theorem Quiet.checkValue_float (h : Host) (i : Int) : Quiet (checkValue_float h i) := by
  intro w; unfold slua.checkValue_float; split <;> rfl

theorem Quiet.checkValue_FString (i : Int) : Quiet (checkValue_FString i) := by
  intro w; unfold slua.checkValue_FString; split <;> rfl

theorem Quiet.checkValue_LuaStruct (i : Int) : Quiet (checkValue_LuaStruct i) := by
  intro w; unfold slua.checkValue_LuaStruct
  split
  · split
    · split <;> rfl
    · rfl
  · rfl

theorem Quiet.pushUIntProperty (prop : UProperty) (parms : Nat) :
    Quiet (pushUIntProperty prop parms) := by
  unfold slua.pushUIntProperty push_int lua_pushinteger UProperty.GetSignedIntPropertyValue
  try dsimp only
  repeat (first
    | with_reducible exact Quiet.pure _
    | with_reducible exact Quiet.error _
    | with_reducible exact Quiet.ensure _
    | with_reducible exact Quiet.deref _
    | with_reducible exact Quiet.readMem _
    | with_reducible exact Quiet.writeMem _ _
    | with_reducible exact Quiet.pushValue _
    | with_reducible exact Quiet.lua_pop _
    | with_reducible exact Quiet.lua_createtable _ _
    | with_reducible exact Quiet.lua_rawgeti _ _
    | with_reducible exact Quiet.lua_rawseti _ _
    | with_reducible exact Quiet.lua_tonumber _ _
    | with_reducible exact Quiet.luaL_checktype_table _
    | with_reducible exact Quiet.FMemory_Alloca _
    | with_reducible exact Quiet.FMemory_Malloc _
    | with_reducible exact Quiet.FMemory_Memcpy _ _ _
    | with_reducible exact Quiet.new_LuaStruct _ _ _
    | with_reducible exact Quiet.push_LuaStruct _
    | with_reducible exact Quiet.getVectorStruct
    | with_reducible exact Quiet.getPusher _
    | with_reducible exact Quiet.getChecker _
    | with_reducible exact Quiet.checkValue_int _
    | with_reducible exact Quiet.checkValue_bool _
    | with_reducible exact Quiet.checkValue_float _ _
    | with_reducible exact Quiet.checkValue_FString _
    | with_reducible exact Quiet.checkValue_LuaStruct _
    | with_reducible apply Quiet.bind
    | split
    | intro _)

theorem Quiet.pushFloatProperty (h : Host) (prop : UProperty) (parms : Nat) :
    Quiet (pushFloatProperty h prop parms) := by
  unfold slua.pushFloatProperty push_float lua_pushnumber
    UProperty.GetFloatingPointPropertyValue
  try dsimp only
  repeat (first
    | with_reducible exact Quiet.pure _
    | with_reducible exact Quiet.error _
    | with_reducible exact Quiet.ensure _
    | with_reducible exact Quiet.deref _
    | with_reducible exact Quiet.readMem _
    | with_reducible exact Quiet.writeMem _ _
    | with_reducible exact Quiet.pushValue _
    | with_reducible exact Quiet.lua_pop _
    | with_reducible exact Quiet.lua_createtable _ _
    | with_reducible exact Quiet.lua_rawgeti _ _
    | with_reducible exact Quiet.lua_rawseti _ _
    | with_reducible exact Quiet.lua_tonumber _ _
    | with_reducible exact Quiet.luaL_checktype_table _
    | with_reducible exact Quiet.FMemory_Alloca _
    | with_reducible exact Quiet.FMemory_Malloc _
    | with_reducible exact Quiet.FMemory_Memcpy _ _ _
    | with_reducible exact Quiet.new_LuaStruct _ _ _
    | with_reducible exact Quiet.push_LuaStruct _
    | with_reducible exact Quiet.getVectorStruct
    | with_reducible exact Quiet.getPusher _
    | with_reducible exact Quiet.getChecker _
    | with_reducible exact Quiet.checkValue_int _
    | with_reducible exact Quiet.checkValue_bool _
    | with_reducible exact Quiet.checkValue_float _ _
    | with_reducible exact Quiet.checkValue_FString _
    | with_reducible exact Quiet.checkValue_LuaStruct _
    | with_reducible apply Quiet.bind
    | split
    | intro _)

theorem Quiet.pushUBoolProperty (prop : UProperty) (parms : Nat) :
    Quiet (pushUBoolProperty prop parms) := by
  unfold slua.pushUBoolProperty push_bool lua_pushboolean
    UProperty.GetPropertyValue_InContainer
  try dsimp only
  repeat (first
    | with_reducible exact Quiet.pure _
    | with_reducible exact Quiet.error _
    | with_reducible exact Quiet.ensure _
    | with_reducible exact Quiet.deref _
    | with_reducible exact Quiet.readMem _
    | with_reducible exact Quiet.writeMem _ _
    | with_reducible exact Quiet.pushValue _
    | with_reducible exact Quiet.lua_pop _
    | with_reducible exact Quiet.lua_createtable _ _
    | with_reducible exact Quiet.lua_rawgeti _ _
    | with_reducible exact Quiet.lua_rawseti _ _
    | with_reducible exact Quiet.lua_tonumber _ _
    | with_reducible exact Quiet.luaL_checktype_table _
    | with_reducible exact Quiet.FMemory_Alloca _
    | with_reducible exact Quiet.FMemory_Malloc _
    | with_reducible exact Quiet.FMemory_Memcpy _ _ _
    | with_reducible exact Quiet.new_LuaStruct _ _ _
    | with_reducible exact Quiet.push_LuaStruct _
    | with_reducible exact Quiet.getVectorStruct
    | with_reducible exact Quiet.getPusher _
    | with_reducible exact Quiet.getChecker _
    | with_reducible exact Quiet.checkValue_int _
    | with_reducible exact Quiet.checkValue_bool _
    | with_reducible exact Quiet.checkValue_float _ _
    | with_reducible exact Quiet.checkValue_FString _
    | with_reducible exact Quiet.checkValue_LuaStruct _
    | with_reducible apply Quiet.bind
    | split
    | intro _)

theorem Quiet.pushUStrProperty (prop : UProperty) (parms : Nat) :
    Quiet (pushUStrProperty prop parms) := by
  unfold slua.pushUStrProperty push_FString lua_pushstring
    UProperty.GetPropertyValue_InContainer
  try dsimp only
  repeat (first
    | with_reducible exact Quiet.pure _
    | with_reducible exact Quiet.error _
    | with_reducible exact Quiet.ensure _
    | with_reducible exact Quiet.deref _
    | with_reducible exact Quiet.readMem _
    | with_reducible exact Quiet.writeMem _ _
    | with_reducible exact Quiet.pushValue _
    | with_reducible exact Quiet.lua_pop _
    | with_reducible exact Quiet.lua_createtable _ _
    | with_reducible exact Quiet.lua_rawgeti _ _
    | with_reducible exact Quiet.lua_rawseti _ _
    | with_reducible exact Quiet.lua_tonumber _ _
    | with_reducible exact Quiet.luaL_checktype_table _
    | with_reducible exact Quiet.FMemory_Alloca _
    | with_reducible exact Quiet.FMemory_Malloc _
    | with_reducible exact Quiet.FMemory_Memcpy _ _ _
    | with_reducible exact Quiet.new_LuaStruct _ _ _
    | with_reducible exact Quiet.push_LuaStruct _
    | with_reducible exact Quiet.getVectorStruct
    | with_reducible exact Quiet.getPusher _
    | with_reducible exact Quiet.getChecker _
    | with_reducible exact Quiet.checkValue_int _
    | with_reducible exact Quiet.checkValue_bool _
    | with_reducible exact Quiet.checkValue_float _ _
    | with_reducible exact Quiet.checkValue_FString _
    | with_reducible exact Quiet.checkValue_LuaStruct _
    | with_reducible apply Quiet.bind
    | split
    | intro _)

theorem Quiet.pushVector (h : Host) (buf size : Nat) :
    Quiet (pushVector h buf size) := by
  unfold slua.pushVector lua_pushnumber
  try dsimp only
  repeat (first
    | with_reducible exact Quiet.pure _
    | with_reducible exact Quiet.error _
    | with_reducible exact Quiet.ensure _
    | with_reducible exact Quiet.deref _
    | with_reducible exact Quiet.readMem _
    | with_reducible exact Quiet.writeMem _ _
    | with_reducible exact Quiet.pushValue _
    | with_reducible exact Quiet.lua_pop _
    | with_reducible exact Quiet.lua_createtable _ _
    | with_reducible exact Quiet.lua_rawgeti _ _
    | with_reducible exact Quiet.lua_rawseti _ _
    | with_reducible exact Quiet.lua_tonumber _ _
    | with_reducible exact Quiet.luaL_checktype_table _
    | with_reducible exact Quiet.FMemory_Alloca _
    | with_reducible exact Quiet.FMemory_Malloc _
    | with_reducible exact Quiet.FMemory_Memcpy _ _ _
    | with_reducible exact Quiet.new_LuaStruct _ _ _
    | with_reducible exact Quiet.push_LuaStruct _
    | with_reducible exact Quiet.getVectorStruct
    | with_reducible exact Quiet.getPusher _
    | with_reducible exact Quiet.getChecker _
    | with_reducible exact Quiet.checkValue_int _
    | with_reducible exact Quiet.checkValue_bool _
    | with_reducible exact Quiet.checkValue_float _ _
    | with_reducible exact Quiet.checkValue_FString _
    | with_reducible exact Quiet.checkValue_LuaStruct _
    | with_reducible apply Quiet.bind
    | split
    | intro _)

theorem Quiet.checkVector (h : Host) (i : Int) :
    Quiet (checkVector h i) := by
  unfold slua.checkVector
  try dsimp only
  repeat (first
    | with_reducible exact Quiet.pure _
    | with_reducible exact Quiet.error _
    | with_reducible exact Quiet.ensure _
    | with_reducible exact Quiet.deref _
    | with_reducible exact Quiet.readMem _
    | with_reducible exact Quiet.writeMem _ _
    | with_reducible exact Quiet.pushValue _
    | with_reducible exact Quiet.lua_pop _
    | with_reducible exact Quiet.lua_createtable _ _
    | with_reducible exact Quiet.lua_rawgeti _ _
    | with_reducible exact Quiet.lua_rawseti _ _
    | with_reducible exact Quiet.lua_tonumber _ _
    | with_reducible exact Quiet.luaL_checktype_table _
    | with_reducible exact Quiet.FMemory_Alloca _
    | with_reducible exact Quiet.FMemory_Malloc _
    | with_reducible exact Quiet.FMemory_Memcpy _ _ _
    | with_reducible exact Quiet.new_LuaStruct _ _ _
    | with_reducible exact Quiet.push_LuaStruct _
    | with_reducible exact Quiet.getVectorStruct
    | with_reducible exact Quiet.getPusher _
    | with_reducible exact Quiet.getChecker _
    | with_reducible exact Quiet.checkValue_int _
    | with_reducible exact Quiet.checkValue_bool _
    | with_reducible exact Quiet.checkValue_float _ _
    | with_reducible exact Quiet.checkValue_FString _
    | with_reducible exact Quiet.checkValue_LuaStruct _
    | with_reducible apply Quiet.bind
    | split
    | intro _)

theorem Quiet.pushUStructProperty (h : Host) (prop : UProperty) (parms : Nat) :
    Quiet (pushUStructProperty h prop parms) := by
  unfold slua.pushUStructProperty UProperty.CopyValuesInternal
  try dsimp only
  repeat (first
    | with_reducible exact Quiet.pure _
    | with_reducible exact Quiet.error _
    | with_reducible exact Quiet.ensure _
    | with_reducible exact Quiet.deref _
    | with_reducible exact Quiet.readMem _
    | with_reducible exact Quiet.writeMem _ _
    | with_reducible exact Quiet.pushValue _
    | with_reducible exact Quiet.lua_pop _
    | with_reducible exact Quiet.lua_createtable _ _
    | with_reducible exact Quiet.lua_rawgeti _ _
    | with_reducible exact Quiet.lua_rawseti _ _
    | with_reducible exact Quiet.lua_tonumber _ _
    | with_reducible exact Quiet.luaL_checktype_table _
    | with_reducible exact Quiet.FMemory_Alloca _
    | with_reducible exact Quiet.FMemory_Malloc _
    | with_reducible exact Quiet.FMemory_Memcpy _ _ _
    | with_reducible exact Quiet.new_LuaStruct _ _ _
    | with_reducible exact Quiet.push_LuaStruct _
    | with_reducible exact Quiet.getVectorStruct
    | with_reducible exact Quiet.getPusher _
    | with_reducible exact Quiet.getChecker _
    | with_reducible exact Quiet.checkValue_int _
    | with_reducible exact Quiet.checkValue_bool _
    | with_reducible exact Quiet.checkValue_float _ _
    | with_reducible exact Quiet.checkValue_FString _
    | with_reducible exact Quiet.checkValue_LuaStruct _
    | with_reducible exact Quiet.pushVector _ _ _
    | with_reducible apply Quiet.bind
    | split
    | intro _)

theorem Quiet.checkUIntProperty (prop : UProperty) (parms : Nat) (i : Int) :
    Quiet (checkUIntProperty prop parms i) := by
  unfold slua.checkUIntProperty UProperty.SetPropertyValue_InContainer
  try dsimp only
  repeat (first
    | with_reducible exact Quiet.pure _
    | with_reducible exact Quiet.error _
    | with_reducible exact Quiet.ensure _
    | with_reducible exact Quiet.deref _
    | with_reducible exact Quiet.readMem _
    | with_reducible exact Quiet.writeMem _ _
    | with_reducible exact Quiet.pushValue _
    | with_reducible exact Quiet.lua_pop _
    | with_reducible exact Quiet.lua_createtable _ _
    | with_reducible exact Quiet.lua_rawgeti _ _
    | with_reducible exact Quiet.lua_rawseti _ _
    | with_reducible exact Quiet.lua_tonumber _ _
    | with_reducible exact Quiet.luaL_checktype_table _
    | with_reducible exact Quiet.FMemory_Alloca _
    | with_reducible exact Quiet.FMemory_Malloc _
    | with_reducible exact Quiet.FMemory_Memcpy _ _ _
    | with_reducible exact Quiet.new_LuaStruct _ _ _
    | with_reducible exact Quiet.push_LuaStruct _
    | with_reducible exact Quiet.getVectorStruct
    | with_reducible exact Quiet.getPusher _
    | with_reducible exact Quiet.getChecker _
    | with_reducible exact Quiet.checkValue_int _
    | with_reducible exact Quiet.checkValue_bool _
    | with_reducible exact Quiet.checkValue_float _ _
    | with_reducible exact Quiet.checkValue_FString _
    | with_reducible exact Quiet.checkValue_LuaStruct _
    | with_reducible apply Quiet.bind
    | split
    | intro _)

theorem Quiet.checkUBoolProperty (prop : UProperty) (parms : Nat) (i : Int) :
    Quiet (checkUBoolProperty prop parms i) := by
  unfold slua.checkUBoolProperty UProperty.SetPropertyValue_InContainer
  try dsimp only
  repeat (first
    | with_reducible exact Quiet.pure _
    | with_reducible exact Quiet.error _
    | with_reducible exact Quiet.ensure _
    | with_reducible exact Quiet.deref _
    | with_reducible exact Quiet.readMem _
    | with_reducible exact Quiet.writeMem _ _
    | with_reducible exact Quiet.pushValue _
    | with_reducible exact Quiet.lua_pop _
    | with_reducible exact Quiet.lua_createtable _ _
    | with_reducible exact Quiet.lua_rawgeti _ _
    | with_reducible exact Quiet.lua_rawseti _ _
    | with_reducible exact Quiet.lua_tonumber _ _
    | with_reducible exact Quiet.luaL_checktype_table _
    | with_reducible exact Quiet.FMemory_Alloca _
    | with_reducible exact Quiet.FMemory_Malloc _
    | with_reducible exact Quiet.FMemory_Memcpy _ _ _
    | with_reducible exact Quiet.new_LuaStruct _ _ _
    | with_reducible exact Quiet.push_LuaStruct _
    | with_reducible exact Quiet.getVectorStruct
    | with_reducible exact Quiet.getPusher _
    | with_reducible exact Quiet.getChecker _
    | with_reducible exact Quiet.checkValue_int _
    | with_reducible exact Quiet.checkValue_bool _
    | with_reducible exact Quiet.checkValue_float _ _
    | with_reducible exact Quiet.checkValue_FString _
    | with_reducible exact Quiet.checkValue_LuaStruct _
    | with_reducible apply Quiet.bind
    | split
    | intro _)

theorem Quiet.checkUFloatProperty (h : Host) (prop : UProperty) (parms : Nat) (i : Int) :
    Quiet (checkUFloatProperty h prop parms i) := by
  unfold slua.checkUFloatProperty UProperty.SetPropertyValue_InContainer
  try dsimp only
  repeat (first
    | with_reducible exact Quiet.pure _
    | with_reducible exact Quiet.error _
    | with_reducible exact Quiet.ensure _
    | with_reducible exact Quiet.deref _
    | with_reducible exact Quiet.readMem _
    | with_reducible exact Quiet.writeMem _ _
    | with_reducible exact Quiet.pushValue _
    | with_reducible exact Quiet.lua_pop _
    | with_reducible exact Quiet.lua_createtable _ _
    | with_reducible exact Quiet.lua_rawgeti _ _
    | with_reducible exact Quiet.lua_rawseti _ _
    | with_reducible exact Quiet.lua_tonumber _ _
    | with_reducible exact Quiet.luaL_checktype_table _
    | with_reducible exact Quiet.FMemory_Alloca _
    | with_reducible exact Quiet.FMemory_Malloc _
    | with_reducible exact Quiet.FMemory_Memcpy _ _ _
    | with_reducible exact Quiet.new_LuaStruct _ _ _
    | with_reducible exact Quiet.push_LuaStruct _
    | with_reducible exact Quiet.getVectorStruct
    | with_reducible exact Quiet.getPusher _
    | with_reducible exact Quiet.getChecker _
    | with_reducible exact Quiet.checkValue_int _
    | with_reducible exact Quiet.checkValue_bool _
    | with_reducible exact Quiet.checkValue_float _ _
    | with_reducible exact Quiet.checkValue_FString _
    | with_reducible exact Quiet.checkValue_LuaStruct _
    | with_reducible apply Quiet.bind
    | split
    | intro _)

theorem Quiet.checkUStrProperty (prop : UProperty) (parms : Nat) (i : Int) :
    Quiet (checkUStrProperty prop parms i) := by
  unfold slua.checkUStrProperty UProperty.SetPropertyValue_InContainer
  try dsimp only
  repeat (first
    | with_reducible exact Quiet.pure _
    | with_reducible exact Quiet.error _
    | with_reducible exact Quiet.ensure _
    | with_reducible exact Quiet.deref _
    | with_reducible exact Quiet.readMem _
    | with_reducible exact Quiet.writeMem _ _
    | with_reducible exact Quiet.pushValue _
    | with_reducible exact Quiet.lua_pop _
    | with_reducible exact Quiet.lua_createtable _ _
    | with_reducible exact Quiet.lua_rawgeti _ _
    | with_reducible exact Quiet.lua_rawseti _ _
    | with_reducible exact Quiet.lua_tonumber _ _
    | with_reducible exact Quiet.luaL_checktype_table _
    | with_reducible exact Quiet.FMemory_Alloca _
    | with_reducible exact Quiet.FMemory_Malloc _
    | with_reducible exact Quiet.FMemory_Memcpy _ _ _
    | with_reducible exact Quiet.new_LuaStruct _ _ _
    | with_reducible exact Quiet.push_LuaStruct _
    | with_reducible exact Quiet.getVectorStruct
    | with_reducible exact Quiet.getPusher _
    | with_reducible exact Quiet.getChecker _
    | with_reducible exact Quiet.checkValue_int _
    | with_reducible exact Quiet.checkValue_bool _
    | with_reducible exact Quiet.checkValue_float _ _
    | with_reducible exact Quiet.checkValue_FString _
    | with_reducible exact Quiet.checkValue_LuaStruct _
    | with_reducible apply Quiet.bind
    | split
    | intro _)

theorem Quiet.checkUStructProperty (h : Host) (prop : UProperty) (parms : Nat) (i : Int) :
    Quiet (checkUStructProperty h prop parms i) := by
  unfold slua.checkUStructProperty UProperty.CopyValuesInternal
  try dsimp only
  repeat (first
    | with_reducible exact Quiet.pure _
    | with_reducible exact Quiet.error _
    | with_reducible exact Quiet.ensure _
    | with_reducible exact Quiet.deref _
    | with_reducible exact Quiet.readMem _
    | with_reducible exact Quiet.writeMem _ _
    | with_reducible exact Quiet.pushValue _
    | with_reducible exact Quiet.lua_pop _
    | with_reducible exact Quiet.lua_createtable _ _
    | with_reducible exact Quiet.lua_rawgeti _ _
    | with_reducible exact Quiet.lua_rawseti _ _
    | with_reducible exact Quiet.lua_tonumber _ _
    | with_reducible exact Quiet.luaL_checktype_table _
    | with_reducible exact Quiet.FMemory_Alloca _
    | with_reducible exact Quiet.FMemory_Malloc _
    | with_reducible exact Quiet.FMemory_Memcpy _ _ _
    | with_reducible exact Quiet.new_LuaStruct _ _ _
    | with_reducible exact Quiet.push_LuaStruct _
    | with_reducible exact Quiet.getVectorStruct
    | with_reducible exact Quiet.getPusher _
    | with_reducible exact Quiet.getChecker _
    | with_reducible exact Quiet.checkValue_int _
    | with_reducible exact Quiet.checkValue_bool _
    | with_reducible exact Quiet.checkValue_float _ _
    | with_reducible exact Quiet.checkValue_FString _
    | with_reducible exact Quiet.checkValue_LuaStruct _
    | with_reducible exact Quiet.checkVector _ _
    | with_reducible apply Quiet.bind
    | split
    | intro _)

theorem Quiet.pushCall (h : Host) (hq : h.Quiet) (f : PushPropertyFunction) (prop : UProperty)
    (parms : Nat) : Quiet (f.call h prop parms) := by
  cases f
  case pushUIntProperty => exact Quiet.pushUIntProperty _ _
  case pushFloatProperty => exact Quiet.pushFloatProperty _ _ _
  case pushUBoolProperty => exact Quiet.pushUBoolProperty _ _
  case pushUStrProperty => exact Quiet.pushUStrProperty _ _
  case pushUStructProperty => exact Quiet.pushUStructProperty _ _ _
  all_goals exact hq.1 _ _ _

theorem Quiet.checkCall (h : Host) (hq : h.Quiet) (f : CheckPropertyFunction)
    (prop : UProperty) (parms : Nat) (i : Int) : Quiet (f.call h prop parms i) := by
  cases f
  case checkUIntProperty => exact Quiet.checkUIntProperty _ _ _
  case checkUBoolProperty => exact Quiet.checkUBoolProperty _ _ _
  case checkUFloatProperty => exact Quiet.checkUFloatProperty _ _ _ _
  case checkUStructProperty => exact Quiet.checkUStructProperty _ _ _ _
  case checkUStrProperty => exact Quiet.checkUStrProperty _ _ _
  all_goals exact hq.2 _ _ _ _

theorem Quiet.push (h : Host) (hq : h.Quiet) (prop : UProperty) (parms : Nat) :
    Quiet (push h prop parms) := by
  unfold slua.push
  refine Quiet.bind (Quiet.getPusher _) (fun pusher => ?_)
  cases pusher with
  | none => exact Quiet.error _
  | some f => exact Quiet.pushCall h hq f prop parms

theorem Quiet.fillParamFromState (h : Host) (hq : h.Quiet) (prop : UProperty) (params : Nat)
    (i : Int) : Quiet (fillParamFromState h prop params i) := by
  unfold slua.fillParamFromState
  refine Quiet.bind (Quiet.getChecker _) (fun checker => ?_)
  cases checker with
  | none => exact Quiet.error _
  | some f => exact Quiet.bind (Quiet.checkCall h hq f prop params i) (fun _ => Quiet.pure _)

theorem Quiet.fillParamLoop (h : Host) (hq : h.Quiet) (params : Nat) (props : List UProperty) :
    ∀ (i : Int) (offset : Nat), Quiet (fillParamLoop h params props i offset) := by
  induction props with
  | nil => intro i offset; exact Quiet.pure _
  | cons p rest ih =>
    intro i offset
    unfold slua.fillParamLoop
    split
    · exact Quiet.pure _
    · split
      · exact ih i offset
      · exact Quiet.bind (Quiet.fillParamFromState h hq _ _ _) (fun n => ih _ _)

theorem Quiet.returnValueLoop (h : Host) (hq : h.Quiet) (params : Nat)
    (props : List UProperty) :
    ∀ (ret : Int) (offset : Nat), Quiet (returnValueLoop h params props ret offset) := by
  induction props with
  | nil => intro ret offset; exact Quiet.pure _
  | cons p rest ih =>
    intro ret offset
    unfold slua.returnValueLoop
    split
    · exact ih ret offset
    · split
      · exact Quiet.bind (Quiet.push h hq _ _) (fun n => ih _ _)
      · exact ih _ _

theorem Quiet.returnValue (h : Host) (hq : h.Quiet) (func : UFunction) (params : Nat) :
    Quiet (returnValue h func params) := by
  unfold slua.returnValue
  dsimp only
  split
  · exact Quiet.bind (Quiet.deref _) (fun p => Quiet.bind (Quiet.push h hq _ _)
      (fun _ => Quiet.bind (Quiet.pure _) (fun _ => Quiet.returnValueLoop h hq _ _ _ _)))
  · exact Quiet.bind (Quiet.pure _) (fun _ => Quiet.returnValueLoop h hq _ _ _ _)

/-- A check that succeeds reports the size of the property. -/
theorem fillParamFromState_size (h : Host) (prop : UProperty) (params : Nat) (i : Int)
    (w w1 : World) (n : Nat) (hr : fillParamFromState h prop params i w = .ok n w1) :
    n = prop.GetSize := by
  simp only [fillParamFromState, bind_apply, getChecker] at hr
  cases hc : mapFind w.checkerMap prop.cls with
  | none => simp [hc, luaL_error] at hr
  | some f =>
    simp only [hc, bind_apply] at hr
    cases hf : f.call h prop params i w with
    | ok a w2 =>
      simp only [hf, pure_apply, Result.ok.injEq] at hr
      exact hr.1.symm
    | error e w2 => simp [hf] at hr

/-- The fill loop over `pre ++ rest`, when all of `pre` are parameters: it is the loop over `pre`
followed by the loop over `rest`, which starts at the script index and at the cursor that the
input parameters of `pre` have advanced. -/
theorem fillParamLoop_append (h : Host) (params : Nat) (pre rest : List UProperty)
    (hparm : ∀ q ∈ pre, q.PropertyFlags &&& CPF_Parm ≠ 0) :
    ∀ (i : Int) (offset : Nat) (w : World),
      fillParamLoop h params (pre ++ rest) i offset w =
        match fillParamLoop h params pre i offset w with
        | .ok _ w1 => fillParamLoop h params rest
            (i + ((pre.filter UProperty.isInput).length : Nat))
            (offset + ((pre.filter UProperty.isInput).map UProperty.GetSize).sum) w1
        | .error e w1 => .error e w1 := by
  induction pre with
  | nil => intro i offset w; simp [fillParamLoop]
  | cons q pre ih =>
    intro i offset w
    have hq : q.PropertyFlags &&& CPF_Parm ≠ 0 := hparm q (by simp)
    have ih2 := ih (fun x hx => hparm x (by simp [hx]))
    by_cases hr : q.PropertyFlags &&& CPF_ReturnParm ≠ 0
    · have hin : q.isInput = false := by simp [UProperty.isInput, hr]
      rw [List.cons_append, fillParamLoop, fillParamLoop, if_neg hq, if_neg hq, if_pos hr,
        if_pos hr, ih2, List.filter_cons, hin]
      simp
    · have hin : q.isInput = true := by
        have hr0 : q.PropertyFlags &&& CPF_ReturnParm = 0 := by
          simpa only [ne_eq, not_not] using hr
        simp [UProperty.isInput, hr0, hq]
      rw [List.cons_append, fillParamLoop, fillParamLoop, if_neg hq, if_neg hq, if_neg hr,
        if_neg hr, List.filter_cons, hin]
      simp only [bind_apply, if_true, List.length_cons, List.map_cons, List.sum_cons]
      cases hf : fillParamFromState h q (params + offset) i w with
      | error e w2 => simp
      | ok n w2 =>
        have hn := fillParamFromState_size h q (params + offset) i w w2 n hf
        subst hn
        simp only [ih2]
        have e1 : i + 1 + ((pre.filter UProperty.isInput).length : Nat) =
            i + (((pre.filter UProperty.isInput).length + 1 : Nat) : Int) := by
          push_cast; ring
        have e2 : offset + q.GetSize +
            ((pre.filter UProperty.isInput).map UProperty.GetSize).sum =
            offset + (q.GetSize + ((pre.filter UProperty.isInput).map UProperty.GetSize).sum) := by
          ring
        rw [e1, e2]

/-- The fill pass of `ufuncClosure` leaves the invocation log of the entry world. -/
theorem Quiet.fillParam_world (h : Host) (hq : h.Quiet) (func : UFunction) (w : World) :
    (fillParam h func w.brk (paramsReady w func)).world.invoked = w.invoked :=
  Quiet.fillParamLoop h hq w.brk func.props 2 0 (paramsReady w func)

/-- `ufuncClosure` up to the fill pass: with a function descriptor in upvalue 1 and a wrapper of
a host object as argument 1, it takes a zero-filled parameter block and then runs the fill pass,
the host function and the result pass in this order. -/
theorem ufuncClosure_eq (h : Host) (w : World) (fptr r obj : Nat) (mt : Option Nat)
    (func : UFunction)
    (hup : w.upvalues[0]? = some (.lightuserdata fptr))
    (hfn : h.functionAt fptr = some func)
    (hself : index2value w 1 = some (.userdata r))
    (hheap : w.heap r = some (.userdata obj mt)) :
    ufuncClosure h w =
      (fillParam h func w.brk >>= fun _ =>
        ProcessEvent h obj func w.brk >>= fun _ => returnValue h func w.brk)
        (paramsReady w func) := by
  obtain ⟨stack, upvalues, heap, nextRef, registry, cacheObjRef, mem, rooted, invoked, brk,
    luaStructs, VectorStruct, pusherMap, checkerMap⟩ := w
  simp only [index2value_eq] at hup hfn hself hheap
  simp [ufuncClosure, lua_pushvalue, lua_touserdata, lua_pop, hup, checkValue_UObject, hself,
    hheap, deref, hfn, FMemory_Alloca, FMemory_Memzero, paramsReady]

/-- C6. Invocation atomicity.  Let `ufuncClosure` run with the descriptor of `func` in upvalue 1
and the wrapper of the host object `obj` as argument 1, on a host whose foreign code invokes no
host function.  (1) If the fill pass raises an error, `ufuncClosure` ends with that error in the
world in which it was raised, and the host function has not been invoked.  (2) If the fill pass
succeeds, `ufuncClosure` goes on with `ProcessEvent` and the result pass, and in the world it
ends in the host function has been invoked exactly once.  (3) If the parameters before an input
parameter `p` are filled and no checker is registered for the class of `p`, the error is
"unsupport param type" with the class name of `p` and its script argument index, and the host
function has not been invoked. -/
theorem ufuncClosure_atomic (h : Host) (hq : h.Quiet) (w : World) (fptr r obj : Nat)
    (mt : Option Nat) (func : UFunction)
    (hup : w.upvalues[0]? = some (.lightuserdata fptr))
    (hfn : h.functionAt fptr = some func)
    (hself : index2value w 1 = some (.userdata r))
    (hheap : w.heap r = some (.userdata obj mt)) :
    (∀ e w1, fillParam h func w.brk (paramsReady w func) = .error e w1 →
      ufuncClosure h w = .error e w1 ∧ w1.invoked = w.invoked) ∧
    (∀ w1, fillParam h func w.brk (paramsReady w func) = .ok () w1 →
      ufuncClosure h w =
        (ProcessEvent h obj func w.brk >>= fun _ => returnValue h func w.brk) w1 ∧
      (ufuncClosure h w).world.invoked = (obj, func.name) :: w.invoked) ∧
    (∀ pre p post w1, func.props = pre ++ p :: post →
      (∀ q ∈ pre, q.PropertyFlags &&& CPF_Parm ≠ 0) → p.isInput = true →
      fillParamLoop h w.brk pre 2 0 (paramsReady w func) = .ok () w1 →
      mapFind w1.checkerMap p.cls = none →
      ufuncClosure h w =
        .error (.unsupportParam p.cls.name (2 + ((pre.filter UProperty.isInput).length : Nat)))
          w1 ∧
      w1.invoked = w.invoked) := by
  have heq := ufuncClosure_eq h w fptr r obj mt func hup hfn hself hheap
  have hfill := Quiet.fillParam_world h hq func w
  refine ⟨?_, ?_, ?_⟩
  · intro e w1 hf
    constructor
    · rw [heq, bind_apply, hf]
    · have := hfill
      rw [hf] at this
      exact this
  · intro w1 hf
    have hw1 : w1.invoked = w.invoked := by
      have := hfill
      rw [hf] at this
      exact this
    constructor
    · rw [heq, bind_apply, hf]
    · rw [heq, bind_apply, hf]
      simp only [bind_apply, ProcessEvent]
      have hrv := Quiet.returnValue h hq func w.brk
        { w1 with
          mem := h.hostCall obj func w.brk w1.mem
          invoked := (obj, func.name) :: w1.invoked }
      rw [hrv, hw1]
  · intro pre p post w1 hprops hparm hin hpre hnone
    have hloop : fillParam h func w.brk (paramsReady w func) =
        .error (.unsupportParam p.cls.name (2 + ((pre.filter UProperty.isInput).length : Nat)))
          w1 := by
      unfold fillParam
      rw [hprops, fillParamLoop_append h w.brk pre (p :: post) hparm, hpre]
      have hp : p.PropertyFlags &&& CPF_Parm ≠ 0 ∧ p.PropertyFlags &&& CPF_ReturnParm = 0 := by
        simpa [UProperty.isInput] using hin
      simp only []
      rw [fillParamLoop, if_neg hp.1, if_neg (by simp [hp.2])]
      simp [fillParamFromState, getChecker, hnone, luaL_error]
    constructor
    · rw [heq, bind_apply, hloop]
    · have := hfill
      rw [hloop] at this
      exact this

theorem plainHost_quiet : plainHost.Quiet :=
  ⟨fun _ _ _ => Quiet.pure _, fun _ _ _ _ => Quiet.pure _⟩

theorem ufuncClosure_atomic_witness :
    callHost.Quiet ∧
    closureWorldG.upvalues[0]? = some (.lightuserdata 900) ∧
    callHost.functionAt 900 = some twoIntsFunction ∧
    index2value closureWorldG 1 = some (.userdata 0) ∧
    closureWorldG.heap 0 = some (.userdata 500 none) ∧
    (ufuncClosure callHost closureWorldG).world.invoked = [(500, "G")] ∧
    (ufuncClosure callHost closureWorldH).error? = some (.unsupportParam "MapProperty" 3) ∧
    (ufuncClosure callHost closureWorldH).world.invoked = [] := by
  have hq : callHost.Quiet := ⟨fun _ _ _ => Quiet.pure _, fun _ _ _ _ => Quiet.pure _⟩
  have hc : mapFind closureWorldG.checkerMap UIntProperty_StaticClass =
      some .checkUIntProperty := by decide
  have hm : closureWorldG.mem = fun _ => .zero := rfl
  have hb : closureWorldG.brk = 64 := rfl
  have h2 : index2addr closureWorldG.stack closureWorldG.upvalues 2 = some (.integer 7) := by
    decide
  have h3 : index2addr closureWorldG.stack closureWorldG.upvalues 3 = some (.integer 9) := by
    decide
  have f1 : CPF_Parm &&& CPF_ReturnParm = 0 := by decide
  have f4 : CPF_Parm ≠ 0 := by decide
  have hfill : fillParam callHost twoIntsFunction closureWorldG.brk
      (paramsReady closureWorldG twoIntsFunction) = .ok () filledWorldG := by
    simp [fillParam, fillParamLoop, twoIntsFunction, intProp, f1, f4, fillParamFromState,
      getChecker, hc, CheckPropertyFunction.call, checkUIntProperty, Cast, ensure, deref,
      checkValue_int, h2, h3, UProperty.SetPropertyValue_InContainer, writeMem,
      UProperty.ContainerPtrToValuePtr, UProperty.GetSize, toInt32, hm, hb, paramsReady,
      filledWorldG]
  -- the call `H(7, 9)`, whose second parameter is of a class without checker
  have hcH : mapFind closureWorldH.checkerMap UIntProperty_StaticClass =
      some .checkUIntProperty := by decide
  have hmH : closureWorldH.mem = fun _ => .zero := rfl
  have hbH : closureWorldH.brk = 64 := rfl
  have hcm : mapFind filledWorldH.checkerMap ⟨"MapProperty"⟩ = none := by decide
  have h2H : index2addr closureWorldH.stack closureWorldH.upvalues 2 = some (.integer 7) := by
    decide
  have hpre : fillParamLoop callHost closureWorldH.brk [intProp 0 CPF_Parm] 2 0
      (paramsReady closureWorldH
        { name := "H"
          props := [intProp 0 CPF_Parm,
            { cls := ⟨"MapProperty"⟩, Offset_Internal := 8, ElementSize := 80, ArrayDim := 1,
              PropertyFlags := CPF_Parm, Struct := ⟨0, 0⟩ }]
          ParmsSize := 88
          ReturnValueOffset := MAX_uint16 }) = .ok () filledWorldH := by
    simp [fillParamLoop, intProp, f1, f4, fillParamFromState,
      getChecker, hcH, CheckPropertyFunction.call, checkUIntProperty, Cast, ensure, deref,
      checkValue_int, h2H, UProperty.SetPropertyValue_InContainer, writeMem,
      UProperty.ContainerPtrToValuePtr, UProperty.GetSize, toInt32, hmH, hbH, paramsReady,
      filledWorldH]
  have key := (ufuncClosure_atomic callHost hq closureWorldH 901 0 500 none _
      rfl rfl rfl rfl).2.2 [intProp 0 CPF_Parm]
      { cls := ⟨"MapProperty"⟩, Offset_Internal := 8, ElementSize := 80, ArrayDim := 1,
        PropertyFlags := CPF_Parm, Struct := ⟨0, 0⟩ } [] filledWorldH rfl (by decide) (by decide)
      hpre hcm
  refine ⟨hq, rfl, rfl, rfl, rfl,
    ((ufuncClosure_atomic callHost hq closureWorldG 900 0 500 none twoIntsFunction
      rfl rfl rfl rfl).2.1 filledWorldG hfill).2, ?_, ?_⟩
  · rw [key.1]
    decide
  · rw [key.1]
    exact key.2

/-! ## Dispatch on the property kind (C7) -/

/-- Last registration wins: after `map[cls] = func` the class maps to `func`, every other class
maps as before. -/
theorem mapFind_mapAssign {β : Type} (m : List (UClass × Option β)) (cls c : UClass)
    (func : Option β) :
    mapFind (mapAssign m cls func) c = if cls = c then func else mapFind m c := by
  unfold mapAssign
  by_cases hc : cls = c
  · simp [mapFind, hc]
  · simp only [mapFind, hc, if_false]
    induction m with
    | nil => simp [mapFind]
    | cons e rest ih =>
      obtain ⟨k, v⟩ := e
      by_cases hk : k = cls
      · subst hk
        simp [List.filter_cons, mapFind, hc, ih]
      · by_cases hk2 : k = c
        · subst hk2
          simp [List.filter_cons, mapFind, hk]
        · simp [List.filter_cons, mapFind, hk, hk2, ih]

/-- C7. Unsupported-type dispatch.  In every state of the two dispatch tables and for every
property: when no pusher is registered for the class of the property, `push` raises "unsupport
type ... to push" with the class name, in the world it was called in; when a pusher is
registered, `push` is exactly the run of that pusher; so `push` ends with that error if and only
if no pusher is registered, provided a registered pusher does not raise it itself.  Likewise
`fillParamFromState` raises "unsupport param type ... at ..." with the class name and the
argument index when no checker is registered; otherwise it runs the registered checker and,
when the checker returns, returns `GetSize()` of the property.  A pusher registered with
`regPusher` is the one `push` runs. -/
theorem push_dispatch (h : Host) (prop : UProperty) (parms : Nat) (i : Int) (w : World) :
    (mapFind w.pusherMap prop.cls = none →
      push h prop parms w = .error (.unsupportPush prop.cls.name) w) ∧
    (∀ f, mapFind w.pusherMap prop.cls = some f →
      push h prop parms w = f.call h prop parms w) ∧
    ((∀ f, mapFind w.pusherMap prop.cls = some f →
        (f.call h prop parms w).error? ≠ some (.unsupportPush prop.cls.name)) →
      ((push h prop parms w).error? = some (.unsupportPush prop.cls.name) ↔
        mapFind w.pusherMap prop.cls = none)) ∧
    (mapFind w.checkerMap prop.cls = none →
      fillParamFromState h prop parms i w = .error (.unsupportParam prop.cls.name i) w) ∧
    (∀ f, mapFind w.checkerMap prop.cls = some f →
      fillParamFromState h prop parms i w =
        match f.call h prop parms i w with
        | .ok _ w1 => .ok prop.GetSize w1
        | .error e w1 => .error e w1) ∧
    ((∀ f, mapFind w.checkerMap prop.cls = some f →
        (f.call h prop parms i w).error? ≠ some (.unsupportParam prop.cls.name i)) →
      ((fillParamFromState h prop parms i w).error? = some (.unsupportParam prop.cls.name i) ↔
        mapFind w.checkerMap prop.cls = none)) ∧
    (∀ f, (regPusher prop.cls (some f) >>= fun _ => push h prop parms) w =
      f.call h prop parms { w with pusherMap := mapAssign w.pusherMap prop.cls (some f) }) := by
  have hp0 : mapFind w.pusherMap prop.cls = none →
      push h prop parms w = .error (.unsupportPush prop.cls.name) w := by
    intro hn
    simp [push, getPusher, hn, luaL_error]
  have hp1 : ∀ f, mapFind w.pusherMap prop.cls = some f →
      push h prop parms w = f.call h prop parms w := by
    intro f hf
    simp [push, getPusher, hf]
  have hc0 : mapFind w.checkerMap prop.cls = none →
      fillParamFromState h prop parms i w = .error (.unsupportParam prop.cls.name i) w := by
    intro hn
    simp [fillParamFromState, getChecker, hn, luaL_error]
  have hc1 : ∀ f, mapFind w.checkerMap prop.cls = some f →
      fillParamFromState h prop parms i w =
        match f.call h prop parms i w with
        | .ok _ w1 => .ok prop.GetSize w1
        | .error e w1 => .error e w1 := by
    intro f hf
    simp only [fillParamFromState, getChecker, bind_apply, hf]
    cases f.call h prop parms i w <;> rfl
  refine ⟨hp0, hp1, ?_, hc0, hc1, ?_, ?_⟩
  · intro hno
    constructor
    · intro he
      cases hm : mapFind w.pusherMap prop.cls with
      | none => rfl
      | some f =>
        rw [hp1 f hm] at he
        exact absurd he (hno f hm)
    · intro hn
      rw [hp0 hn]
      rfl
  · intro hno
    constructor
    · intro he
      cases hm : mapFind w.checkerMap prop.cls with
      | none => rfl
      | some f =>
        rw [hc1 f hm] at he
        have := hno f hm
        cases hr : f.call h prop parms i w with
        | ok a w1 => rw [hr] at he; simp [Result.error?] at he
        | error e w1 =>
          rw [hr] at he this
          exact absurd he this
    · intro hn
      rw [hc0 hn]
      rfl
  · intro f
    simp [regPusher, push, getPusher, mapFind_mapAssign]

theorem push_dispatch_witness :
    mapFind initWorld42.pusherMap UIntProperty_StaticClass = some .pushUIntProperty ∧
    mapFind initWorld42.pusherMap ⟨"MapProperty"⟩ = none ∧
    push plainHost intAt4 0 initWorld42 = pushUIntProperty intAt4 0 initWorld42 ∧
    push plainHost { intAt4 with cls := ⟨"MapProperty"⟩ } 0 initWorld42 =
      .error (.unsupportPush "MapProperty") initWorld42 ∧
    fillParamFromState plainHost { intAt4 with cls := ⟨"MapProperty"⟩ } 0 2 initWorld42 =
      .error (.unsupportParam "MapProperty" 2) initWorld42 :=
  ⟨by decide, by decide,
    (push_dispatch plainHost intAt4 0 1 initWorld42).2.1 .pushUIntProperty (by decide),
    (push_dispatch plainHost { intAt4 with cls := ⟨"MapProperty"⟩ } 0 1 initWorld42).1
      (by decide),
    (push_dispatch plainHost { intAt4 with cls := ⟨"MapProperty"⟩ } 0 2 initWorld42).2.2.2.1
      (by decide)⟩

/-! ## Struct properties and the size of a struct wrapper (C8) -/

/-- What `checkUStructProperty` does for a struct property that is not the vector kind when
argument `i` is a struct wrapper: it raises "expect struct size == ..., but got ..." with both
sizes, in an unchanged world, exactly when the wrapper's size differs from `GetSize()`;
otherwise it returns 0 after copying one struct value from the wrapper's buffer to the address
`parms` itself. -/
theorem checkUStructProperty_eq (h : Host) (prop : UProperty) (parms : Nat) (i : Int)
    (w : World) (r p : Nat) (mt : Option Nat) (ls : LuaStruct)
    (hcls : prop.cls = UStructProperty_StaticClass)
    (hnv : w.VectorStruct ≠ some prop.Struct)
    (hud : index2value w i = some (.userdata r))
    (hheap : w.heap r = some (.userdata p mt))
    (hls : w.luaStructs p = some ls) :
    checkUStructProperty h prop parms i w =
      if prop.GetSize ≠ ls.size then .error (.structSize prop.GetSize ls.size) w
      else .ok 0 { w with
        mem := fun a =>
          if parms ≤ a ∧ a < parms + prop.Struct.structureSize * 1
          then w.mem (ls.buf + (a - parms)) else w.mem a } := by
  simp only [index2value_eq] at hud
  by_cases hsz : prop.GetSize = ls.size
  · simp [checkUStructProperty, Cast, hcls, ensure, deref, getVectorStruct, hnv,
      checkValue_LuaStruct, hud, hheap, hls, hsz, UProperty.CopyValuesInternal, FMemory_Memcpy]
  · simp [checkUStructProperty, Cast, hcls, ensure, deref, getVectorStruct, hnv,
      checkValue_LuaStruct, hud, hheap, hls, hsz, luaL_error]

/-- C8: size-mismatch.  For every struct property that is not the vector kind and every struct
wrapper passed as argument `i`: `checkUStructProperty` fails with "expect struct size == %d, but
got %d", reporting `GetSize()` and the wrapper's size, if and only if the two differ, and it
fails with no other error.  When it fails, the error is raised in the world the function was
called in: the target buffer, like everything else, is unchanged, nothing is truncated or
padded.  When the sizes are equal it returns 0 and only host memory has changed: one value of
the property's struct type has been copied from the wrapper's buffer to the address `parms` the
function was handed, the property's slot, and every address outside it holds what it held; for
a property that holds one value of its struct type (`GetStructureSize() = GetSize()`) the slot
`parms .. parms + GetSize() - 1` holds, byte for byte, the whole buffer of the wrapper. -/
theorem checkUStructProperty_size (h : Host) (prop : UProperty) (parms : Nat) (i : Int)
    (w : World) (r p : Nat) (mt : Option Nat) (ls : LuaStruct)
    (hcls : prop.cls = UStructProperty_StaticClass)
    (hnv : w.VectorStruct ≠ some prop.Struct)
    (hud : index2value w i = some (.userdata r))
    (hheap : w.heap r = some (.userdata p mt))
    (hls : w.luaStructs p = some ls) :
    ((checkUStructProperty h prop parms i w).error? = some (.structSize prop.GetSize ls.size) ↔
      prop.GetSize ≠ ls.size) ∧
    ((checkUStructProperty h prop parms i w).error? ≠ none ↔ prop.GetSize ≠ ls.size) ∧
    (prop.GetSize ≠ ls.size →
      checkUStructProperty h prop parms i w = .error (.structSize prop.GetSize ls.size) w) ∧
    (prop.GetSize = ls.size →
      ∃ w1, checkUStructProperty h prop parms i w = .ok 0 w1 ∧
        w1 = { w with mem := w1.mem } ∧
        (∀ a, parms ≤ a → a < parms + prop.Struct.structureSize →
          w1.mem a = w.mem (ls.buf + (a - parms))) ∧
        (∀ a, ¬ (parms ≤ a ∧ a < parms + prop.Struct.structureSize) → w1.mem a = w.mem a) ∧
        (prop.Struct.structureSize = prop.GetSize →
          ∀ k, k < ls.size → w1.mem (parms + k) = w.mem (ls.buf + k))) := by
  have heq := checkUStructProperty_eq h prop parms i w r p mt ls hcls hnv hud hheap hls
  by_cases hsz : prop.GetSize = ls.size
  · rw [if_neg (by simpa using hsz)] at heq
    refine ⟨?_, ?_, fun hne => absurd hsz hne, ?_⟩
    · rw [heq]
      simp [Result.error?, hsz]
    · rw [heq]
      simp [Result.error?, hsz]
    · intro _
      refine ⟨_, heq, rfl, ?_, ?_, ?_⟩
      · intro a h1 h2
        have hin : parms ≤ a ∧ a < parms + prop.Struct.structureSize * 1 := ⟨h1, by omega⟩
        simp only [hin, and_self, if_true]
      · intro a hout
        have hout2 : ¬ (parms ≤ a ∧ a < parms + prop.Struct.structureSize * 1) := by
          rw [Nat.mul_one]; exact hout
        simp only [hout2, if_false]
      · intro hone k hk
        have hin : parms ≤ parms + k ∧ parms + k < parms + prop.Struct.structureSize * 1 :=
          ⟨by omega, by omega⟩
        simp only [hin, and_self, if_true]
        congr 2
        omega
  · rw [if_pos hsz] at heq
    refine ⟨?_, ?_, fun _ => heq, fun he => absurd he hsz⟩
    · rw [heq]
      simp [Result.error?, hsz]
    · rw [heq]
      simp [Result.error?, hsz]

theorem checkUStructProperty_size_witness :
    quadAt4.cls = UStructProperty_StaticClass ∧
    structWorld.VectorStruct ≠ some quadAt4.Struct ∧
    index2value structWorld 3 = some (.userdata 1) ∧
    structWorld.heap 1 = some (.userdata 300 none) ∧
    structWorld.luaStructs 300 = some ⟨100, 4, quadStruct⟩ ∧
    quadAt4.GetSize = 4 ∧ byteStructProp.GetSize = 1 ∧
    (∃ w1, checkUStructProperty plainHost quadAt4 4 3 structWorld = .ok 0 w1 ∧
      w1.mem 3 = .zero ∧ w1.mem 4 = .byte 1 ∧ w1.mem 5 = .byte 2 ∧ w1.mem 6 = .byte 3 ∧
      w1.mem 7 = .byte 4 ∧ w1.mem 8 = .zero) ∧
    checkUStructProperty plainHost byteStructProp 4 3 structWorld =
      .error (.structSize 1 4) structWorld := by
  have hvs : structWorld.VectorStruct = some ⟨1000, 12⟩ := rfl
  have hnv : structWorld.VectorStruct ≠ some quadAt4.Struct := by
    rw [hvs]; decide
  have hnv1 : structWorld.VectorStruct ≠ some byteStructProp.Struct := by
    rw [hvs]; decide
  have h3 : index2value structWorld 3 = some (.userdata 1) := by
    have : index2addr structWorld.stack structWorld.upvalues 3 = some (.userdata 1) := by
      decide
    simpa using this
  have hm : structWorld.mem = fun a =>
      if a = 100 then .byte 1 else if a = 101 then .byte 2
      else if a = 102 then .byte 3 else if a = 103 then .byte 4 else .zero := rfl
  obtain ⟨w1, hrun, _, hin, hout, _⟩ :=
    (checkUStructProperty_size plainHost quadAt4 4 3 structWorld 1 300 none
      ⟨100, 4, quadStruct⟩ rfl hnv h3 rfl rfl).2.2.2 rfl
  have herr := (checkUStructProperty_size plainHost byteStructProp 4 3 structWorld 1 300 none
      ⟨100, 4, quadStruct⟩ rfl hnv1 h3 rfl rfl).2.2.1 (by decide)
  refine ⟨rfl, hnv, h3, rfl, rfl, rfl, rfl, ⟨w1, hrun, ?_, ?_, ?_, ?_, ?_, ?_⟩, herr⟩
  · rw [hout 3 (by decide), hm]; rfl
  · rw [hin 4 (by decide) (by decide), hm]; rfl
  · rw [hin 5 (by decide) (by decide), hm]; rfl
  · rw [hin 6 (by decide) (by decide), hm]; rfl
  · rw [hin 7 (by decide) (by decide), hm]; rfl
  · rw [hout 8 (by decide), hm]; rfl

/-- The fill pass on a struct parameter that follows a narrower one.  For
`void K(bool a, Quad s)`, whose struct parameter `s` lies at offset 4 of the parameter block, a
script passes `true` and a struct wrapper of the same size as `s` (four bytes, 1 2 3 4).  The
fill pass hands `checkUStructProperty` the address of its running cursor, 1, and not the slot of
`s`: no size-mismatch is raised and the four bytes are written at the addresses 1 to 4 of the
zero-filled block at address 0. -/
theorem checkUStructProperty_slot :
    quadAt4.GetSize = 4 ∧ quadAt4.ContainerPtrToValuePtr 0 = 4 ∧
    (fillParam plainHost boolStructFunction 0 structWorld).value? = some () ∧
    (fillParam plainHost boolStructFunction 0 structWorld).world.mem 0 = .bool true ∧
    (fillParam plainHost boolStructFunction 0 structWorld).world.mem 1 = .byte 1 ∧
    (fillParam plainHost boolStructFunction 0 structWorld).world.mem 2 = .byte 2 ∧
    (fillParam plainHost boolStructFunction 0 structWorld).world.mem 3 = .byte 3 ∧
    (fillParam plainHost boolStructFunction 0 structWorld).world.mem 4 = .byte 4 ∧
    (fillParam plainHost boolStructFunction 0 structWorld).world.mem 5 = .zero := by
  have hcb : mapFind structWorld.checkerMap UBoolProperty_StaticClass =
      some .checkUBoolProperty := by decide
  have hcs : mapFind structWorld.checkerMap UStructProperty_StaticClass =
      some .checkUStructProperty := by decide
  have hvs : structWorld.VectorStruct = some ⟨1000, 12⟩ := rfl
  have hm : structWorld.mem = fun a =>
      if a = 100 then .byte 1 else if a = 101 then .byte 2
      else if a = 102 then .byte 3 else if a = 103 then .byte 4 else .zero := rfl
  have hheap : structWorld.heap 1 = some (.userdata 300 none) := rfl
  have hls : structWorld.luaStructs 300 = some ⟨100, 4, quadStruct⟩ := rfl
  have h2 : index2addr structWorld.stack structWorld.upvalues 2 = some (.boolean true) := by
    decide
  have h3 : index2addr structWorld.stack structWorld.upvalues 3 = some (.userdata 1) := by
    decide
  have f1 : CPF_Parm &&& CPF_ReturnParm = 0 := by decide
  have f4 : CPF_Parm ≠ 0 := by decide
  have hne : UBoolProperty_StaticClass ≠ UStructProperty_StaticClass := by decide
  have hrun : fillParam plainHost boolStructFunction 0 structWorld = .ok () { structWorld with
      mem := fun a =>
        if 1 ≤ a ∧ a < 1 + 4 then
          (if 100 + (a - 1) = 0 then .bool true else structWorld.mem (100 + (a - 1)))
        else if a = 0 then .bool true else structWorld.mem a } := by
    simp [fillParam, fillParamLoop, boolStructFunction, boolAt0, quadAt4, quadStruct, f1, f4,
      fillParamFromState, getChecker, hcb, hcs, CheckPropertyFunction.call, checkUBoolProperty,
      checkUStructProperty, Cast, ensure, deref, checkValue_bool, checkValue_LuaStruct, h2, h3,
      hheap, hls, hvs, getVectorStruct, UProperty.SetPropertyValue_InContainer, writeMem,
      UProperty.ContainerPtrToValuePtr, UProperty.GetSize, UProperty.CopyValuesInternal,
      FMemory_Memcpy]
  rw [hrun]
  simp [Result.value?, Result.world, hm, UProperty.GetSize, quadAt4,
    UProperty.ContainerPtrToValuePtr]

/-! ## Vector specialization (C10) -/

theorem OnlyUB.of_pure {α : Type} (a : α) : OnlyUB (pure a : LuaM α) := fun _ => Or.inl rfl

theorem OnlyUB.of_bind {α β : Type} {m : LuaM α} {f : α → LuaM β} (hm : OnlyUB m)
    (hf : ∀ a, OnlyUB (f a)) : OnlyUB (m >>= f) := by
  intro w
  have h1 := hm w
  simp only [bind_apply]
  cases hmw : m w with
  | ok a w1 => exact hf a w1
  | error e w1 =>
    rw [hmw] at h1
    exact h1

theorem OnlyUB.of_writeMem (a : Nat) (c : Cell) : OnlyUB (writeMem a c) := fun _ => Or.inl rfl

theorem OnlyUB.of_lua_tonumber (h : Host) (idx : Int) : OnlyUB (lua_tonumber h idx) :=
  fun _ => Or.inl rfl

theorem OnlyUB.of_FMemory_Memcpy (d s n : Nat) : OnlyUB (FMemory_Memcpy d s n) :=
  fun _ => Or.inl rfl

theorem OnlyUB.of_lua_rawgeti (idx n : Int) : OnlyUB (lua_rawgeti idx n) := by
  intro w; unfold slua.lua_rawgeti; split
  · exact Or.inl rfl
  · exact Or.inr rfl

theorem OnlyUB.of_lua_pop (n : Nat) : OnlyUB (lua_pop n) := by
  intro w; unfold slua.lua_pop; split
  · exact Or.inl rfl
  · exact Or.inr rfl

/-- With a table as argument `i`, `checkVector` raises no script error. -/
theorem checkVector_table (h : Host) (i : Int) (w : World) (t : Nat)
    (ht : index2value w i = some (.table t)) :
    (checkVector h i w).error? = none ∨
      (checkVector h i w).error? = some .undefinedBehaviour := by
  simp only [index2value_eq] at ht
  unfold checkVector
  rw [bind_apply]
  simp only [FMemory_Alloca]
  rw [bind_apply]
  simp only [luaL_checktype_table, index2value_eq, ht]
  refine (?_ : OnlyUB _) _
  repeat (first
    | with_reducible exact OnlyUB.of_pure _
    | with_reducible exact OnlyUB.of_writeMem _ _
    | with_reducible exact OnlyUB.of_lua_tonumber _ _
    | with_reducible exact OnlyUB.of_lua_rawgeti _ _
    | with_reducible exact OnlyUB.of_lua_pop _
    | with_reducible apply OnlyUB.of_bind
    | intro _)

/-- C10. Vector specialization.  Let `prop` be a struct property whose struct type is the
static `VectorStruct`, of the size of an `FVector`.  (1) For every container, `pushUStructProperty`
returns 1 and pushes exactly one value, a fresh table `t` with `t[1]`, `t[2]`, `t[3]` the
numbers of the floats stored at the offsets 0, 4, 8 of the property's value; no struct wrapper
is made and no other heap object changes.  (2) When argument `i`, a positive stack index, is a
table, `checkUStructProperty`
returns 0, leaves stack and heap as they were, and stores at the offsets 0, 4, 8 of `parms` the
floats of the numbers that positions 1, 2, 3 of the table convert to; an absent position
converts to the number 0.  (3) When argument `i` is not a table it raises the type error for
argument `i`, expecting a table, and only then. -/
theorem vector_marshalling (h : Host) (prop : UProperty) (w : World)
    (hcls : prop.cls = UStructProperty_StaticClass)
    (hvec : w.VectorStruct = some prop.Struct)
    (hsize : prop.Struct.structureSize = sizeof_FVector) :
    (∀ parms_ : Nat, ∃ w1, pushUStructProperty h prop parms_ w = .ok 1 w1 ∧
      w1.stack = .table w.nextRef :: w.stack ∧
      w1.heap w.nextRef = some (.table
        [(.integer 1, .number (h.floatToNumber (w.mem (parms_ + prop.Offset_Internal)).asFloat)),
         (.integer 2,
           .number (h.floatToNumber (w.mem (parms_ + prop.Offset_Internal + 4)).asFloat)),
         (.integer 3,
           .number (h.floatToNumber (w.mem (parms_ + prop.Offset_Internal + 8)).asFloat))]
        none) ∧
      (∀ r, r ≠ w.nextRef → w1.heap r = w.heap r) ∧
      w1.luaStructs = w.luaStructs) ∧
    (∀ (parms : Nat) (i : Int) (t : Nat) (es : Entries) (mt : Option Nat), 0 < i →
      index2value w i = some (.table t) → w.heap t = some (.table es mt) →
      ∃ w1, checkUStructProperty h prop parms i w = .ok 0 w1 ∧
        w1.stack = w.stack ∧ w1.heap = w.heap ∧
        w1.mem parms = .float (h.numberToFloat (tonumber h (some (rawgetE es (.integer 1))))) ∧
        w1.mem (parms + 4) =
          .float (h.numberToFloat (tonumber h (some (rawgetE es (.integer 2))))) ∧
        w1.mem (parms + 8) =
          .float (h.numberToFloat (tonumber h (some (rawgetE es (.integer 3))))) ∧
        ∀ k : Int, rawgetE es (.integer k) = .nil →
          tonumber h (some (rawgetE es (.integer k))) = ⟨0⟩) ∧
    (∀ (parms : Nat) (i : Int),
      (checkUStructProperty h prop parms i w).error? = some (.typeError i "table") ↔
        ∀ t, index2value w i ≠ some (.table t)) := by
  have hv : (some prop.Struct = w.VectorStruct) := hvec.symm
  refine ⟨?_, ?_, ?_⟩
  · intro parms_
    simp [pushUStructProperty, Cast, hcls, ensure, deref, getVectorStruct, hvec, hsize,
      sizeof_FVector, FMemory_Alloca, UProperty.CopyValuesInternal, FMemory_Memcpy,
      pushVector, lua_createtable, lua_pushnumber, pushValue, readMem, lua_rawseti, tableAt,
      setTableAt, LUA_REGISTRYINDEX, rawsetE, eraseKey, UProperty.GetOffset_ForInternal]
    intro r hr
    simp [hr]
  · intro parms i t es mt hi htab hheap
    simp only [index2value_eq] at htab
    have hreg : i ≠ LUA_REGISTRYINDEX := by unfold LUA_REGISTRYINDEX; omega
    have h1 : ∀ a, index2addr (a :: w.stack) w.upvalues i = some (.table t) :=
      fun a => index2addr_pos_cons _ _ a _ i hi htab
    have h2 : ∀ a b, index2addr (a :: b :: w.stack) w.upvalues i = some (.table t) :=
      fun a b => index2addr_pos_cons _ _ a _ i hi (h1 b)
    simp [checkUStructProperty, Cast, hcls, ensure, deref, getVectorStruct, hvec, hsize,
      sizeof_FVector, FMemory_Alloca, UProperty.CopyValuesInternal, FMemory_Memcpy,
      checkVector, luaL_checktype_table, lua_rawgeti, tableAt, hreg, htab, h1, h2, hheap,
      writeMem, lua_tonumber, lua_pop]
    intro k hk
    rw [hk]
    rfl
  · intro parms i
    constructor
    · intro he t ht
      have hcv := checkVector_table h i w t ht
      have heq : checkUStructProperty h prop parms i w =
          (checkVector h i >>= fun v =>
            FMemory_Memcpy parms v (prop.Struct.structureSize * 1) >>= fun _ => pure 0) w := by
        simp [checkUStructProperty, Cast, hcls, ensure, deref, getVectorStruct, hvec,
          UProperty.CopyValuesInternal]
      rw [heq, bind_apply] at he
      cases hr : checkVector h i w with
      | ok v w1 =>
        rw [hr] at he
        simp [FMemory_Memcpy, Result.error?] at he
      | error e w1 =>
        rw [hr] at he hcv
        simp only [Result.error?, Option.some.injEq] at he hcv
        rcases hcv with hcv | hcv
        · exact absurd hcv (by simp)
        · rw [hcv] at he
          exact absurd he (by simp)
    · intro hnt
      have hne : ∀ v, index2addr w.stack w.upvalues i = some v → ∀ t, v ≠ .table t := by
        intro v hv2 t htv
        exact hnt t (by rw [index2value_eq, hv2, htv])
      simp only [checkUStructProperty, Cast, hcls, ensure, deref, getVectorStruct, hvec,
        sizeof_FVector, FMemory_Alloca, checkVector, luaL_checktype_table,
        bind_apply, pure_apply, index2value_eq, if_true]
      cases hx : index2addr w.stack w.upvalues i with
      | none => simp [Result.error?]
      | some v =>
        cases v <;> first
          | exact absurd rfl (hne _ hx _)
          | simp [Result.error?]

theorem vector_marshalling_witness :
    vecProp.cls = UStructProperty_StaticClass ∧
    vecWorld.VectorStruct = some vecProp.Struct ∧
    vecProp.Struct.structureSize = sizeof_FVector ∧
    (∃ w1, pushUStructProperty plainHost vecProp 0 vecWorld = .ok 1 w1 ∧
      w1.stack = [.table 1, .table 0] ∧
      w1.heap 1 = some (.table [(.integer 1, .number ⟨11⟩), (.integer 2, .number ⟨22⟩),
        (.integer 3, .number ⟨33⟩)] none)) ∧
    (∃ w1, checkUStructProperty plainHost vecProp 200 1 vecWorld = .ok 0 w1 ∧
      w1.stack = [.table 0] ∧
      w1.mem 200 = .float ⟨7⟩ ∧ w1.mem 204 = .float ⟨0⟩ ∧ w1.mem 208 = .float ⟨9⟩) :=
  ⟨rfl, rfl, rfl,
    ((vector_marshalling plainHost vecProp vecWorld rfl rfl rfl).1 0).imp
      (fun _ hw => ⟨hw.1, hw.2.1, hw.2.2.1⟩),
    ((vector_marshalling plainHost vecProp vecWorld rfl rfl rfl).2.1 200 1 0
      [(.integer 1, .number ⟨7⟩), (.integer 3, .number ⟨9⟩)] none (by decide) (by decide)
      rfl).imp
      (fun _ hw => ⟨hw.1, hw.2.1, hw.2.2.2.1, hw.2.2.2.2.1, hw.2.2.2.2.2.1⟩)⟩

/-! ## Static/instance symmetry (C9) -/

theorem KeysOK.nil : KeysOK [] := ⟨List.nodup_nil, fun _ h => absurd h (List.not_mem_nil _)⟩

theorem mem_eraseKey (t : Entries) (key : LuaValue) (e : LuaValue × LuaValue)
    (h : e ∈ eraseKey t key) : e ∈ t := by
  induction t with
  | nil => simp [eraseKey] at h
  | cons hd tl ih =>
    obtain ⟨a, b⟩ := hd
    by_cases hk : a = key
    · simp only [eraseKey, hk, if_true] at h
      exact List.mem_cons_of_mem _ (ih h)
    · simp only [eraseKey, hk, if_false, List.mem_cons] at h
      rcases h with rfl | h
      · simp
      · exact List.mem_cons_of_mem _ (ih h)

theorem KeysOK.eraseKey (t : Entries) (key : LuaValue) (h : KeysOK t) :
    KeysOK (eraseKey t key) := by
  induction t with
  | nil => simpa [slua.eraseKey] using h
  | cons hd tl ih =>
    obtain ⟨a, b⟩ := hd
    have htl : KeysOK tl :=
      ⟨(List.nodup_cons.mp h.1).2, fun e he => h.2 e (List.mem_cons_of_mem _ he)⟩
    by_cases hk : a = key
    · simpa [slua.eraseKey, hk] using ih htl
    · simp only [slua.eraseKey, hk, if_false]
      refine ⟨?_, ?_⟩
      · simp only [List.map_cons, List.nodup_cons]
        refine ⟨?_, (ih htl).1⟩
        intro hmem
        obtain ⟨e, he, hea⟩ := List.mem_map.mp hmem
        have : a ∈ tl.map Prod.fst := List.mem_map.mpr ⟨e, mem_eraseKey tl key e he, hea⟩
        exact (List.nodup_cons.mp h.1).1 this
      · intro e he
        rcases List.mem_cons.mp he with rfl | he
        · exact h.2 _ (by simp)
        · exact (ih htl).2 e he

theorem KeysOK.rawsetE (t : Entries) (key val : LuaValue) (h : KeysOK t)
    (hk : key ≠ .nil) : KeysOK (rawsetE t key val) := by
  unfold slua.rawsetE
  split
  · exact KeysOK.eraseKey t key h
  · have he := KeysOK.eraseKey t key h
    refine ⟨?_, ?_⟩
    · rw [List.map_append, List.nodup_append]
      refine ⟨he.1, by simp, ?_⟩
      intro a ha hb
      simp only [List.map_cons, List.map_nil, List.mem_singleton] at hb
      subst hb
      obtain ⟨e, hem, hea⟩ := List.mem_map.mp ha
      exact not_mem_eraseKey t a e hem hea
    · intro e hmem
      rcases List.mem_append.mp hmem with hm | hm
      · exact he.2 e hm
      · simp only [List.mem_singleton] at hm
        subst hm
        exact hk

theorem length_eraseKey_le (t : Entries) (key : LuaValue) :
    (eraseKey t key).length ≤ t.length := by
  induction t with
  | nil => simp [eraseKey]
  | cons hd tl ih =>
    obtain ⟨a, b⟩ := hd
    by_cases hk : a = key
    · simp only [eraseKey, hk, if_true, List.length_cons]; omega
    · simp only [eraseKey, hk, if_false, List.length_cons]; omega

theorem length_rawsetE_le (t : Entries) (key val : LuaValue) :
    (rawsetE t key val).length ≤ t.length + 1 := by
  unfold rawsetE
  have := length_eraseKey_le t key
  split
  · omega
  · simp only [List.length_append, List.length_singleton]; omega

/-- In a table without repeated keys, the traversal step after the key of an entry yields the
entry that follows it. -/
theorem nextAfter_append (d todo : Entries) (key v : LuaValue)
    (h : KeysOK (d ++ (key, v) :: todo)) :
    nextAfter (d ++ (key, v) :: todo) key = some todo.head? := by
  induction d with
  | nil => simp [nextAfter]
  | cons hd tl ih =>
    obtain ⟨a, b⟩ := hd
    have hne : a ≠ key := by
      intro hak
      have h1 := (List.nodup_cons.mp h.1).1
      apply h1
      simp [hak]
    have htl : KeysOK (tl ++ (key, v) :: todo) :=
      ⟨(List.nodup_cons.mp h.1).2, fun e he => h.2 e (List.mem_cons_of_mem _ he)⟩
    simp only [List.cons_append, nextAfter, hne, if_false]
    exact ih htl

theorem rawgetE_append_of_not_mem (d : Entries) (key v k : LuaValue)
    (h : ∀ e ∈ d, e.1 ≠ key) :
    rawgetE (d ++ [(key, v)]) k = if k = key then v else rawgetE d k :=
  rawgetE_append_single d key v k h

theorem tableAt_neg_ne_registry (k : Nat) (h1 : k < 1001000) :
    (-(k : Int) = LUA_REGISTRYINDEX) = False := by
  unfold LUA_REGISTRYINDEX
  simp only [eq_iff_iff, iff_false]
  omega

/-- What `lua_next(L, -2)` does in the copy loop of `finishType`. -/
theorem lua_next_loop (w : World) (inst : Nat) (imt : Option Nat) (key : LuaValue)
    (S : List LuaValue) (done todo : Entries)
    (hstack : w.stack = key :: .table inst :: S)
    (hinst : w.heap inst = some (.table (done ++ todo) imt))
    (hk : KeysOK (done ++ todo))
    (hkey : (done = [] ∧ key = .nil) ∨ ∃ d v, done = d ++ [(key, v)]) :
    lua_next (-2) w =
      match todo with
      | [] => .ok false { w with stack := .table inst :: S }
      | (k, v) :: _ => .ok true { w with stack := v :: k :: .table inst :: S } := by
  have hnext : nextE (done ++ todo) key = some todo.head? := by
    rcases hkey with ⟨hd, hn⟩ | ⟨d, v, hd⟩
    · subst hd; subst hn
      simp [nextE]
    · subst hd
      have hmem : (key, v) ∈ d ++ [(key, v)] ++ todo := by simp
      have hnn : key ≠ .nil := hk.2 (key, v) hmem
      have e : d ++ [(key, v)] ++ todo = d ++ (key, v) :: todo := by simp
      rw [e] at hk ⊢
      simp only [nextE, hnn, if_false]
      exact nextAfter_append d todo key v hk
  have hreg : ((-2 : Int) = LUA_REGISTRYINDEX) = False := by
    unfold LUA_REGISTRYINDEX; decide
  cases todo with
  | nil =>
    simp only [List.head?_nil, List.append_nil] at hnext hinst
    simp [lua_next, hstack, tableAt, hreg, hinst, hnext]
  | cons e todo1 =>
    obtain ⟨k, v⟩ := e
    simp only [List.head?_cons] at hnext
    simp [lua_next, hstack, tableAt, hreg, hinst, hnext]

/-- The copy loop of `finishType`: started on the instance table `inst` and the new table `s`,
with enough fuel, it ends with the traversal key popped and `s` holding, for every key, the
value `inst` holds; nothing else changes. -/
theorem finishTypeLoop_copies (inst s : Nat) (imt : Option Nat) (R : List LuaValue)
    (hne : s ≠ inst) :
    ∀ (todo done : Entries) (fuel : Nat) (w : World) (key : LuaValue) (sE : Entries),
      w.stack = key :: .table inst :: .table s :: R →
      w.heap inst = some (.table (done ++ todo) imt) →
      w.heap s = some (.table sE none) →
      KeysOK (done ++ todo) →
      ((done = [] ∧ key = .nil) ∨ ∃ d v, done = d ++ [(key, v)]) →
      todo.length < fuel →
      (∀ k, rawgetE sE k = rawgetE done k) →
      ∃ sE1, finishTypeLoop fuel w = .ok () { w with
          stack := .table inst :: .table s :: R
          heap := fun x => if x = s then some (.table sE1 none) else w.heap x } ∧
        ∀ k, rawgetE sE1 k = rawgetE (done ++ todo) k := by
  intro todo
  induction todo with
  | nil =>
    intro done fuel w key sE hstack hinst hs hk hkey hfuel hcopy
    obtain ⟨fuel1, rfl⟩ : ∃ f, fuel = f + 1 := ⟨fuel - 1, by omega⟩
    refine ⟨sE, ?_, by simpa using hcopy⟩
    have hn := lua_next_loop w inst imt key (.table s :: R) done [] hstack hinst hk hkey
    simp only at hn
    simp only [finishTypeLoop, bind_apply, hn]
    simp only [Bool.false_eq_true, if_false, pure_apply, Result.ok.injEq, true_and]
    have hh : (fun x => if x = s then some (HeapObj.table sE none) else w.heap x) = w.heap := by
      funext x
      by_cases hx : x = s
      · simp [hx, hs]
      · simp [hx]
    rw [hh]
  | cons e todo1 ih =>
    intro done fuel w key sE hstack hinst hs hk hkey hfuel hcopy
    obtain ⟨k, v⟩ := e
    obtain ⟨fuel1, rfl⟩ : ∃ f, fuel = f + 1 := ⟨fuel - 1, by
      simp only [List.length_cons] at hfuel; omega⟩
    have hn := lua_next_loop w inst imt key (.table s :: R) done ((k, v) :: todo1)
      hstack hinst hk hkey
    simp only at hn
    have hkn : k ≠ .nil := hk.2 (k, v) (by simp)
    have hreg : ((-5 : Int) = LUA_REGISTRYINDEX) = False := by
      unfold LUA_REGISTRYINDEX; decide
    have e1 : done ++ (k, v) :: todo1 = (done ++ [(k, v)]) ++ todo1 := by simp
    -- the world after one round of the loop body
    obtain ⟨sE1, hrun, hres⟩ := ih (done ++ [(k, v)]) fuel1
      { w with
        stack := k :: .table inst :: .table s :: R
        heap := fun x => if x = s then some (.table (rawsetE sE k v) none) else w.heap x }
      k (rawsetE sE k v) rfl
      (by simp only; rw [if_neg (Ne.symm hne), hinst, e1])
      (by simp)
      (by rw [← e1]; exact hk)
      (Or.inr ⟨done, v, rfl⟩)
      (by simp only [List.length_cons] at hfuel; omega)
      (by
        intro k1
        have hnot : ∀ e ∈ done, e.1 ≠ k := by
          intro e he hek
          have hnd := hk.1
          rw [List.map_append, List.nodup_append] at hnd
          exact hnd.2.2 (List.mem_map.mpr ⟨e, he, hek⟩) (by simp)
        rw [rawgetE_rawsetE, rawgetE_append_of_not_mem done k v k1 hnot, hcopy])
    refine ⟨sE1, ?_, by rw [e1]; exact hres⟩
    simp only [finishTypeLoop, bind_apply, hn, if_true]
    simp only [lua_pushvalue, index2value_eq, index2addr_neg2, List.getElem?_cons_succ,
      List.getElem?_cons_zero, lua_insert, stackPos_neg2, List.length_cons]
    simp [lua_settable, tableAt, setTableAt, hreg, hs, hkn]
    rw [hrun]
    simp only [Result.ok.injEq, true_and]
    congr 1
    funext x
    by_cases hx : x = s
    · simp [hx]
    · simp [hx]

/-- A registration call on a type under registration: it returns, the tables change as
`TypeOp.apply` says, and neither the registry nor the heap objects older than the type's own
tables change. -/
theorem TypeOp.run_spec (op : TypeOp) (w : World) (rest : List LuaValue) (n0 : Nat)
    (T : TypeTables) (hR : Registering w rest n0 T) (hname : op.NameOK) :
    ∃ w1, op.run w = .ok () w1 ∧ Registering w1 rest n0 (op.apply T) ∧
      w1.registry = w.registry ∧ (∀ r, r ≤ n0 → w1.heap r = w.heap r) := by
  obtain ⟨hstack, hnext, hinst, hmt, hig, his, hsg, hss, higr, hisr, hsgr, hssr⟩ := hR
  have r2 : ((-2 : Int) = LUA_REGISTRYINDEX) = False := by unfold LUA_REGISTRYINDEX; decide
  have r3 : ((-3 : Int) = LUA_REGISTRYINDEX) = False := by unfold LUA_REGISTRYINDEX; decide
  have r1 : ((-1 : Int) = LUA_REGISTRYINDEX) = False := by unfold LUA_REGISTRYINDEX; decide
  cases op with
  | addMethod name func isInstance =>
    obtain ⟨hn1, hn2⟩ := hname
    have hn1' : ¬ (".get" = name) := fun h => hn1 h.symm
    have hn2' : ¬ (".set" = name) := fun h => hn2 h.symm
    cases isInstance with
    | true =>
      refine ⟨{ w with
        heap := fun x =>
          if x = n0 + 6 then
            some (.table (rawsetE T.instE (.string name) (.cfunction func)) none)
          else w.heap x }, ?_, ?_, rfl, ?_⟩
      · simp [TypeOp.run, slua.addMethod, lua_pushcfunction, lua_pushcclosure, lua_setfield, hstack,
          tableAt, setTableAt, r2, hinst]
      · simp [Registering, TypeOp.apply, hstack, hnext, hinst, hmt, hig, his, hsg, hss, higr,
          hisr, hsgr, hssr, rawgetE_rawsetE, hn1', hn2']
      · intro r hr
        have : r ≠ n0 + 6 := by omega
        simp [this]
    | false =>
      refine ⟨{ w with
        heap := fun x =>
          if x = n0 + 1 then
            some (.table (rawsetE T.mtE (.string name) (.cfunction func)) none)
          else w.heap x }, ?_, ?_, rfl, ?_⟩
      · simp [TypeOp.run, slua.addMethod, lua_pushcfunction, lua_pushcclosure, lua_setfield, hstack,
          tableAt, setTableAt, r3, hmt]
      · simp [Registering, TypeOp.apply, hstack, hnext, hinst, hmt, hig, his, hsg, hss, higr,
          hisr, hsgr, hssr, rawgetE_rawsetE, hn1', hn2']
      · intro r hr
        have : r ≠ n0 + 1 := by omega
        simp [this]
  | addField name getter setter isInstance =>
    cases isInstance with
    | true =>
      refine ⟨{ w with
        heap := fun x =>
          if x = n0 + 9 then
            some (.table (rawsetE T.instSet (.string name) (.cfunction setter)) none)
          else if x = n0 + 7 then
            some (.table (rawsetE T.instGet (.string name) (.cfunction getter)) none)
          else w.heap x }, ?_, ?_, rfl, ?_⟩
      · simp [TypeOp.run, slua.addField, lua_getfield, lua_pushcfunction, lua_pushcclosure,
          lua_setfield, lua_pop, hstack, tableAt, setTableAt, r1, r2, hinst, higr, hisr, hig,
          his]
      · simp [Registering, TypeOp.apply, hstack, hnext, hinst, hmt, hig, his, hsg, hss, higr,
          hisr, hsgr, hssr]
      · intro r hr
        have h7 : r ≠ n0 + 7 := by omega
        have h9 : r ≠ n0 + 9 := by omega
        simp [h7, h9]
    | false =>
      refine ⟨{ w with
        heap := fun x =>
          if x = n0 + 4 then
            some (.table (rawsetE T.staticSet (.string name) (.cfunction setter)) none)
          else if x = n0 + 2 then
            some (.table (rawsetE T.staticGet (.string name) (.cfunction getter)) none)
          else w.heap x }, ?_, ?_, rfl, ?_⟩
      · simp [TypeOp.run, slua.addField, lua_getfield, lua_pushcfunction, lua_pushcclosure,
          lua_setfield, lua_pop, hstack, tableAt, setTableAt, r1, r2, hmt, hsgr, hssr, hsg,
          hss]
      · simp [Registering, TypeOp.apply, hstack, hnext, hinst, hmt, hig, his, hsg, hss, higr,
          hisr, hsgr, hssr]
      · intro r hr
        have h2 : r ≠ n0 + 2 := by omega
        have h4 : r ≠ n0 + 4 := by omega
        simp [h2, h4]

/-- A sequence of registration calls on a type under registration. -/
theorem runTypeOps_spec (rest : List LuaValue) (n0 : Nat) :
    ∀ (ops : List TypeOp) (w : World) (T : TypeTables), Registering w rest n0 T →
      (∀ op ∈ ops, op.NameOK) →
      ∃ w1, runTypeOps ops w = .ok () w1 ∧ Registering w1 rest n0 (applyTypeOps ops T) ∧
        w1.registry = w.registry ∧ (∀ r, r ≤ n0 → w1.heap r = w.heap r) := by
  intro ops
  induction ops with
  | nil =>
    intro w T hR _
    exact ⟨w, rfl, hR, rfl, fun _ _ => rfl⟩
  | cons op ops ih =>
    intro w T hR hnames
    obtain ⟨w1, h1, hR1, hreg1, hheap1⟩ :=
      TypeOp.run_spec op w rest n0 T hR (hnames op (by simp))
    obtain ⟨w2, h2, hR2, hreg2, hheap2⟩ :=
      ih w1 (op.apply T) hR1 (fun o ho => hnames o (by simp [ho]))
    refine ⟨w2, ?_, hR2, hreg2.trans hreg1, fun r hr => (hheap2 r hr).trans (hheap1 r hr)⟩
    simp only [runTypeOps, bind_apply, h1, h2]

theorem applyTypeOps_cons (op : TypeOp) (ops : List TypeOp) (T : TypeTables) :
    applyTypeOps (op :: ops) T = applyTypeOps ops (op.apply T) := rfl

theorem TypeOp.apply_keysOK (op : TypeOp) (T : TypeTables) (h : KeysOK T.instE) :
    KeysOK (op.apply T).instE := by
  cases op with
  | addMethod name func isInstance =>
    cases isInstance
    · exact h
    · show KeysOK (rawsetE T.instE (.string name) (.cfunction func))
      exact KeysOK.rawsetE _ _ _ h (by simp)
  | addField name getter setter isInstance =>
    cases isInstance <;> exact h

theorem TypeOp.apply_length (op : TypeOp) (T : TypeTables) :
    (op.apply T).instE.length ≤ T.instE.length + 1 := by
  cases op with
  | addMethod name func isInstance =>
    cases isInstance
    · simp [TypeOp.apply]
    · show (rawsetE T.instE (.string name) (.cfunction func)).length ≤ _
      exact length_rawsetE_le _ _ _
  | addField name getter setter isInstance =>
    cases isInstance <;> simp [TypeOp.apply]

theorem applyTypeOps_keysOK (ops : List TypeOp) :
    ∀ T : TypeTables, KeysOK T.instE → KeysOK (applyTypeOps ops T).instE := by
  induction ops with
  | nil => intro T h; exact h
  | cons op ops ih =>
    intro T h
    rw [applyTypeOps_cons]
    exact ih _ (TypeOp.apply_keysOK op T h)

theorem applyTypeOps_length (ops : List TypeOp) :
    ∀ T : TypeTables, (applyTypeOps ops T).instE.length ≤ T.instE.length + ops.length := by
  induction ops with
  | nil => intro T; simp [applyTypeOps]
  | cons op ops ih =>
    intro T
    rw [applyTypeOps_cons]
    have h1 := ih (op.apply T)
    have h2 := TypeOp.apply_length op T
    simp only [List.length_cons]
    omega

/-- Without an instance method registered under `key`, the instance metatable keeps what it
holds under `key`. -/
theorem applyTypeOps_instE_other (key : String) (ops : List TypeOp)
    (hno : ∀ f, TypeOp.addMethod key f true ∉ ops) :
    ∀ T : TypeTables, rawgetE (applyTypeOps ops T).instE (.string key) =
      rawgetE T.instE (.string key) := by
  induction ops with
  | nil => intro T; rfl
  | cons op ops ih =>
    intro T
    rw [applyTypeOps_cons, ih (fun f hf => hno f (by simp [hf]))]
    cases op with
    | addMethod name func isInstance =>
      cases isInstance
      · rfl
      · have hne : key ≠ name := by
          intro h
          exact hno func (by simp [h])
        simp [TypeOp.apply, rawgetE_rawsetE, hne]
    | addField name getter setter isInstance =>
      cases isInstance <;> rfl

/-- A key that the instance metatable holds stays a key of it. -/
theorem applyTypeOps_instE_mono (k : LuaValue) (ops : List TypeOp) :
    ∀ T : TypeTables, rawgetE T.instE k ≠ .nil → rawgetE (applyTypeOps ops T).instE k ≠ .nil := by
  induction ops with
  | nil => intro T h; exact h
  | cons op ops ih =>
    intro T h
    rw [applyTypeOps_cons]
    apply ih
    cases op with
    | addMethod name func isInstance =>
      cases isInstance
      · exact h
      · simp only [TypeOp.apply, rawgetE_rawsetE]
        split
        · simp
        · exact h
    | addField name getter setter isInstance =>
      cases isInstance <;> exact h

/-- Every instance-scope method is a key of the instance metatable. -/
theorem applyTypeOps_method (name : String) (func : CFunction) (ops : List TypeOp) :
    ∀ T : TypeTables, TypeOp.addMethod name func true ∈ ops →
      rawgetE (applyTypeOps ops T).instE (.string name) ≠ .nil := by
  induction ops with
  | nil => intro T h; simp at h
  | cons op ops ih =>
    intro T h
    rw [applyTypeOps_cons]
    rcases List.mem_cons.mp h with h | h
    · subst h
      apply applyTypeOps_instE_mono
      simp [TypeOp.apply, rawgetE_rawsetE]
    · exact ih _ h

theorem applyTypeOps_field_mono (k : LuaValue) (ops : List TypeOp) :
    ∀ T : TypeTables, rawgetE T.instGet k ≠ .nil ∧ rawgetE T.instSet k ≠ .nil →
      rawgetE (applyTypeOps ops T).instGet k ≠ .nil ∧
      rawgetE (applyTypeOps ops T).instSet k ≠ .nil := by
  induction ops with
  | nil => intro T h; exact h
  | cons op ops ih =>
    intro T h
    rw [applyTypeOps_cons]
    apply ih
    cases op with
    | addMethod name func isInstance =>
      cases isInstance <;> exact h
    | addField name getter setter isInstance =>
      cases isInstance
      · exact h
      · simp only [TypeOp.apply, rawgetE_rawsetE]
        constructor
        · split
          · simp
          · exact h.1
        · split
          · simp
          · exact h.2

/-- Every instance-scope field is a key of the instance `.get` and `.set` tables. -/
theorem applyTypeOps_field (name : String) (getter setter : CFunction) (ops : List TypeOp) :
    ∀ T : TypeTables, TypeOp.addField name getter setter true ∈ ops →
      rawgetE (applyTypeOps ops T).instGet (.string name) ≠ .nil ∧
      rawgetE (applyTypeOps ops T).instSet (.string name) ≠ .nil := by
  induction ops with
  | nil => intro T h; simp at h
  | cons op ops ih =>
    intro T h
    rw [applyTypeOps_cons]
    rcases List.mem_cons.mp h with h | h
    · subst h
      apply applyTypeOps_field_mono
      simp [TypeOp.apply, rawgetE_rawsetE]
    · exact ih _ h

theorem append_inst_ne (tn : String) : (tn ++ "_inst" = tn) = False := by
  simp only [eq_iff_iff, iff_false]
  intro h
  have h1 := congrArg String.length h
  simp [String.length_append] at h1
  exact absurd h1 (by decide)

theorem append_static_ne (tn : String) : (tn ++ "_static" = tn) = False := by
  simp only [eq_iff_iff, iff_false]
  intro h
  have h1 := congrArg String.length h
  simp [String.length_append] at h1
  exact absurd h1 (by decide)

theorem append_static_ne_inst (tn : String) : (tn ++ "_static" = tn ++ "_inst") = False := by
  simp only [eq_iff_iff, iff_false]
  intro h
  have h1 := congrArg String.data h
  simp only [String.data_append, List.append_cancel_left_eq] at h1
  exact absurd h1 (by decide)

/-- What `newType` does in a world whose registry holds the table of globals and has no entry
for the names `tn` and `tn_inst`: it leaves the type under registration, with the tables of
`newTypeTables`, and has registered the two metatables and the global `tn`. -/
theorem newType_spec (tn : String) (w : World) (g : Nat) (ges : Entries)
    (hG : rawgetE w.registry (.integer LUA_RIDX_GLOBALS) = .table g)
    (hGh : w.heap g = some (.table ges none))
    (hg : g < w.nextRef)
    (hr1 : rawgetE w.registry (.string tn) = .nil)
    (hr2 : rawgetE w.registry (.string (str_concat tn "_inst")) = .nil) :
    ∃ w1, newType tn w = .ok () w1 ∧
      Registering w1 w.stack w.nextRef (newTypeTables tn w.nextRef) ∧
      w1.registry = rawsetE (rawsetE w.registry (.string tn) (.table (w.nextRef + 1)))
        (.string (str_concat tn "_inst")) (.table (w.nextRef + 6)) ∧
      w1.heap g = some (.table (rawsetE ges (.string tn) (.table w.nextRef)) none) ∧
      w1.heap w.nextRef = some (.table [] (some (w.nextRef + 1))) := by
  have hG2 : rawgetE w.registry (.integer 2) = .table g := hG
  have hr2' : rawgetE w.registry (.string (tn ++ "_inst")) = .nil := hr2
  have hg0 : (g = w.nextRef) = False := by
    simp only [eq_iff_iff, iff_false]; omega
  have hgk : ∀ k, (g = w.nextRef + k) = False := by
    intro k; simp only [eq_iff_iff, iff_false]; omega
  have hgk2 : ∀ k, (w.nextRef + k = g) = False := by
    intro k; simp only [eq_iff_iff, iff_false]; omega
  have hg02 : (w.nextRef = g) = False := by
    simp only [eq_iff_iff, iff_false]; omega
  have r1 : ((-1 : Int) = LUA_REGISTRYINDEX) = False := by unfold LUA_REGISTRYINDEX; decide
  have r2 : ((-2 : Int) = LUA_REGISTRYINDEX) = False := by unfold LUA_REGISTRYINDEX; decide
  have r3 : ((-3 : Int) = LUA_REGISTRYINDEX) = False := by unfold LUA_REGISTRYINDEX; decide
  simp [newType, setMetaMethods, luaL_newmetatable, luaL_getmetatable, lua_pushglobaltable,
    str_concat, lua_rawgeti, lua_newtable, lua_createtable, lua_pushvalue, lua_setfield,
    lua_remove, lua_setmetatable, lua_pushcclosure, lua_getfield, lua_pop, lua_pushstring,
    pushValue, tableAt, setTableAt, LuaValue.type, LUA_TNIL, LUA_RIDX_GLOBALS, r1, r2, r3,
    hG2, hGh, hr1, hr2', hg0, hgk, hgk2, hg02, rawgetE_rawsetE, append_inst_ne,
    Registering, newTypeTables, Nat.add_assoc]

/-- What `finishType` does on a type under registration whose instance metatable is well formed,
given more fuel than the instance metatable has entries: it returns with the three tables
popped, having stored the constructor, registered a copy of the instance metatable as
`tn_static`, and only then stored the collector in the instance metatable. -/
theorem finishType_spec (fuel : Nat) (tn : String) (ctor gc : CFunction) (w : World)
    (rest : List LuaValue) (n0 : Nat) (T : TypeTables)
    (hR : Registering w rest n0 T) (hk : KeysOK T.instE) (hfuel : T.instE.length < fuel) :
    ∃ w1 sE, finishType fuel tn ctor gc w = .ok () w1 ∧
      w1.stack = rest ∧
      w1.registry =
        rawsetE w.registry (.string (str_concat tn "_static")) (.table (n0 + 11)) ∧
      w1.heap (n0 + 11) = some (.table sE none) ∧
      (∀ k, rawgetE sE k = rawgetE T.instE k) ∧
      w1.heap (n0 + 6) =
        some (.table (rawsetE T.instE (.string "__gc") (.cfunction gc)) none) ∧
      w1.heap (n0 + 1) =
        some (.table (rawsetE T.mtE (.string "__call") (.cfunction ctor)) none) ∧
      (∀ r, r ≠ n0 + 11 → r ≠ n0 + 6 → r ≠ n0 + 1 → w1.heap r = w.heap r) := by
  obtain ⟨hstack, hnext, hinst, hmt, hig, his, hsg, hss, higr, hisr, hsgr, hssr⟩ := hR
  have r2 : ((-2 : Int) = LUA_REGISTRYINDEX) = False := by unfold LUA_REGISTRYINDEX; decide
  have r3 : ((-3 : Int) = LUA_REGISTRYINDEX) = False := by unfold LUA_REGISTRYINDEX; decide
  obtain ⟨sE1, hrun, hres⟩ := finishTypeLoop_copies (n0 + 6) (n0 + 11) none
    (.table (n0 + 6) :: .table (n0 + 1) :: .table n0 :: rest) (by omega) T.instE [] fuel
    { w with
      stack := .nil :: .table (n0 + 6) :: .table (n0 + 11) :: .table (n0 + 6) ::
        .table (n0 + 1) :: .table n0 :: rest
      heap := fun r =>
        if r = n0 + 11 then some (.table [] none)
        else if r = n0 + 1 then
          some (.table (rawsetE T.mtE (.string "__call") (.cfunction ctor)) none)
        else w.heap r
      nextRef := n0 + 11 + 1 }
    .nil [] rfl (by simp [hinst]) (by simp) (by simpa using hk) (Or.inl ⟨rfl, rfl⟩) hfuel
    (fun _ => rfl)
  simp only [] at hrun
  refine ⟨{ w with
    stack := rest
    registry := rawsetE w.registry (.string (str_concat tn "_static")) (.table (n0 + 11))
    nextRef := n0 + 11 + 1
    heap := fun x =>
      if x = n0 + 6 then
        some (.table (rawsetE T.instE (.string "__gc") (.cfunction gc)) none)
      else if x = n0 + 11 then some (.table sE1 none)
      else if x = n0 + 1 then
        some (.table (rawsetE T.mtE (.string "__call") (.cfunction ctor)) none)
      else w.heap x }, sE1, ?_, rfl, rfl, ?_, hres, ?_, ?_, ?_⟩
  · simp only [finishType, bind_apply]
    simp [lua_pushcclosure, lua_setfield, lua_newtable, lua_createtable, lua_pushvalue,
      lua_pushnil, pushValue, tableAt, setTableAt, hstack, hnext, r2, r3, hmt, hinst]
    rw [hrun]
    simp [lua_pop, hinst]
    funext x
    by_cases hx : x = n0 + 11 <;> simp [hx]
  · simp
  · simp
  · simp
  · intro r h1 h2 h3
    simp [h1, h2, h3]

/-- Without an instance field registered under `key`, the instance accessor tables keep what
they hold under `key`. -/
theorem applyTypeOps_field_other (key : String) (ops : List TypeOp)
    (hno : ∀ g s, TypeOp.addField key g s true ∉ ops) :
    ∀ T : TypeTables,
      rawgetE (applyTypeOps ops T).instGet (.string key) = rawgetE T.instGet (.string key) ∧
      rawgetE (applyTypeOps ops T).instSet (.string key) =
        rawgetE T.instSet (.string key) := by
  induction ops with
  | nil => intro T; exact ⟨rfl, rfl⟩
  | cons op ops ih =>
    intro T
    rw [applyTypeOps_cons]
    have h := ih (fun g s hf => hno g s (by simp [hf])) (op.apply T)
    rw [h.1, h.2]
    cases op with
    | addMethod name func isInstance =>
      cases isInstance <;> exact ⟨rfl, rfl⟩
    | addField name getter setter isInstance =>
      cases isInstance
      · exact ⟨rfl, rfl⟩
      · have hne : key ≠ name := by
          intro h
          exact hno getter setter (by simp [h])
        simp [TypeOp.apply, rawgetE_rawsetE, hne]

/-- The instance metatable holds, under the name of an instance-scope method, a function
registered under that name. -/
theorem applyTypeOps_method_value (name : String) (ops : List TypeOp) :
    ∀ T : TypeTables, (∃ f, TypeOp.addMethod name f true ∈ ops) →
      ∃ f, TypeOp.addMethod name f true ∈ ops ∧
        rawgetE (applyTypeOps ops T).instE (.string name) = .cfunction f := by
  induction ops with
  | nil =>
    intro T h
    obtain ⟨f, hf⟩ := h
    simp at hf
  | cons op ops ih =>
    intro T h
    rw [applyTypeOps_cons]
    by_cases ht : ∃ f, TypeOp.addMethod name f true ∈ ops
    · obtain ⟨f, hf, hv⟩ := ih (op.apply T) ht
      exact ⟨f, List.mem_cons_of_mem _ hf, hv⟩
    · obtain ⟨f, hf⟩ := h
      rcases List.mem_cons.mp hf with h1 | h1
      · subst h1
        refine ⟨f, by simp, ?_⟩
        rw [applyTypeOps_instE_other name ops (fun f1 hf1 => ht ⟨f1, hf1⟩)]
        simp [TypeOp.apply, rawgetE_rawsetE]
      · exact absurd ⟨f, h1⟩ ht

/-- The instance accessor tables hold, under the name of an instance-scope field, a getter and
a setter registered together under that name. -/
theorem applyTypeOps_field_value (name : String) (ops : List TypeOp) :
    ∀ T : TypeTables, (∃ g s, TypeOp.addField name g s true ∈ ops) →
      ∃ g s, TypeOp.addField name g s true ∈ ops ∧
        rawgetE (applyTypeOps ops T).instGet (.string name) = .cfunction g ∧
        rawgetE (applyTypeOps ops T).instSet (.string name) = .cfunction s := by
  induction ops with
  | nil =>
    intro T h
    obtain ⟨g, s, hf⟩ := h
    simp at hf
  | cons op ops ih =>
    intro T h
    rw [applyTypeOps_cons]
    by_cases ht : ∃ g s, TypeOp.addField name g s true ∈ ops
    · obtain ⟨g, s, hf, hv⟩ := ih (op.apply T) ht
      exact ⟨g, s, List.mem_cons_of_mem _ hf, hv⟩
    · obtain ⟨g, s, hf⟩ := h
      rcases List.mem_cons.mp hf with h1 | h1
      · subst h1
        refine ⟨g, s, by simp, ?_⟩
        have ho := applyTypeOps_field_other name ops (fun g1 s1 hf1 => ht ⟨g1, s1, hf1⟩)
          ((TypeOp.addField name g s true).apply T)
        rw [ho.1, ho.2]
        simp [TypeOp.apply, rawgetE_rawsetE]
      · exact absurd ⟨g, s, h1⟩ ht

theorem newTypeTables_keysOK (tn : String) (n0 : Nat) : KeysOK (newTypeTables tn n0).instE := by
  unfold newTypeTables
  repeat (first | exact KeysOK.nil | apply KeysOK.rawsetE | simp)

theorem newTypeTables_length (tn : String) (n0 : Nat) :
    (newTypeTables tn n0).instE.length ≤ 5 := by
  unfold newTypeTables
  simp only
  have h1 := length_rawsetE_le [] (.string "__name") (.string (str_concat tn "_inst"))
  have h2 := length_rawsetE_le
    (rawsetE [] (.string "__name") (.string (str_concat tn "_inst")))
    (.string ".get") (.table (n0 + 7))
  have h3 := length_rawsetE_le
    (rawsetE (rawsetE [] (.string "__name") (.string (str_concat tn "_inst")))
      (.string ".get") (.table (n0 + 7)))
    (.string "__index") (.closure (n0 + 8))
  have h4 := length_rawsetE_le
    (rawsetE (rawsetE (rawsetE [] (.string "__name") (.string (str_concat tn "_inst")))
      (.string ".get") (.table (n0 + 7)))
      (.string "__index") (.closure (n0 + 8)))
    (.string ".set") (.table (n0 + 9))
  have h5 := length_rawsetE_le
    (rawsetE (rawsetE (rawsetE (rawsetE [] (.string "__name")
      (.string (str_concat tn "_inst")))
      (.string ".get") (.table (n0 + 7)))
      (.string "__index") (.closure (n0 + 8)))
      (.string ".set") (.table (n0 + 9)))
    (.string "__newindex") (.closure (n0 + 10))
  simp only [List.length_nil] at h1
  omega

theorem newTypeTables_gc (tn : String) (n0 : Nat) :
    rawgetE (newTypeTables tn n0).instE (.string "__gc") = .nil := by
  simp [newTypeTables, rawgetE_rawsetE, rawgetE]

/-- The run of a type registration, and what the snapshot registered as `tn_static` holds:
for every key, what the instance metatable holds when `finishType` is called. -/
theorem registerType_snapshot (fuel : Nat) (tn : String) (ops : List TypeOp)
    (ctor gc : CFunction) (w : World) (g : Nat) (ges : Entries)
    (hG : rawgetE w.registry (.integer LUA_RIDX_GLOBALS) = .table g)
    (hGh : w.heap g = some (.table ges none))
    (hg : g < w.nextRef)
    (hr1 : rawgetE w.registry (.string tn) = .nil)
    (hr2 : rawgetE w.registry (.string (str_concat tn "_inst")) = .nil)
    (hnames : ∀ op ∈ ops, op.NameOK)
    (hfuel : ops.length + 6 ≤ fuel) :
    ∃ w1 sE, registerType fuel tn ops ctor gc w = .ok () w1 ∧
      staticTypeTable w1 tn = some sE ∧
      ∀ k, rawgetE sE k = rawgetE (applyTypeOps ops (newTypeTables tn w.nextRef)).instE k := by
  obtain ⟨w1, h1, hR1, hreg1, hg1, ht1⟩ := newType_spec tn w g ges hG hGh hg hr1 hr2
  obtain ⟨w2, h2, hR2, hreg2, hheap2⟩ :=
    runTypeOps_spec w.stack w.nextRef ops w1 _ hR1 hnames
  have hK : KeysOK (applyTypeOps ops (newTypeTables tn w.nextRef)).instE :=
    applyTypeOps_keysOK ops _ (newTypeTables_keysOK tn _)
  have hL : (applyTypeOps ops (newTypeTables tn w.nextRef)).instE.length < fuel := by
    have e1 := applyTypeOps_length ops (newTypeTables tn w.nextRef)
    have e2 := newTypeTables_length tn w.nextRef
    omega
  obtain ⟨w3, sE, h3, hst3, hreg3, hs3, hcopy, hi3, hm3, hheap3⟩ :=
    finishType_spec fuel tn ctor gc w2 w.stack w.nextRef _ hR2 hK hL
  refine ⟨w3, sE, ?_, ?_, hcopy⟩
  · simp only [registerType, bind_apply, h1, h2, h3]
  · simp [staticTypeTable, registryTable, hreg3, rawgetE_rawsetE, hs3]

/-- C9, counterexample: registering an instance-scope method under the name "__gc" before
`finishType` puts a "__gc" entry into the static snapshot.  In a new Lua state,
`newType("T")`, `addMethod("__gc", f1, true)`, `finishType("T", f2, f3)` returns, and the table
registered as `T_static` maps "__gc" to `f1`. -/
theorem static_snapshot_gc_entry :
    (registerType 20 "T" [.addMethod "__gc" (.fn 1) true] (.fn 2) (.fn 3) freshLua).error? =
      none ∧
    (staticTypeTable
      (registerType 20 "T" [.addMethod "__gc" (.fn 1) true] (.fn 2) (.fn 3) freshLua).world
      "T").map (fun sE => rawgetE sE (.string "__gc")) = some (.cfunction (.fn 1)) := by
  obtain ⟨w1, sE, h1, h2, h3⟩ :=
    registerType_snapshot 20 "T" [.addMethod "__gc" (.fn 1) true] (.fn 2) (.fn 3) freshLua 0 []
      (by simp [freshLua, rawgetE]) (by simp [freshLua]) (by simp [freshLua])
      (by simp [freshLua, rawgetE, LUA_RIDX_GLOBALS])
      (by simp [freshLua, rawgetE, LUA_RIDX_GLOBALS])
      (by simp [TypeOp.NameOK]) (by simp)
  rw [h1]
  refine ⟨rfl, ?_⟩
  simp only [Result.world, h2]
  show some (rawgetE sE (.string "__gc")) = _
  rw [h3]
  simp [applyTypeOps, TypeOp.apply, rawgetE_rawsetE]

/-- C9, amended: static/instance symmetry for a type registered once, with no instance-scope
method named "__gc".  In a world whose table of globals is a plain table and whose registry has
no entry `tn` or `tn_inst`, for every sequence `ops` of `addMethod`/`addField` calls in which no
method is registered under the reserved names ".get" and ".set" and no instance-scope method
under "__gc", `newType(tn)`, `ops`, `finishType(tn, ctor, gc)` (with fuel for the copy loop)
returns with the stack as it was, and then: the table registered as `tn_static` holds under
every key other than "__gc" what the instance metatable `tn_inst` holds, and it has no "__gc"
entry, whereas the instance metatable maps "__gc" to `gc`; every instance-scope method name is
mapped by the snapshot to a function registered under it; the snapshot shares the instance
metatable's ".get" and ".set" tables, which hold a getter and a setter for every instance-scope
field; and the global `tn` is a table whose metatable maps "__call" to `ctor`. -/
theorem registerType_static_snapshot (fuel : Nat) (tn : String) (ops : List TypeOp)
    (ctor gc : CFunction) (w : World) (g : Nat) (ges : Entries)
    (hG : rawgetE w.registry (.integer LUA_RIDX_GLOBALS) = .table g)
    (hGh : w.heap g = some (.table ges none))
    (hg : g < w.nextRef)
    (hr1 : rawgetE w.registry (.string tn) = .nil)
    (hr2 : rawgetE w.registry (.string (str_concat tn "_inst")) = .nil)
    (hnames : ∀ op ∈ ops, op.NameOK)
    (hgc : ∀ f, TypeOp.addMethod "__gc" f true ∉ ops)
    (hfuel : ops.length + 6 ≤ fuel) :
    ∃ w1 sE iE,
      registerType fuel tn ops ctor gc w = .ok () w1 ∧
      w1.stack = w.stack ∧
      staticTypeTable w1 tn = some sE ∧
      instanceTypeTable w1 tn = some iE ∧
      (∀ k, k ≠ .string "__gc" → rawgetE sE k = rawgetE iE k) ∧
      rawgetE sE (.string "__gc") = .nil ∧
      rawgetE iE (.string "__gc") = .cfunction gc ∧
      (∀ name, (∃ f, TypeOp.addMethod name f true ∈ ops) →
        ∃ f, TypeOp.addMethod name f true ∈ ops ∧
          rawgetE sE (.string name) = .cfunction f) ∧
      (∃ gr sr getE setE,
        rawgetE sE (.string ".get") = .table gr ∧
        rawgetE sE (.string ".set") = .table sr ∧
        w1.heap gr = some (.table getE none) ∧
        w1.heap sr = some (.table setE none) ∧
        ∀ name, (∃ gt st, TypeOp.addField name gt st true ∈ ops) →
          ∃ gt st, TypeOp.addField name gt st true ∈ ops ∧
            rawgetE getE (.string name) = .cfunction gt ∧
            rawgetE setE (.string name) = .cfunction st) ∧
      (∃ t m mE,
        w1.heap g = some (.table (rawsetE ges (.string tn) (.table t)) none) ∧
        w1.heap t = some (.table [] (some m)) ∧
        w1.heap m = some (.table mE none) ∧
        rawgetE mE (.string "__call") = .cfunction ctor) := by
  obtain ⟨w1, h1, hR1, hreg1, hg1, ht1⟩ := newType_spec tn w g ges hG hGh hg hr1 hr2
  obtain ⟨w2, h2, hR2, hreg2, hheap2⟩ :=
    runTypeOps_spec w.stack w.nextRef ops w1 _ hR1 hnames
  have hK : KeysOK (applyTypeOps ops (newTypeTables tn w.nextRef)).instE :=
    applyTypeOps_keysOK ops _ (newTypeTables_keysOK tn _)
  have hL : (applyTypeOps ops (newTypeTables tn w.nextRef)).instE.length < fuel := by
    have e1 := applyTypeOps_length ops (newTypeTables tn w.nextRef)
    have e2 := newTypeTables_length tn w.nextRef
    omega
  obtain ⟨w3, sE, h3, hst3, hreg3, hs3, hcopy, hi3, hm3, hheap3⟩ :=
    finishType_spec fuel tn ctor gc w2 w.stack w.nextRef _ hR2 hK hL
  obtain ⟨_, _, _, _, hig, his, _, _, higr, hisr, _, _⟩ := hR2
  have hgcT : rawgetE (applyTypeOps ops (newTypeTables tn w.nextRef)).instE (.string "__gc") =
      .nil := by
    rw [applyTypeOps_instE_other "__gc" ops hgc, newTypeTables_gc]
  have hsi : (str_concat tn "_static" = str_concat tn "_inst") = False :=
    append_static_ne_inst tn
  have his2 : (str_concat tn "_inst" = str_concat tn "_static") = False := by
    simp only [eq_iff_iff, iff_false]
    intro h
    have := hsi ▸ h.symm
    exact this
  refine ⟨w3, sE, rawsetE (applyTypeOps ops (newTypeTables tn w.nextRef)).instE
    (.string "__gc") (.cfunction gc), ?_, hst3, ?_, ?_, ?_, ?_, ?_, ?_, ?_, ?_⟩
  · simp only [registerType, bind_apply, h1, h2, h3]
  · simp [staticTypeTable, registryTable, hreg3, rawgetE_rawsetE, hs3]
  · simp [instanceTypeTable, registryTable, hreg3, hreg2, hreg1, rawgetE_rawsetE, his2, hi3]
  · intro k hk
    rw [hcopy, rawgetE_rawsetE, if_neg hk]
  · rw [hcopy, hgcT]
  · simp [rawgetE_rawsetE]
  · intro name hname
    obtain ⟨f, hf, hv⟩ := applyTypeOps_method_value name ops (newTypeTables tn w.nextRef) hname
    exact ⟨f, hf, by rw [hcopy, hv]⟩
  · refine ⟨w.nextRef + 7, w.nextRef + 9,
      (applyTypeOps ops (newTypeTables tn w.nextRef)).instGet,
      (applyTypeOps ops (newTypeTables tn w.nextRef)).instSet,
      by rw [hcopy, higr], by rw [hcopy, hisr], ?_, ?_, ?_⟩
    · rw [hheap3 _ (by omega) (by omega) (by omega), hig]
    · rw [hheap3 _ (by omega) (by omega) (by omega), his]
    · intro name hname
      exact applyTypeOps_field_value name ops (newTypeTables tn w.nextRef) hname
  · refine ⟨w.nextRef, w.nextRef + 1,
      rawsetE (applyTypeOps ops (newTypeTables tn w.nextRef)).mtE (.string "__call")
        (.cfunction ctor), ?_, ?_, hm3, by simp [rawgetE_rawsetE]⟩
    · rw [hheap3 _ (by omega) (by omega) (by omega), hheap2 _ (by omega), hg1]
    · rw [hheap3 _ (by omega) (by omega) (by omega), hheap2 _ (by omega), ht1]

theorem registerType_static_snapshot_witness :
    (∃ w1 sE iE,
      registerType 20 "T"
        [.addMethod "Foo" (.fn 1) true, .addField "x" (.fn 4) (.fn 5) true,
          .addMethod "Bar" (.fn 6) false] (.fn 2) (.fn 3) freshLua = .ok () w1 ∧
      staticTypeTable w1 "T" = some sE ∧
      instanceTypeTable w1 "T" = some iE ∧
      (∀ k, k ≠ .string "__gc" → rawgetE sE k = rawgetE iE k) ∧
      rawgetE sE (.string "__gc") = .nil ∧
      rawgetE iE (.string "__gc") = .cfunction (.fn 3)) := by
  obtain ⟨w1, sE, iE, h1, _, h3, h4, h5, h6, h7, _⟩ :=
    registerType_static_snapshot 20 "T"
      [.addMethod "Foo" (.fn 1) true, .addField "x" (.fn 4) (.fn 5) true,
        .addMethod "Bar" (.fn 6) false] (.fn 2) (.fn 3) freshLua 0 []
      (by simp [freshLua, rawgetE]) (by simp [freshLua]) (by simp [freshLua])
      (by simp [freshLua, rawgetE, LUA_RIDX_GLOBALS])
      (by simp [freshLua, rawgetE, LUA_RIDX_GLOBALS])
      (by simp [TypeOp.NameOK]) (by simp) (by simp)
  exact ⟨w1, sE, iE, h1, h3, h4, h5, h6, h7⟩

/-! ## Type registry (C12) -/

theorem str_lt_irrefl (a : String) : ¬ a < a := lt_irrefl a

theorem str_lt_trans {a b c : String} (h1 : a < b) (h2 : b < c) : a < c := lt_trans h1 h2

theorem str_lt_trichotomy (a b : String) : a < b ∨ a = b ∨ b < a := lt_trichotomy a b

theorem typeMap_mem_insert (m : TypeMap) (kv e : String × String)
    (h : e ∈ TypeMap.insert m kv) : e = kv ∨ e ∈ m := by
  induction m with
  | nil =>
    simp only [TypeMap.insert, List.mem_singleton] at h
    exact Or.inl h
  | cons x xs ih =>
    unfold TypeMap.insert at h
    split at h
    · rcases List.mem_cons.mp h with h | h
      · exact Or.inl h
      · exact Or.inr h
    · split at h
      · rcases List.mem_cons.mp h with h | h
        · exact Or.inr (by rw [h]; exact List.mem_cons_self _ _)
        · rcases ih h with h | h
          · exact Or.inl h
          · exact Or.inr (List.mem_cons_of_mem _ h)
      · exact Or.inr h

/-- `insert` keeps the keys in ascending order. -/
theorem typeMap_insert_ordered (m : TypeMap) (kv : String × String) (h : TypeMap.Ordered m) :
    TypeMap.Ordered (TypeMap.insert m kv) := by
  induction m with
  | nil => exact List.pairwise_singleton _ _
  | cons x xs ih =>
    have hx := List.pairwise_cons.mp h
    unfold TypeMap.insert
    split
    · rename_i hlt
      refine List.pairwise_cons.mpr ⟨?_, h⟩
      intro e he
      rcases List.mem_cons.mp he with he | he
      · rw [he]; exact hlt
      · exact str_lt_trans hlt (hx.1 e he)
    · split
      · rename_i hlt
        refine List.pairwise_cons.mpr ⟨?_, ih hx.2⟩
        intro e he
        rcases typeMap_mem_insert xs kv e he with he | he
        · rw [he]; exact hlt
        · exact hx.1 e he
      · exact h

/-- `insert` does not change what `find` yields for another key. -/
theorem typeMap_find_insert_ne (m : TypeMap) (kv : String × String) (k : String)
    (hk : kv.1 ≠ k) : TypeMap.find (TypeMap.insert m kv) k = TypeMap.find m k := by
  induction m with
  | nil => simp [TypeMap.insert, TypeMap.find, hk]
  | cons x xs ih =>
    unfold TypeMap.insert
    split
    · simp [TypeMap.find, List.find?_cons, hk]
    · split
      · unfold TypeMap.find at ih ⊢
        simp only [List.find?_cons]
        rw [ih]
      · rfl

/-- In a map without the key, `insert` makes `find` yield the inserted entry. -/
theorem typeMap_find_insert_absent (m : TypeMap) (kv : String × String)
    (h : ∀ e ∈ m, e.1 ≠ kv.1) : TypeMap.find (TypeMap.insert m kv) kv.1 = some kv := by
  induction m with
  | nil => simp [TypeMap.insert, TypeMap.find]
  | cons x xs ih =>
    have hx : x.1 ≠ kv.1 := h x (List.mem_cons_self _ _)
    have hxs := ih (fun e he => h e (List.mem_cons_of_mem _ he))
    unfold TypeMap.insert
    split
    · simp [TypeMap.find, List.find?_cons]
    · split
      · unfold TypeMap.find at hxs ⊢
        simp only [List.find?_cons, hx, decide_False]
        exact hxs
      · rename_i h1 h2
        rcases str_lt_trichotomy kv.1 x.1 with h3 | h3 | h3
        · exact absurd h3 h1
        · exact absurd h3.symm hx
        · exact absurd h3 h2

theorem typeMap_find_absent (m : TypeMap) (k : String) (h : ∀ e ∈ m, e.1 ≠ k) :
    TypeMap.find m k = none := by
  unfold TypeMap.find
  rw [List.find?_eq_none]
  intro e he
  simpa using h e he

theorem typeMap_lower_bound_none (m : TypeMap) (t : String)
    (hl : TypeMap.lower_bound m t = none) : ∀ e ∈ m, e.1 ≠ t := by
  unfold TypeMap.lower_bound at hl
  rw [List.find?_eq_none] at hl
  intro e he heq
  have := hl e he
  rw [heq] at this
  simp only [decide_not, Bool.not_eq_true', decide_eq_false_iff_not, not_not] at this
  exact str_lt_irrefl t this

/-- In an ordered map, when `lower_bound` stops at a greater key, the key is absent. -/
theorem typeMap_lower_bound_absent (m : TypeMap) (t : String) (it : String × String)
    (hm : TypeMap.Ordered m) (hl : TypeMap.lower_bound m t = some it) (hlt : t < it.1) :
    ∀ e ∈ m, e.1 ≠ t := by
  induction m with
  | nil => intro e he; exact absurd he (List.not_mem_nil _)
  | cons x xs ih =>
    have hx := List.pairwise_cons.mp hm
    unfold TypeMap.lower_bound at hl ih
    rw [List.find?_cons] at hl
    by_cases hxt : x.1 < t
    · simp only [hxt, not_true_eq_false, decide_False] at hl
      intro e he
      rcases List.mem_cons.mp he with he | he
      · rw [he]
        intro heq
        rw [heq] at hxt
        exact str_lt_irrefl t hxt
      · exact ih hx.2 hl e he
    · simp only [hxt, not_false_eq_true, decide_True, Option.some.injEq] at hl
      subst hl
      intro e he heq
      rcases List.mem_cons.mp he with he | he
      · rw [he] at heq
        rw [heq] at hlt
        exact str_lt_irrefl t hlt
      · have := str_lt_trans hlt (hx.1 e he)
        rw [heq] at this
        exact str_lt_irrefl t this

/-- When `lower_bound` stops at a key that is not greater, that key is the one looked for, and
`find` yields an entry. -/
theorem typeMap_lower_bound_found (m : TypeMap) (t : String) (it : String × String)
    (hl : TypeMap.lower_bound m t = some it) (hn : ¬ t < it.1) :
    ∃ e, TypeMap.find m t = some e := by
  have hmem : it ∈ m := List.mem_of_find?_eq_some hl
  have hp := List.find?_some hl
  simp only [decide_not, Bool.not_eq_true', decide_eq_false_iff_not] at hp
  have heq : it.1 = t := by
    rcases str_lt_trichotomy it.1 t with h | h | h
    · exact absurd h hp
    · exact h
    · exact absurd h hn
  cases hf : TypeMap.find m t with
  | some e => exact ⟨e, rfl⟩
  | none =>
    unfold TypeMap.find at hf
    rw [List.find?_eq_none] at hf
    have := hf it hmem
    simp [heq] at this

/-- One `__initType` call on an ordered map. -/
theorem initType_spec (m : TypeMap) (hm : TypeMap.Ordered m) (t n : String) :
    __typeName (__initType m t n) t = some ((__typeName m t).getD n) ∧
    (∀ t1, t1 ≠ t → __typeName (__initType m t n) t1 = __typeName m t1) ∧
    ((__typeName m t).isSome → __initType m t n = m) ∧
    TypeMap.Ordered (__initType m t n) := by
  have habs : (∀ e ∈ m, e.1 ≠ t) →
      __typeName (TypeMap.insert m (t, n)) t = some ((__typeName m t).getD n) ∧
      (∀ t1, t1 ≠ t → __typeName (TypeMap.insert m (t, n)) t1 = __typeName m t1) ∧
      ((__typeName m t).isSome → TypeMap.insert m (t, n) = m) ∧
      TypeMap.Ordered (TypeMap.insert m (t, n)) := by
    intro ha
    have h1 := typeMap_find_insert_absent m (t, n) ha
    have h2 := typeMap_find_absent m t ha
    refine ⟨?_, ?_, ?_, typeMap_insert_ordered m (t, n) hm⟩
    · simp only [__typeName, h1, h2, Option.getD_none]
    · intro t1 ht1
      simp only [__typeName, typeMap_find_insert_ne m (t, n) t1 (fun h => ht1 h.symm)]
    · intro hs
      simp [__typeName, h2] at hs
  cases hl : TypeMap.lower_bound m t with
  | none =>
    have e : __initType m t n = TypeMap.insert m (t, n) := by
      unfold __initType
      rw [hl]
    rw [e]
    exact habs (typeMap_lower_bound_none m t hl)
  | some it =>
    by_cases hlt : t < it.1
    · have e : __initType m t n = TypeMap.insert m (t, n) := by
        unfold __initType
        rw [hl]
        simp only [hlt, not_true_eq_false, if_false]
      rw [e]
      exact habs (typeMap_lower_bound_absent m t it hm hl hlt)
    · have e : __initType m t n = m := by
        unfold __initType
        rw [hl]
        simp only [hlt, not_false_eq_true, if_true]
      rw [e]
      obtain ⟨x, hx⟩ := typeMap_lower_bound_found m t it hl hlt
      refine ⟨?_, fun _ _ => rfl, fun _ => rfl, hm⟩
      simp only [__typeName, hx, Option.getD_some]

/-- After a sequence of `__initType` calls on an ordered map, a type identifier resolves to
what it resolved to before, if it did, and else to the first name the sequence registers
for it. -/
theorem initTypes_typeName (t1 : String) (regs : List (String × String)) :
    ∀ m : TypeMap, TypeMap.Ordered m →
      TypeMap.Ordered (initTypes m regs) ∧
      __typeName (initTypes m regs) t1 =
        if (__typeName m t1).isSome then __typeName m t1
        else (regs.find? (fun r => r.1 = t1)).map Prod.snd := by
  induction regs with
  | nil =>
    intro m hm
    refine ⟨hm, ?_⟩
    cases h : __typeName m t1 <;> simp [initTypes, h]
  | cons r rs ih =>
    intro m hm
    obtain ⟨h1, h2, _, h4⟩ := initType_spec m hm r.1 r.2
    have hstep : initTypes m (r :: rs) = initTypes (__initType m r.1 r.2) rs := rfl
    obtain ⟨ho, hv⟩ := ih (__initType m r.1 r.2) h4
    rw [hstep]
    refine ⟨ho, ?_⟩
    rw [hv]
    by_cases ht : r.1 = t1
    · subst ht
      rw [h1]
      cases h : __typeName m r.1 <;> simp [List.find?_cons]
    · rw [h2 t1 (fun h => ht h.symm)]
      simp [List.find?_cons, ht]

/-- C12: type registry, first registration wins.  For every state of `typeMap` (a `std::map`,
so with its keys in ascending order), type identifier `t` and name `n`: after
`__initType(t, n)`, `__typeName(t)` returns the name registered first for `t` (the name it
returned before if there was one, else `n`); `__typeName` of every other identifier is
unchanged; when `t` was present the call changes nothing, so registering the same type again,
under any name, is a no-op; and the key order is kept.  Starting from the empty map, after any
sequence of registrations an identifier resolves to the first name registered for it, and an
identifier that was never registered resolves to `nullptr`. -/
theorem typeMap_first_registration_wins (typeMap : TypeMap) (hm : TypeMap.Ordered typeMap)
    (t n : String) :
    __typeName (__initType typeMap t n) t = some ((__typeName typeMap t).getD n) ∧
    (∀ t1, t1 ≠ t → __typeName (__initType typeMap t n) t1 = __typeName typeMap t1) ∧
    ((__typeName typeMap t).isSome → __initType typeMap t n = typeMap) ∧
    (∀ n1, __initType (__initType typeMap t n) t n1 = __initType typeMap t n) ∧
    TypeMap.Ordered (__initType typeMap t n) ∧
    (∀ regs t1, __typeName (initTypes [] regs) t1 =
      (regs.find? (fun r => r.1 = t1)).map Prod.snd) ∧
    (∀ regs t1, (∀ r ∈ regs, r.1 ≠ t1) → __typeName (initTypes [] regs) t1 = none) := by
  obtain ⟨h1, h2, h3, h4⟩ := initType_spec typeMap hm t n
  have hreach : ∀ regs t1, __typeName (initTypes [] regs) t1 =
      (regs.find? (fun r => r.1 = t1)).map Prod.snd := by
    intro regs t1
    have := (initTypes_typeName t1 regs [] List.Pairwise.nil).2
    simpa [__typeName, TypeMap.find] using this
  refine ⟨h1, h2, h3, ?_, h4, hreach, ?_⟩
  · intro n1
    apply (initType_spec (__initType typeMap t n) h4 t n1).2.2.1
    rw [h1]
    rfl
  · intro regs t1 hno
    rw [hreach]
    have : regs.find? (fun r => r.1 = t1) = none := by
      rw [List.find?_eq_none]
      intro r hr
      simpa using hno r hr
    rw [this]
    rfl

theorem typeMap_first_registration_wins_witness :
    TypeMap.Ordered [("a", "A"), ("c", "C")] ∧
    __typeName (__initType [("a", "A"), ("c", "C")] "b" "B") "b" = some "B" ∧
    __typeName (__initType [("a", "A"), ("c", "C")] "c" "B") "c" = some "C" ∧
    __typeName (__initType [("a", "A"), ("c", "C")] "b" "B") "c" = some "C" := by
  have ho : TypeMap.Ordered [("a", "A"), ("c", "C")] := by
    simp [TypeMap.Ordered]
    decide
  have hb := typeMap_first_registration_wins [("a", "A"), ("c", "C")] ho "b" "B"
  have hc := typeMap_first_registration_wins [("a", "A"), ("c", "C")] ho "c" "B"
  refine ⟨ho, ?_, ?_, ?_⟩
  · rw [hb.1]; simp [__typeName, TypeMap.find]
  · rw [hc.1]; simp [__typeName, TypeMap.find]
  · rw [hb.2.1 "c" (by decide)]; simp [__typeName, TypeMap.find]

/-! ## Null entities (C11) -/

/-- C11: null object push.  In every world (so for every state of the identity cache), pushing
a null object through `push(UObject*)`, a null class through `pushClass`, a null struct type
through `pushStruct`, or an object-reference property whose value is the null pointer through
`pushUObjectProperty`, returns 1 in the world that differs from the one before only by a nil on
top of the stack: exactly one script value, nil, is produced, the heap holds no new wrapper, and
the identity cache is what it was. -/
theorem push_null (oh : ObjectHost) (w : World) (prop : UProperty) (parms : Nat) :
    push_UObject oh none w = .ok 1 { w with stack := .nil :: w.stack } ∧
    pushClass oh none w = .ok 1 { w with stack := .nil :: w.stack } ∧
    pushStruct oh none w = .ok 1 { w with stack := .nil :: w.stack } ∧
    (prop.cls = UObjectProperty_StaticClass →
      (w.mem (prop.ContainerPtrToValuePtr parms)).asObject = none →
      pushUObjectProperty oh prop parms w = .ok 1 { w with stack := .nil :: w.stack }) ∧
    ({ w with stack := .nil :: w.stack } : World).heap = w.heap ∧
    cacheTable { w with stack := .nil :: w.stack } = cacheTable w := by
  refine ⟨rfl, rfl, rfl, ?_, rfl, rfl⟩
  intro hcls hnull
  simp only [UProperty.ContainerPtrToValuePtr] at hnull
  simp [pushUObjectProperty, Cast, hcls, ensure, deref, UProperty.GetPropertyValue_InContainer,
    UProperty.ContainerPtrToValuePtr, readMem, hnull, Cast_UWidgetTree, push_UObject,
    lua_pushnil, pushValue]

theorem push_null_witness :
    objAt8.cls = UObjectProperty_StaticClass ∧
    (emptyWorld.mem (objAt8.ContainerPtrToValuePtr 0)).asObject = none ∧
    pushUObjectProperty structHost objAt8 0 emptyWorld =
      .ok 1 { emptyWorld with stack := [.nil] } :=
  ⟨rfl, rfl, (push_null structHost emptyWorld objAt8 0).2.2.2.1 rfl rfl⟩

/-! ## Descriptor pinning (C13) -/

/-- C13, at the failing input.  `structConstruct` is called twice for the struct-type
descriptor at address 700: both calls return one wrapper, the two `LuaStruct` objects (at
addresses 2008 and 2017) share the descriptor, and the descriptor is rooted.  Then the
collector finalizes the first wrapper: `gcStruct` returns, the first `LuaStruct` is gone, the
second is still there with its descriptor at address 700, and that descriptor is no longer
rooted. -/
theorem gcStruct_shared_descriptor :
    ((structConstruct structHost >>= fun _ => structConstruct structHost)
      constructWorld).value? = some 1 ∧
    twoStructsWorld.stack = [.userdata 2, .userdata 1, .userdata 0] ∧
    twoStructsWorld.heap 1 = some (.userdata 2008 none) ∧
    twoStructsWorld.heap 2 = some (.userdata 2017 none) ∧
    twoStructsWorld.luaStructs 2008 = some ⟨2000, 8, ⟨700, 8⟩⟩ ∧
    twoStructsWorld.luaStructs 2017 = some ⟨2009, 8, ⟨700, 8⟩⟩ ∧
    twoStructsWorld.rooted 700 = true ∧
    (gcStruct gcStructWorld).value? = some 0 ∧
    (gcStruct gcStructWorld).world.luaStructs 2008 = none ∧
    (gcStruct gcStructWorld).world.luaStructs 2017 = some ⟨2009, 8, ⟨700, 8⟩⟩ ∧
    (gcStruct gcStructWorld).world.rooted 700 = false := by
  have h1 : index2addr [LuaValue.userdata 0] [] 1 = some (.userdata 0) := by decide
  have h2 : index2addr [LuaValue.userdata 1, LuaValue.userdata 0] [] 1 =
      some (.userdata 0) := by decide
  have h3 : index2addr [LuaValue.userdata 1] [] 1 = some (.userdata 1) := by decide
  have hrun : (structConstruct structHost >>= fun _ => structConstruct structHost)
      constructWorld = .ok 1 { constructWorld with
        stack := [.userdata 2, .userdata 1, .userdata 0]
        heap := fun r =>
          if r = 2 then some (.userdata 2017 none)
          else if r = 1 then some (.userdata 2008 none)
          else constructWorld.heap r
        nextRef := 3
        mem := fun a =>
          if 2009 ≤ a ∧ a < 2009 + 8 then .zero
          else if 2000 ≤ a ∧ a < 2000 + 8 then .zero else constructWorld.mem a
        brk := 2018
        luaStructs := fun a =>
          if a = 2017 then some ⟨2009, 8, ⟨700, 8⟩⟩
          else if a = 2008 then some ⟨2000, 8, ⟨700, 8⟩⟩ else none
        rooted := fun p => if p = 700 then true else if p = 700 then true else false } := by
    simp [structConstruct, checkValue_UScriptStruct, h1, h2, constructWorld, emptyWorld,
      structHost, FMemory_Malloc, InitializeStruct, new_LuaStruct, push_LuaStruct]
  have hw : twoStructsWorld = { constructWorld with
        stack := [.userdata 2, .userdata 1, .userdata 0]
        heap := fun r =>
          if r = 2 then some (.userdata 2017 none)
          else if r = 1 then some (.userdata 2008 none)
          else constructWorld.heap r
        nextRef := 3
        mem := fun a =>
          if 2009 ≤ a ∧ a < 2009 + 8 then .zero
          else if 2000 ≤ a ∧ a < 2000 + 8 then .zero else constructWorld.mem a
        brk := 2018
        luaStructs := fun a =>
          if a = 2017 then some ⟨2009, 8, ⟨700, 8⟩⟩
          else if a = 2008 then some ⟨2000, 8, ⟨700, 8⟩⟩ else none
        rooted := fun p => if p = 700 then true else if p = 700 then true else false } := by
    unfold twoStructsWorld
    rw [hrun]
    rfl
  have hgc : gcStruct gcStructWorld = .ok 0 { gcStructWorld with
      luaStructs := fun a => if a = 2008 then none else gcStructWorld.luaStructs a
      rooted := fun p => if p = 700 then false else gcStructWorld.rooted p } := by
    simp [gcStruct, CheckUD, delete_LuaStruct, getLuaStruct, FMemory_Free, RemoveFromRoot,
      gcStructWorld, hw, h3, constructWorld, emptyWorld]
  rw [hgc, hrun]
  simp [Result.value?, Result.world, gcStructWorld, hw]

/-! ## Zero-size substitution (C14) -/

/-- What `structConstruct` does when argument 1 is the wrapper of a struct-type descriptor: it
allocates a buffer of `GetStructureSize()` bytes, of one byte when that size is 0, has the host
initialize it, and pushes a new wrapper of a new `LuaStruct` that records that size. -/
theorem structConstruct_eq (oh : ObjectHost) (w : World) (r p : Nat) (mt : Option Nat)
    (uss : UScriptStruct)
    (hud : index2value w 1 = some (.userdata r))
    (hheap : w.heap r = some (.userdata p mt))
    (hst : oh.structAt p = some uss) :
    structConstruct oh w = .ok 1 { w with
      stack := .userdata w.nextRef :: w.stack
      heap := fun x =>
        if x = w.nextRef then some (.userdata (w.brk + max uss.structureSize 1) none)
        else w.heap x
      nextRef := w.nextRef + 1
      mem := oh.InitializeStruct uss w.brk w.mem
      rooted := fun x => if x = uss.addr then true else w.rooted x
      brk := w.brk + max uss.structureSize 1 + 1
      luaStructs := fun a =>
        if a = w.brk + max uss.structureSize 1 then
          some ⟨w.brk, max uss.structureSize 1, uss⟩
        else w.luaStructs a } := by
  simp only [index2value_eq] at hud
  have hsz : (if uss.structureSize ≠ 0 then uss.structureSize else 1) =
      max uss.structureSize 1 := by
    split <;> omega
  have hsz2 : (if uss.structureSize = 0 then 1 else uss.structureSize) =
      max uss.structureSize 1 := by
    split <;> omega
  simp [structConstruct, checkValue_UScriptStruct, hud, hheap, hst, FMemory_Malloc,
    InitializeStruct, new_LuaStruct, push_LuaStruct, hsz, hsz2]

/-- C14, counterexample: a size mismatch that the substitution masks.  `structConstruct` for
the descriptor of reported size 0 builds a wrapper that records one byte; checking this wrapper
into the non-vector struct property of declared size 1, with the parameter block at address 50,
raises no error: the check returns 0 and has overwritten the byte 7 at address 50. -/
theorem zero_size_masks_mismatch :
    structHost.structAt 710 = some ⟨710, 0⟩ ∧
    byteStructProp.GetSize = 1 ∧
    constructWorld0.mem 50 = .byte 7 ∧
    ((structConstruct structHost >>= fun _ =>
      checkUStructProperty plainHost byteStructProp 50 (-1)) constructWorld0).value? =
        some 0 ∧
    ((structConstruct structHost >>= fun _ =>
      checkUStructProperty plainHost byteStructProp 50 (-1)) constructWorld0).world.mem 50 =
        .zero := by
  have h1 : index2addr [LuaValue.userdata 0] [] 1 = some (.userdata 0) := by decide
  have hc := structConstruct_eq structHost constructWorld0 0 710 none ⟨710, 0⟩
    (by simp [constructWorld0, emptyWorld, h1]) rfl rfl
  have hk := checkUStructProperty_eq plainHost byteStructProp 50 (-1)
    { constructWorld0 with
      stack := .userdata constructWorld0.nextRef :: constructWorld0.stack
      heap := fun x =>
        if x = constructWorld0.nextRef then some (.userdata (constructWorld0.brk + max 0 1) none)
        else constructWorld0.heap x
      nextRef := constructWorld0.nextRef + 1
      mem := structHost.InitializeStruct ⟨710, 0⟩ constructWorld0.brk constructWorld0.mem
      rooted := fun x => if x = 710 then true else constructWorld0.rooted x
      brk := constructWorld0.brk + max 0 1 + 1
      luaStructs := fun a =>
        if a = constructWorld0.brk + max 0 1 then
          some ⟨constructWorld0.brk, max 0 1, ⟨710, 0⟩⟩
        else constructWorld0.luaStructs a }
    constructWorld0.nextRef (constructWorld0.brk + max 0 1) none
    ⟨constructWorld0.brk, max 0 1, ⟨710, 0⟩⟩ rfl
    (by simp [constructWorld0, emptyWorld])
    (by simp) (by simp) (by simp)
  refine ⟨rfl, rfl, rfl, ?_, ?_⟩
  · rw [bind_apply, hc]
    simp only []
    rw [hk]
    simp [byteStructProp, UProperty.GetSize, Result.value?]
  · rw [bind_apply, hc]
    simp only []
    rw [hk]
    simp [byteStructProp, UProperty.GetSize, Result.world, constructWorld0, emptyWorld,
      structHost]

/-- C14, amended: the recorded size decides.  For every struct-type descriptor of reported
size `S` and every non-vector struct property of declared size `P`: `structConstruct` returns
one wrapper, whose struct value records `max(S,1)` bytes; checking that wrapper into the
property fails with the size-mismatch error that reports `P` and `max(S,1)`, in the world
`structConstruct` left (nothing is written), whenever `P ≠ max(S,1)`; and when `P = max(S,1)`,
which for `S = 0` is `P = 1`, the check returns 0 after copying a struct value into the
parameter block. -/
theorem structConstruct_check_size (h : Host) (oh : ObjectHost) (w : World) (r p : Nat)
    (mt : Option Nat) (uss : UScriptStruct) (prop : UProperty) (parms : Nat)
    (hud : index2value w 1 = some (.userdata r))
    (hheap : w.heap r = some (.userdata p mt))
    (hst : oh.structAt p = some uss)
    (hcls : prop.cls = UStructProperty_StaticClass)
    (hnv : w.VectorStruct ≠ some prop.Struct) :
    ∃ w1 ls, structConstruct oh w = .ok 1 w1 ∧
      checkValue_LuaStruct (-1) w1 = .ok ls w1 ∧
      ls.size = max uss.structureSize 1 ∧ ls.uss = uss ∧
      (prop.GetSize ≠ max uss.structureSize 1 →
        checkUStructProperty h prop parms (-1) w1 =
          .error (.structSize prop.GetSize (max uss.structureSize 1)) w1) ∧
      (prop.GetSize = max uss.structureSize 1 →
        checkUStructProperty h prop parms (-1) w1 = .ok 0 { w1 with
          mem := fun a =>
            if parms ≤ a ∧ a < parms + prop.Struct.structureSize * 1
            then w1.mem (ls.buf + (a - parms)) else w1.mem a }) := by
  have hc := structConstruct_eq oh w r p mt uss hud hheap hst
  have hk := checkUStructProperty_eq h prop parms (-1)
    { w with
      stack := .userdata w.nextRef :: w.stack
      heap := fun x =>
        if x = w.nextRef then some (.userdata (w.brk + max uss.structureSize 1) none)
        else w.heap x
      nextRef := w.nextRef + 1
      mem := oh.InitializeStruct uss w.brk w.mem
      rooted := fun x => if x = uss.addr then true else w.rooted x
      brk := w.brk + max uss.structureSize 1 + 1
      luaStructs := fun a =>
        if a = w.brk + max uss.structureSize 1 then
          some ⟨w.brk, max uss.structureSize 1, uss⟩
        else w.luaStructs a }
    w.nextRef (w.brk + max uss.structureSize 1) none
    ⟨w.brk, max uss.structureSize 1, uss⟩ hcls hnv (by simp) (by simp) (by simp)
  refine ⟨_, ⟨w.brk, max uss.structureSize 1, uss⟩, hc, ?_, rfl, rfl, ?_, ?_⟩
  · simp [checkValue_LuaStruct]
  · intro hne
    rw [hk, if_pos hne]
  · intro heq
    rw [hk, if_neg (by simpa using heq)]

theorem structConstruct_check_size_witness :
    index2value constructWorld 1 = some (.userdata 0) ∧
    constructWorld.heap 0 = some (.userdata 700 none) ∧
    structHost.structAt 700 = some ⟨700, 8⟩ ∧
    byteStructProp.cls = UStructProperty_StaticClass ∧
    constructWorld.VectorStruct ≠ some byteStructProp.Struct ∧
    ((structConstruct structHost >>= fun _ =>
      checkUStructProperty plainHost byteStructProp 50 (-1)) constructWorld).error? =
        some (.structSize 1 8) := by
  have h1 : index2value constructWorld 1 = some (.userdata 0) := by
    have : index2addr [LuaValue.userdata 0] [] 1 = some (.userdata 0) := by decide
    simp [constructWorld, emptyWorld, this]
  have hnv : constructWorld.VectorStruct ≠ some byteStructProp.Struct := by
    simp [constructWorld, emptyWorld]
  obtain ⟨w1, ls, hc, _, _, _, hne, _⟩ :=
    structConstruct_check_size plainHost structHost constructWorld 0 700 none ⟨700, 8⟩
      byteStructProp 50 h1 rfl rfl rfl hnv
  refine ⟨h1, rfl, rfl, rfl, hnv, ?_⟩
  rw [bind_apply, hc]
  simp only []
  rw [hne (by decide)]
  rfl

end slua
